import Mathlib

/-!
Remote signing session of eudi-lib-podofo.

A shallow embedding of `src/podofo/main/PdfRemoteSignDocumentSession.cpp`.

* `std::string` values that the code only compares (conformance level, OID)
  are Lean strings; `std::string`, `charbuff` and `std::vector<unsigned char>`
  values whose bytes the code reads are lists of bytes.
* A C++ exception is an `Except.error`; a member function that changes the
  session returns the new session next to its result, so the state left
  behind by a throwing call is visible.
* The OpenSSL primitives and the host PDF toolkit are not part of the file:
  the base64 filter is given by RFC 4648, the remaining collaborators are
  the fields of `Env`.
-/

namespace PoDoFo

/-! ## Bytes -/

abbrev Byte := Fin 256

abbrev Bytes := List Byte

/-- The conversion `static_cast<unsigned char>(n)`. -/
def toByte (n : Nat) : Byte := ⟨n % 256, Nat.mod_lt _ (by decide)⟩

/-- The bytes of an ASCII literal. -/
def ascii (s : String) : Bytes := s.data.map (fun c => toByte c.toNat)

/-- Exceptions: `std::runtime_error` thrown by the session itself, whatever a
collaborator (PDF toolkit, filesystem) throws, and the dereference of a null
pointer, which ends the call without a defined result. -/
inductive Error where
  | runtime_error (what : String)
  | collaborator (what : String)
  | nullDereference (what : String)
deriving DecidableEq, Repr

deriving instance DecidableEq for Except

/-! ## Base64 filter (`BIO_f_base64` with `BIO_FLAGS_BASE64_NO_NL`) -/

/-- The base64 alphabet of RFC 4648: the character of a 6-bit value. -/
def b64Char (v : Nat) : Byte :=
  if v < 26 then toByte (65 + v)
  else if v < 52 then toByte (97 + (v - 26))
  else if v < 62 then toByte (48 + (v - 52))
  else if v = 62 then toByte 43
  else toByte 47

/-- The 6-bit value of a base64 character, `none` outside the alphabet. -/
def b64Val (c : Byte) : Option Nat :=
  if 65 ≤ c.val ∧ c.val ≤ 90 then some (c.val - 65)
  else if 97 ≤ c.val ∧ c.val ≤ 122 then some (c.val - 97 + 26)
  else if 48 ≤ c.val ∧ c.val ≤ 57 then some (c.val - 48 + 52)
  else if c.val = 43 then some 62
  else if c.val = 47 then some 63
  else none

/-- The padding character `=`. -/
def b64Pad : Byte := toByte 61

/-- What a base64 filter in no-newline mode emits for the bytes written to
it, once flushed: the RFC 4648 encoding with padding, on one line. -/
def b64Encode : Bytes → Bytes
  | a :: b :: c :: rest =>
      b64Char (a.val / 4) :: b64Char (a.val % 4 * 16 + b.val / 16) ::
        b64Char (b.val % 16 * 4 + c.val / 64) :: b64Char (c.val % 64) :: b64Encode rest
  | [a, b] =>
      [b64Char (a.val / 4), b64Char (a.val % 4 * 16 + b.val / 16), b64Char (b.val % 16 * 4), b64Pad]
  | [a] => [b64Char (a.val / 4), b64Char (a.val % 4 * 16), b64Pad, b64Pad]
  | [] => []

/-- Decoding of the last group of four characters, which may be padded. -/
def b64DecodeLast (c0 c1 c2 c3 : Byte) : Option Bytes :=
  match b64Val c0, b64Val c1 with
  | some v0, some v1 =>
      if c2 = b64Pad ∧ c3 = b64Pad then some [toByte (v0 * 4 + v1 / 16)]
      else
        match b64Val c2 with
        | some v2 =>
            if c3 = b64Pad then some [toByte (v0 * 4 + v1 / 16), toByte (v1 % 16 * 16 + v2 / 4)]
            else
              match b64Val c3 with
              | some v3 =>
                  some [toByte (v0 * 4 + v1 / 16), toByte (v1 % 16 * 16 + v2 / 4),
                    toByte (v2 % 4 * 64 + v3)]
              | none => none
        | none => none
  | _, _ => none

/-- The bytes a base64 filter in no-newline mode yields for a one-line
input: groups of four alphabet characters, padding only at the end; `none`
for any other input. -/
def b64Decode : Bytes → Option Bytes
  | [] => some []
  | [c0, c1, c2, c3] => b64DecodeLast c0 c1 c2 c3
  | c0 :: c1 :: c2 :: c3 :: rest =>
      match b64Val c0, b64Val c1, b64Val c2, b64Val c3, b64Decode rest with
      | some v0, some v1, some v2, some v3, some out =>
          some (toByte (v0 * 4 + v1 / 16) :: toByte (v1 % 16 * 16 + v2 / 4) ::
            toByte (v2 % 4 * 64 + v3) :: out)
      | _, _, _, _, _ => none
  | _ => none

/-- One `BIO_read` of at most `cap` bytes from a base64 filter pushed on a
memory buffer holding `input`: the bytes delivered, or `none` when the call
returns a value `<= 0` (nothing decoded, or no room). The text is read as
canonical RFC 4648: for text with a trailing newline or space, or with an
incomplete last group, the result here is `none`, where the filter of
OpenSSL delivers the bytes of the complete groups. -/
def bioReadBase64 (input : Bytes) (cap : Nat) : Option Bytes :=
  match b64Decode input with
  | some out => if (out.take cap).length = 0 then none else some (out.take cap)
  | none => none

/-! ## Codec helpers of the session -/

/-- `PdfRemoteSignDocumentSession::ToBase64`: `BIO_write` returns 0 for an
empty buffer, which the function reports as a failure. -/
def ToBase64 (data : Bytes) : Except Error Bytes :=
  if data.length = 0 then .error (.runtime_error "BIO_write/flush failed")
  else .ok (b64Encode data)

/-- `PdfRemoteSignDocumentSession::ConvertDSSHashToSignedHash`: one read
into a buffer of 128 bytes. -/
def ConvertDSSHashToSignedHash (DSSHash : Bytes) : Except Error Bytes :=
  match bioReadBase64 DSSHash 128 with
  | none => .error (.runtime_error "Base64 decode failed")
  | some decoded => .ok decoded

/-- `PdfRemoteSignDocumentSession::ConvertBase64PEMtoDER` for a present
string (the output path is not used by the function). -/
def ConvertBase64PEMtoDER (base64PEM : Bytes) : Except Error Bytes :=
  if base64PEM.length = 0 then .ok []
  else
    match bioReadBase64 base64PEM (base64PEM.length * 3 / 4) with
    | none => .error (.runtime_error "Base64 decode failed")
    | some der => .ok der


/-- A lower-case hexadecimal digit, as `std::hex` prints it. -/
def hexDigit (n : Nat) : Byte := if n < 10 then toByte (48 + n) else toByte (87 + n)

/-- An upper-case hexadecimal digit, as `std::hex` with `std::uppercase`
prints it. -/
def upperHexDigit (n : Nat) : Byte := if n < 10 then toByte (48 + n) else toByte (55 + n)

/-- `PdfRemoteSignDocumentSession::ToHexString`: every byte, read as
`unsigned char`, printed in base 16 with width 2 and fill `0`. -/
def ToHexString : Bytes → Bytes
  | [] => []
  | c :: rest => hexDigit (c.val / 16) :: hexDigit (c.val % 16) :: ToHexString rest

/-- The value of a hexadecimal digit in either case. -/
def hexVal (c : Byte) : Option Nat :=
  if 48 ≤ c.val ∧ c.val ≤ 57 then some (c.val - 48)
  else if 97 ≤ c.val ∧ c.val ≤ 102 then some (c.val - 87)
  else if 65 ≤ c.val ∧ c.val ≤ 70 then some (c.val - 55)
  else none

/-- The C function `isspace` in the "C" locale. -/
def isspace (c : Byte) : Bool := (9 ≤ c.val && c.val ≤ 13) || c.val == 32

/-- The digit loop of `strtol` in base 16: stops at the first byte that is
not a hexadecimal digit. -/
def strtolDigits (acc : Nat) : Bytes → Nat
  | [] => acc
  | c :: rest =>
      match hexVal c with
      | some v => strtolDigits (acc * 16 + v) rest
      | none => acc

/-- The call `strtol(s, nullptr, 16)` on a NUL-terminated string: leading
white space, an optional sign, an optional `0x` prefix in front of a digit,
then digits. The session applies it to at most two characters, where the
result is far from the range limits of `long`. -/
def strtol16 (s : Bytes) : Int :=
  let body := s.dropWhile isspace
  let signed : Bool × Bytes :=
    match body with
    | c :: rest => if c.val = 45 then (true, rest) else if c.val = 43 then (false, rest) else (false, body)
    | [] => (false, body)
  let digits : Bytes :=
    match signed.2 with
    | z :: x :: d :: rest =>
        if z.val = 48 ∧ (x.val = 120 ∨ x.val = 88) ∧ (hexVal d).isSome then d :: rest else signed.2
    | other => other
  let n : Int := (strtolDigits 0 digits : Nat)
  if signed.1 then -n else n

/-- The conversion `static_cast<unsigned char>` of a `long`. -/
def longToByte (z : Int) : Byte := toByte (z % 256).toNat

/-- `PdfRemoteSignDocumentSession::HexToBytes`: `substr(i, 2)` for
`i = 0, 2, 4, ...`, each converted with `strtol`. -/
def HexToBytes : Bytes → Bytes
  | [] => []
  | [a] => [longToByte (strtol16 [a])]
  | a :: b :: rest => longToByte (strtol16 [a, b]) :: HexToBytes rest

/-- The C function `isalnum` in the "C" locale. -/
def isalnum (c : Byte) : Bool :=
  (48 ≤ c.val && c.val ≤ 57) || (65 ≤ c.val && c.val ≤ 90) || (97 ≤ c.val && c.val ≤ 122)

/-- `PdfRemoteSignDocumentSession::UrlEncode`. -/
def UrlEncode : Bytes → Bytes
  | [] => []
  | c :: rest =>
      if isalnum c || c.val == 45 || c.val == 95 || c.val == 46 || c.val == 126 then
        c :: UrlEncode rest
      else
        toByte 37 :: upperHexDigit (c.val / 16) :: upperHexDigit (c.val % 16) :: UrlEncode rest

/-! ## PDF objects (host toolkit) -/

/-- Modelled from the spec: `PdfReference`, the indirect reference to an
object of the document. -/
abbrev PdfReference := Nat

/-- Modelled from the spec: a value of the toolkit stored directly in a
dictionary or an array, an "indirect reference" or any other value (a number, a name, an inline dictionary, ...),
on which `GetReference()` raises. -/
inductive PdfVariant where
  | reference (r : PdfReference)
  | direct (text : String)
deriving DecidableEq, Repr

/-- `PdfObject::GetReference`. -/
def PdfVariant.GetReference : PdfVariant → Except Error PdfReference
  | .reference r => .ok r
  | .direct _ => .error (.collaborator "InvalidDataType")

/-- Modelled from the spec: `PdfDictionary`; keys are names, at most one
entry per key is read. -/
abbrev PdfDictionary := List (String × PdfVariant)

/-- `PdfDictionary::GetKey`: the stored value, without resolving it. -/
def PdfDictionary.GetKey (d : PdfDictionary) (key : String) : Option PdfVariant :=
  List.lookup key d

/-- `PdfDictionary::HasKey`. -/
def PdfDictionary.HasKey (d : PdfDictionary) (key : String) : Bool :=
  (PdfDictionary.GetKey d key).isSome

/-- `PdfDictionary::AddKey`: replaces the value of a key already present. -/
def PdfDictionary.AddKey (d : PdfDictionary) (key : String) (v : PdfVariant) : PdfDictionary :=
  if PdfDictionary.HasKey d key then d.map (fun kv => if kv.1 = key then (key, v) else kv)
  else d ++ [(key, v)]

/-- Modelled from the spec: `PdfObject`, as far as the session looks at an
indirect object: a dictionary (with the bytes of its stream when it has
one), an array, or anything else. -/
inductive PdfObject where
  | dictionary (dict : PdfDictionary) (stream : Option Bytes)
  | array (items : List PdfVariant)
  | other
deriving DecidableEq, Repr

/-- Modelled from the spec: `PdfIndirectObjectList`, the object graph of the
host PDF toolkit (declared outside the file), as the list of the indirect
objects with their references. -/
abbrev PdfIndirectObjectList := List (PdfReference × PdfObject)

/-- `PdfIndirectObjectList::GetObject`: `none` is the null pointer. -/
def PdfIndirectObjectList.GetObject (objs : PdfIndirectObjectList) (r : PdfReference) :
    Option PdfObject :=
  List.lookup r objs

/-- Modelled from the spec: the reference given to the next object created,
one that no object of the list has. -/
def PdfIndirectObjectList.freshRef (objs : PdfIndirectObjectList) : PdfReference :=
  (objs.map Prod.fst).foldr max 0 + 1

/-- Writing through a pointer to the object with reference `r`. -/
def PdfIndirectObjectList.setObject (objs : PdfIndirectObjectList) (r : PdfReference)
    (o : PdfObject) : PdfIndirectObjectList :=
  objs.map (fun ro => if ro.1 = r then (r, o) else ro)

/-- `PdfIndirectObjectList::CreateDictionaryObject`: a new empty dictionary,
appended under a fresh reference. -/
def PdfIndirectObjectList.CreateDictionaryObject (objs : PdfIndirectObjectList) :
    PdfReference × PdfIndirectObjectList :=
  (PdfIndirectObjectList.freshRef objs,
    objs ++ [(PdfIndirectObjectList.freshRef objs, .dictionary [] none)])

/-- `PdfIndirectObjectList::CreateArrayObject`: a new empty array, appended
under a fresh reference. -/
def PdfIndirectObjectList.CreateArrayObject (objs : PdfIndirectObjectList) :
    PdfReference × PdfIndirectObjectList :=
  (PdfIndirectObjectList.freshRef objs,
    objs ++ [(PdfIndirectObjectList.freshRef objs, .array [])])

/-- Modelled from the spec: `PdfMemDocument` as the session uses it, the
dictionary of the catalog and the other indirect objects. -/
structure PdfMemDocument where
  catalog : PdfDictionary
  objects : PdfIndirectObjectList
deriving DecidableEq, Repr

/-- Modelled from the spec: `ValidationData` (declared in the header), the
record of the three lists of base64 strings. -/
structure ValidationData where
  certificatesBase64 : List Bytes
  crlsBase64 : List Bytes
  ocspsBase64 : List Bytes
deriving DecidableEq, Repr

/-- Modelled from the spec: `ValidationData::empty`, "an empty record" is
one whose three lists are empty. -/
def ValidationData.empty (v : ValidationData) : Bool :=
  v.certificatesBase64.isEmpty && v.crlsBase64.isEmpty && v.ocspsBase64.isEmpty

/-! ## DSS writer -/

/-- `createCertificateStream`: decode, then create a dictionary object whose
stream holds the raw bytes (`SetData(buffer, {}, true)`). The result is the
reference of the new object; a failed decoding leaves the document as it is. -/
def createCertificateStream (doc : PdfMemDocument) (certBase64 : Bytes) :
    Except Error PdfReference × PdfMemDocument :=
  match ConvertBase64PEMtoDER certBase64 with
  | .error e => (.error e, doc)
  | .ok certDer =>
      let created := PdfIndirectObjectList.CreateDictionaryObject doc.objects
      (.ok created.1,
        { doc with objects :=
            PdfIndirectObjectList.setObject created.2 created.1 (.dictionary [] (some certDer)) })

/-- `createCRLStream`: the same steps as `createCertificateStream`. -/
def createCRLStream (doc : PdfMemDocument) (crlBase64 : Bytes) :
    Except Error PdfReference × PdfMemDocument :=
  match ConvertBase64PEMtoDER crlBase64 with
  | .error e => (.error e, doc)
  | .ok crlDer =>
      let created := PdfIndirectObjectList.CreateDictionaryObject doc.objects
      (.ok created.1,
        { doc with objects :=
            PdfIndirectObjectList.setObject created.2 created.1 (.dictionary [] (some crlDer)) })

/-- `createOCSPStream`: the same steps as `createCertificateStream`. -/
def createOCSPStream (doc : PdfMemDocument) (ocspBase64 : Bytes) :
    Except Error PdfReference × PdfMemDocument :=
  match ConvertBase64PEMtoDER ocspBase64 with
  | .error e => (.error e, doc)
  | .ok ocspDer =>
      let created := PdfIndirectObjectList.CreateDictionaryObject doc.objects
      (.ok created.1,
        { doc with objects :=
            PdfIndirectObjectList.setObject created.2 created.1 (.dictionary [] (some ocspDer)) })

/-- `PdfArray::Add` through the pointer `pArray` into the array object `arr`. -/
def arrayAdd (objs : PdfIndirectObjectList) (arr : PdfReference) (v : PdfVariant) :
    PdfIndirectObjectList :=
  match PdfIndirectObjectList.GetObject objs arr with
  | some (.array items) => PdfIndirectObjectList.setObject objs arr (.array (items ++ [v]))
  | _ => objs

/-- The loop of `addToDssArray` (lines 560-563): one stream per item, its
reference appended to the array. -/
def addItems (createStreamFunc : PdfMemDocument → Bytes → Except Error PdfReference × PdfMemDocument)
    (arr : PdfReference) : List Bytes → PdfMemDocument → Except Error Unit × PdfMemDocument
  | [], doc => (.ok (), doc)
  | itemBase64 :: rest, doc =>
      match createStreamFunc doc itemBase64 with
      | (.error e, doc1) => (.error e, doc1)
      | (.ok stream, doc1) =>
          addItems createStreamFunc arr rest
            { doc1 with objects := arrayAdd doc1.objects arr (.reference stream) }

/-- The lambda `addToDssArray` of `createOrUpdateDSSCatalog`; `dss` is the
object `pDssDict` points into. -/
def addToDssArray (dss : PdfReference) (keyName : String) (data : List Bytes)
    (createStreamFunc : PdfMemDocument → Bytes → Except Error PdfReference × PdfMemDocument)
    (doc : PdfMemDocument) : Except Error Unit × PdfMemDocument :=
  match PdfIndirectObjectList.GetObject doc.objects dss with
  | some (.dictionary dssDict dssStream) =>
      match PdfDictionary.GetKey dssDict keyName with
      | some entry =>
          match PdfVariant.GetReference entry with
          | .error e => (.error e, doc)
          | .ok r =>
              match PdfIndirectObjectList.GetObject doc.objects r with
              | some (.array _) => addItems createStreamFunc r data doc
              | _ =>
                  (.error (.runtime_error ("Existing DSS entry for " ++ keyName ++ " is not an array.")),
                    doc)
      | none =>
          let created := PdfIndirectObjectList.CreateArrayObject doc.objects
          let linked : PdfObject :=
            .dictionary (PdfDictionary.AddKey dssDict keyName (.reference created.1)) dssStream
          addItems createStreamFunc created.1 data
            { doc with objects := PdfIndirectObjectList.setObject created.2 dss linked }
  | _ => (.error (.runtime_error "Failed to get or create DSS dictionary."), doc)

/-- Lines 521-534 of `createOrUpdateDSSCatalog`: the object holding the DSS
dictionary, reused or created. -/
def getOrCreateDss (doc : PdfMemDocument) : Except Error PdfReference × PdfMemDocument :=
  if PdfDictionary.HasKey doc.catalog "DSS" then
    match PdfDictionary.GetKey doc.catalog "DSS" with
    | some entry =>
        match PdfVariant.GetReference entry with
        | .error e => (.error e, doc)
        | .ok r =>
            match PdfIndirectObjectList.GetObject doc.objects r with
            | some (.dictionary _ _) => (.ok r, doc)
            | _ => (.error (.runtime_error "Existing DSS object is not a dictionary."), doc)
    | none => (.error (.collaborator "null pointer"), doc)
  else
    let created := PdfIndirectObjectList.CreateDictionaryObject doc.objects
    (.ok created.1,
      { catalog := PdfDictionary.AddKey doc.catalog "DSS" (.reference created.1),
        objects := created.2 })

/-- One guarded call of `addToDssArray` (lines 567-577). -/
def addIfNonEmpty (dss : PdfReference) (keyName : String) (data : List Bytes)
    (createStreamFunc : PdfMemDocument → Bytes → Except Error PdfReference × PdfMemDocument)
    (doc : PdfMemDocument) : Except Error Unit × PdfMemDocument :=
  if data.isEmpty then (.ok (), doc) else addToDssArray dss keyName data createStreamFunc doc

/-- `PdfRemoteSignDocumentSession::createOrUpdateDSSCatalog`. The document is
passed by reference: the second component is the document the call leaves
behind, also when it throws. -/
def createOrUpdateDSSCatalog (doc : PdfMemDocument) (validationData : ValidationData) :
    Except Error Unit × PdfMemDocument :=
  match getOrCreateDss doc with
  | (.error e, doc0) => (.error e, doc0)
  | (.ok dss, doc0) =>
      match addIfNonEmpty dss "Certs" validationData.certificatesBase64 createCertificateStream doc0 with
      | (.error e, doc1) => (.error e, doc1)
      | (.ok _, doc1) =>
          match addIfNonEmpty dss "CRLs" validationData.crlsBase64 createCRLStream doc1 with
          | (.error e, doc2) => (.error e, doc2)
          | (.ok _, doc2) =>
              addIfNonEmpty dss "OCSPs" validationData.ocspsBase64 createOCSPStream doc2

/-! ## Session state and collaborators -/

/-- Modelled from the spec: the enumeration `HashAlgorithm` of the session
header, "SHA256|SHA384|SHA512" and the value for any other OID. -/
inductive HashAlgorithm where
  | SHA256 | SHA384 | SHA512 | Unknown
deriving DecidableEq, Repr

/-- `PdfRemoteSignDocumentSession::hashAlgorithmFromOid`. -/
def hashAlgorithmFromOid (oid : String) : HashAlgorithm :=
  if oid = "2.16.840.1.101.3.4.2.1" then .SHA256
  else if oid = "2.16.840.1.101.3.4.2.2" then .SHA384
  else if oid = "2.16.840.1.101.3.4.2.3" then .SHA512
  else .Unknown

/-- Modelled from the spec: the enumeration `PdfSignatureType` of the
toolkit, with the four PAdES variants "B / B-T / B-LT / B-LTA". -/
inductive PdfSignatureType where
  | Unknown | PAdES_B | PAdES_B_T | PAdES_B_LT | PAdES_B_LTA | Pkcs7
deriving DecidableEq, Repr

/-- Modelled from the spec: the enumeration `PdfHashingAlgorithm` of the
toolkit. -/
inductive PdfHashingAlgorithm where
  | Unknown | SHA256 | SHA384 | SHA512
deriving DecidableEq, Repr

/-- Modelled from the spec: `PdfSignerCmsParams`, the pair
"{SignatureType, HashingAlgorithm}" given to the CMS signer. -/
structure PdfSignerCmsParams where
  SignatureType : PdfSignatureType
  Hashing : PdfHashingAlgorithm
deriving DecidableEq, Repr

/-- Modelled from the spec: `PdfSaveOptions`, as the two flags the session
passes, `NoMetadataUpdate` and `NoFlateCompress`. -/
structure PdfSaveOptions where
  NoMetadataUpdate : Bool
  NoFlateCompress : Bool
deriving DecidableEq, Repr

/-- `PdfSaveOptions::NoMetadataUpdate`. -/
def PdfSaveOptions.noMetadataUpdate : PdfSaveOptions := ⟨true, false⟩

/-- `PdfSaveOptions::NoMetadataUpdate | PdfSaveOptions::NoFlateCompress`. -/
def PdfSaveOptions.noMetadataUpdateNoFlateCompress : PdfSaveOptions := ⟨true, true⟩

abbrev PdfSignerId := Nat

/-- Modelled from the spec: `PdfSigningResults`, the "mapping from
`SignerId` to an intermediate byte buffer". -/
structure PdfSigningResults where
  Intermediate : List (PdfSignerId × Bytes)
deriving DecidableEq, Repr

/-- The assignment `results.Intermediate[id] = buff`. -/
def PdfSigningResults.assign (r : PdfSigningResults) (id : PdfSignerId) (buff : Bytes) :
    PdfSigningResults :=
  if (List.lookup id r.Intermediate).isSome then
    ⟨r.Intermediate.map (fun kv => if kv.1 = id then (id, buff) else kv)⟩
  else ⟨r.Intermediate ++ [(id, buff)]⟩

/-- The read `results.Intermediate[id]`: `operator[]` inserts an empty
buffer for an absent key. -/
def PdfSigningResults.index (r : PdfSigningResults) (id : PdfSignerId) :
    Bytes × PdfSigningResults :=
  match List.lookup id r.Intermediate with
  | some buff => (buff, r)
  | none => ([], ⟨r.Intermediate ++ [(id, [])]⟩)

/-- Modelled from the spec: the CMS signer `PdfSignerCms` (defined outside the
file): its construction arguments, the attribute size reserved, and the
timestamp token accepted by `SetTimestampToken`. -/
structure PdfSignerCms where
  cert : Bytes
  chain : List Bytes
  params : PdfSignerCmsParams
  reservedAttributeSize : Nat
  timestampToken : Option Bytes
deriving DecidableEq, Repr

/-- Modelled from the spec: the stream device the session and the signing
contexts share, as the handle of a `FileStreamDevice` on the output path. -/
structure StreamDevice where
  path : String
deriving DecidableEq, Repr

/-- The members of `PdfDocTimeStampSigner`. -/
structure PdfDocTimeStampSigner where
  m_device : Option StreamDevice
  m_useManualByteRange : Bool
  m_hashBuffer : Bytes
deriving DecidableEq, Repr

/-- The two signing contexts of a session: `_ctx` and `_ltaCtx`. -/
inductive Context where
  | ctx | ltaCtx
deriving DecidableEq, Repr

/-- A call the session makes on a collaborator (filesystem, PDF toolkit,
signing context, CMS signer), with the arguments it passes. The call of
`createOrUpdateDSSCatalog` is recorded too. -/
inductive Call where
  | copy_file (src dst : String)
  | FileStreamDevice (path : String)
  | Load
  | AddSigFlags (value : Int)
  | CreateField (name : String)
  | SetFlags (field : String) (flags : Nat)
  | SetSignatureDate
  | PdfSignerCms (cert : Bytes) (chain : List Bytes) (params : PdfSignerCmsParams)
  | ReserveAttributeSize (n : Nat)
  | AddSigner (c : Context)
  | StartSigning (c : Context) (opts : PdfSaveOptions)
  | SetTimestampToken (token : Bytes)
  | FinishSigning (c : Context) (results : PdfSigningResults)
  | Seek (offset : Nat)
  | createOrUpdateDSSCatalog (validationData : ValidationData)
  | SaveUpdate (doc : PdfMemDocument) (opts : PdfSaveOptions)
deriving DecidableEq, Repr

/-- The access method of an `ACCESS_DESCRIPTION`, as `OBJ_obj2nid(ad->method)`
tells it: `NID_ad_OCSP`, `NID_ad_ca_issuers`, or another one. -/
inductive AccessMethod where
  | NID_ad_OCSP | NID_ad_ca_issuers | other
deriving DecidableEq, Repr

/-- `GENERAL_NAME` as the session reads it: a name of type `GEN_URI` with the
bytes of its `uniformResourceIdentifier`, or a name of another type. -/
inductive GENERAL_NAME where
  | GEN_URI (uniformResourceIdentifier : Bytes)
  | other
deriving DecidableEq, Repr

/-- One entry of the Authority Information Access extension. -/
structure ACCESS_DESCRIPTION where
  method : AccessMethod
  location : GENERAL_NAME
deriving DecidableEq, Repr

/-- `DIST_POINT_NAME`: of type 0 with the general names of `name.fullname`,
or of type 1 (a name relative to the issuer). -/
inductive DIST_POINT_NAME where
  | fullname (names : List GENERAL_NAME)
  | relativename
deriving DecidableEq, Repr

/-- `DIST_POINT`: `distpoint` is null for a point without a name. -/
structure DIST_POINT where
  distpoint : Option DIST_POINT_NAME
deriving DecidableEq, Repr

/-- A parsed certificate: `der` is what `i2d_X509` writes for it,
`info_access` what `X509_get_ext_d2i(cert, NID_info_access, ...)` returns and
`crl_distribution_points` what it returns for `NID_crl_distribution_points`
(`none` for a certificate without the extension), `subject_name` and
`issuer_name` what `X509_get_subject_name` and `X509_get_issuer_name`
return (`none` for a null pointer). -/
structure X509 where
  der : Bytes
  info_access : Option (List ACCESS_DESCRIPTION)
  crl_distribution_points : Option (List DIST_POINT)
  subject_name : Option Bytes
  issuer_name : Option Bytes
deriving DecidableEq, Repr

/-- `PKCS7_SIGNED`: `cert` is the stack of certificates, `none` when the
optional field is absent. -/
structure PKCS7_SIGNED where
  cert : Option (List X509)
deriving DecidableEq, Repr

/-- A parsed PKCS#7 structure, with the DER that `i2d_PKCS7` writes for it
and the pointer `d.sign`, `none` when there is no SignedData content. -/
structure PKCS7 where
  der : Bytes
  sign : Option PKCS7_SIGNED
deriving DecidableEq, Repr

/-- `TS_STATUS_INFO`: `status` is what `TS_STATUS_INFO_get0_status` returns,
read with `ASN1_INTEGER_get`. -/
structure TS_STATUS_INFO where
  status : Option Int
deriving DecidableEq, Repr

/-- `TS_RESP` as its accessors show it. -/
structure TS_RESP where
  status_info : Option TS_STATUS_INFO
  token : Option PKCS7
deriving DecidableEq, Repr

/-- The collaborators of the session. What a collaborator answers may
depend on everything done to it before: `history` is the list of the calls
made so far.
* `throws history c`: the exception with which the call `c` ends, if any;
* `signerId`: the identifier `AddSigner` returns;
* `startSigning`: the results `StartSigning` leaves;
* `load`: the document `Load` reads from the stream;
* `d2i_TS_RESP`: the OpenSSL parser of a time-stamp response;
* `d2i_X509`: the OpenSSL parser of a certificate; when it fails, the text
  `ERR_reason_error_string(ERR_get_error())` gives for the failure. -/
structure Env where
  throws : List Call → Call → Option Error
  signerId : List Call → PdfSignerId
  startSigning : List Call → PdfSigningResults → PdfSigningResults
  load : List Call → PdfMemDocument
  d2i_TS_RESP : Bytes → Option TS_RESP
  d2i_X509 : Bytes → Except String X509

/-- The data members of `PdfRemoteSignDocumentSession` the signing calls
use, and `log`, the calls made on the collaborators so far. -/
structure Session where
  _conformanceLevel : String
  _hashAlgorithm : HashAlgorithm
  _documentInputPath : String
  _documentOutputPath : String
  _endCertificateDer : Bytes
  _certificateChainDer : List Bytes
  _rootCertificateDer : Bytes
  _cmsParams : PdfSignerCmsParams
  _stream : Option StreamDevice
  _doc : Option PdfMemDocument
  _signer : Option PdfSignerCms
  _signerId : PdfSignerId
  _results : PdfSigningResults
  _ltaDoc : Option PdfMemDocument
  _ltaCtx : Option Context
  _ltaSigner : Option PdfDocTimeStampSigner
  _ltaSignerId : PdfSignerId
  _ltaResults : PdfSigningResults
  log : List Call
deriving DecidableEq, Repr

/-- A piece of a member function: from the session before it to the value
it yields or the exception it throws, and the session after it. -/
def SessionM (α : Type) : Type := Session → Except Error α × Session

instance : Monad SessionM where
  pure a := fun s => (.ok a, s)
  bind m f := fun s =>
    match m s with
    | (.ok a, s1) => f a s1
    | (.error e, s1) => (.error e, s1)

/-- The statement `throw e`. -/
def raise {α : Type} (e : Error) : SessionM α := fun s => (.error e, s)

/-- The session at this point. -/
def getSession : SessionM Session := fun s => (.ok s, s)

/-- An assignment to data members. -/
def update (f : Session → Session) : SessionM Unit := fun s => (.ok (), f s)

/-- A helper that returns or throws without touching the session. -/
def liftExcept {α : Type} (r : Except Error α) : SessionM α := fun s => (r, s)

/-- A call on a collaborator: recorded, then thrown out of if the
collaborator throws. -/
def call (env : Env) (c : Call) : SessionM Unit := fun s =>
  match env.throws s.log c with
  | some e => (.error e, { s with log := s.log ++ [c] })
  | none => (.ok (), { s with log := s.log ++ [c] })

/-- The record of a call to a function of the session itself. -/
def record (c : Call) : SessionM Unit := fun s => (.ok (), { s with log := s.log ++ [c] })

/-- A `try` block with the handler `catch (const std::exception&)` that
changes data members and rethrows. The dereference of a null pointer is not
an exception and does not reach the handler. -/
def tryCatchRethrow {α : Type} (body : SessionM α) (handler : Session → Session) : SessionM α :=
  fun s =>
    match body s with
    | (.ok a, s1) => (.ok a, s1)
    | (.error (.nullDereference what), s1) => (.error (.nullDereference what), s1)
    | (.error e, s1) => (.error e, handler s1)

/-! ## Time-stamp responses -/

/-- `PdfRemoteSignDocumentSession::DecodeBase64Tsr`: decodes, checks that the
bytes parse as a `TS_RESP`, and returns the decoded bytes. -/
def DecodeBase64Tsr (env : Env) (base64Tsr : Bytes) : Except Error Bytes :=
  match bioReadBase64 base64Tsr (base64Tsr.length * 3 / 4) with
  | none => .error (.runtime_error "Failed to decode base64 TSR data")
  | some tsrData =>
      match env.d2i_TS_RESP tsrData with
      | none => .error (.runtime_error "Invalid TSR data after decoding")
      | some _ => .ok tsrData

/-- `PdfRemoteSignDocumentSession::ExtractTimestampTokenFromTSR`. -/
def ExtractTimestampTokenFromTSR (env : Env) (tsrData : Bytes) : Except Error Bytes :=
  match env.d2i_TS_RESP tsrData with
  | none => .error (.runtime_error "Failed to parse TSR structure")
  | some response =>
      match response.status_info with
      | none => .error (.runtime_error "Failed to get TSR status info")
      | some status_info =>
          match status_info.status with
          | none => .error (.runtime_error "Failed to get TSR status")
          | some status =>
              if status ≠ 0 then
                .error (.runtime_error ("TSR status indicates failure: " ++ toString status))
              else
                match response.token with
                | none => .error (.runtime_error "No timestamp token found in TSR")
                | some token =>
                    if token.der.length = 0 then
                      .error (.runtime_error "Failed to get timestamp token length")
                    else .ok token.der

/-! ## Certificates of a time-stamp response -/

/-- The text of an exception, `what()`. -/
def Error.what : Error → String
  | .runtime_error what => what
  | .collaborator what => what
  | .nullDereference what => what

/-- The `std::string` holding the given bytes, for use in a message. -/
def bytesToString (bytes : Bytes) : String := String.mk (bytes.map (fun c => Char.ofNat c.val))

/-- The test `haystack.find(needle) != std::string::npos`. -/
def found (haystack needle : String) : Bool :=
  haystack.data.tails.any (fun tail => needle.data.isPrefixOf tail)

/-- Lines 765-773 of `extractSignerCertFromTSR` and 793-801 of
`extractIssuerCertFromTSR`: the response is decoded and parsed, and the
stack `pkcs7->d.sign->cert` of its token is read. -/
def tokenCertificates (env : Env) (base64Tsr : Bytes) : Except Error (Option (List X509)) :=
  match ConvertBase64PEMtoDER base64Tsr with
  | .error e => .error e
  | .ok tsr_der =>
      match env.d2i_TS_RESP tsr_der with
      | none => .error (.runtime_error "Failed to parse TS_RESP from DER.")
      | some ts_resp =>
          match ts_resp.token with
          | none => .error (.runtime_error "TSR does not contain a PKCS7 token.")
          | some pkcs7 =>
              match pkcs7.sign with
              | none => .error (.nullDereference "pkcs7->d.sign")
              | some sign => .ok sign.cert

/-- Lines 781-789 and 809-817: the certificate is written as DER with
`i2d_X509` and the DER encoded in base64. -/
def certificateToBase64 (cert : X509) (role : String) : Except Error Bytes :=
  if cert.der.length = 0 then
    .error (.runtime_error ("Failed to get length of DER for " ++ role ++ " cert."))
  else ToBase64 cert.der

/-- `PdfRemoteSignDocumentSession::extractSignerCertFromTSR`. -/
def extractSignerCertFromTSR (env : Env) (base64Tsr : Bytes) : Except Error Bytes :=
  match tokenCertificates env base64Tsr with
  | .error e => .error e
  | .ok none =>
      .error (.runtime_error "TSR does not contain any certificates to find the signer.")
  | .ok (some certs) =>
      if certs.length < 1 then
        .error (.runtime_error "TSR does not contain any certificates to find the signer.")
      else
        match certs[0]? with
        | none => .error (.runtime_error "Could not get signer certificate from TSR.")
        | some signerCert => certificateToBase64 signerCert "signer"

/-- `PdfRemoteSignDocumentSession::extractIssuerCertFromTSR`. -/
def extractIssuerCertFromTSR (env : Env) (base64Tsr : Bytes) : Except Error Bytes :=
  match tokenCertificates env base64Tsr with
  | .error e => .error e
  | .ok none =>
      .error (.runtime_error "TSR does not contain enough certificates to find issuer.")
  | .ok (some certs) =>
      if certs.length < 2 then
        .error (.runtime_error "TSR does not contain enough certificates to find issuer.")
      else
        match certs[1]? with
        | none => .error (.runtime_error "Could not get issuer certificate from TSR.")
        | some issuerCert => certificateToBase64 issuerCert "issuer"

/-- The loop of `getCertificateIssuerUrlFromCertificate` over the access
descriptions: the URI of the first `caIssuers` entry whose location is a
URI, the empty string when there is none. -/
def caIssuersUrl : List ACCESS_DESCRIPTION → Bytes
  | [] => []
  | ad :: rest =>
      if ad.method = .NID_ad_ca_issuers then
        match ad.location with
        | .GEN_URI uri => uri
        | .other => caIssuersUrl rest
      else caIssuersUrl rest

/-- `PdfRemoteSignDocumentSession::getCertificateIssuerUrlFromCertificate`. -/
def getCertificateIssuerUrlFromCertificate (env : Env) (base64Cert : Bytes) :
    Except Error Bytes :=
  match ConvertBase64PEMtoDER base64Cert with
  | .error e => .error e
  | .ok decoded_cert =>
      match env.d2i_X509 decoded_cert with
      | .error reason => .error (.runtime_error ("Failed to parse DER certificate: " ++ reason))
      | .ok cert =>
          let ca_issuer_url : Bytes :=
            match cert.info_access with
            | some info => caIssuersUrl info
            | none => []
          if ca_issuer_url.length = 0 then
            .error (.runtime_error "No CA Issuers URL found in certificate AIA extension.")
          else .ok ca_issuer_url

/-- The `httpFetcher` argument: an empty `std::function`, or a function from
the URL to the base64 text fetched, which may throw. -/
abbrev HttpFetcher := Option (Bytes → Except Error Bytes)

/-- Lines 924-940 of `extractIssuerCertFromTSRWithFallback`, the inner `try`
block. The second component lists the URLs the fetcher was called with. -/
def aiaFallbackTry (env : Env) (base64Tsr : Bytes) (httpFetcher : HttpFetcher) :
    Except Error Bytes × List Bytes :=
  match extractSignerCertFromTSR env base64Tsr with
  | .error e => (.error e, [])
  | .ok tsaSignerCert =>
      match getCertificateIssuerUrlFromCertificate env tsaSignerCert with
      | .error e => (.error e, [])
      | .ok ca_issuer_url =>
          match httpFetcher with
          | some fetch =>
              match fetch ca_issuer_url with
              | .error e => (.error e, [ca_issuer_url])
              | .ok issuer_cert_base64 =>
                  if issuer_cert_base64.length ≠ 0 then (.ok issuer_cert_base64, [ca_issuer_url])
                  else
                    (.error (.runtime_error
                      ("HTTP fetcher returned empty certificate from AIA URL: " ++
                        bytesToString ca_issuer_url)), [ca_issuer_url])
          | none =>
              (.error (.runtime_error
                ("No HTTP fetcher provided for AIA certificate retrieval. URL: " ++
                  bytesToString ca_issuer_url)), [])

/-- `PdfRemoteSignDocumentSession::extractIssuerCertFromTSRWithFallback`:
the value returned or the exception thrown, and the URLs the fetcher was
called with, in order. -/
def extractIssuerCertFromTSRWithFallback (env : Env) (base64Tsr : Bytes)
    (httpFetcher : HttpFetcher) : Except Error Bytes × List Bytes :=
  match extractIssuerCertFromTSR env base64Tsr with
  | .ok issuer => (.ok issuer, [])
  | .error (.runtime_error error_msg) =>
      if found error_msg "TSR does not contain enough certificates" then
        match aiaFallbackTry env base64Tsr httpFetcher with
        | (.ok issuer, urls) => (.ok issuer, urls)
        | (.error (.nullDereference what), urls) => (.error (.nullDereference what), urls)
        | (.error aia_error, urls) =>
            (.error (.runtime_error
              ("AIA fallback failed: " ++ aia_error.what ++ ". Original error: " ++ error_msg)),
              urls)
      else (.error (.runtime_error error_msg), [])
  | .error e => (.error e, [])

/-! ## The CRL address of a certificate -/

/-- The lambda `base64_decode` of `getCrlFromCertificate`: one read into a
buffer as long as the base64 text. -/
def base64_decode (base64_string : Bytes) : Except Error Bytes :=
  match bioReadBase64 base64_string base64_string.length with
  | none => .error (.runtime_error "Failed to decode base64 input.")
  | some decoded_data => .ok decoded_data

/-- Lines 395-425 of `getCrlFromCertificate`: the decoded bytes are parsed
as a certificate or, when that fails, as a time-stamp response, of which the
first certificate of the signed token is taken. -/
def certificateOfDecoded (env : Env) (decoded : Bytes) : Except Error X509 :=
  match env.d2i_X509 decoded with
  | .ok cert => .ok cert
  | .error _ =>
      match env.d2i_TS_RESP decoded with
      | none =>
          .error (.runtime_error "Failed to parse DER as X.509 certificate or TimeStampResp.")
      | some ts_resp =>
          match ts_resp.token with
          | none => .error (.runtime_error "TimeStampResp does not contain a timeStampToken.")
          | some pkcs7 =>
              match pkcs7.sign.bind (fun sign => sign.cert) with
              | none =>
                  .error (.runtime_error "timeStampToken does not contain signer certificate.")
              | some certs =>
                  if certs.length < 1 then
                    .error (.runtime_error "No certificates found in timeStampToken.")
                  else
                    match certs[0]? with
                    | none =>
                        .error (.runtime_error
                          "Failed to duplicate signer certificate from timeStampToken.")
                    | some cert => .ok cert

/-- The loop over the general names of one distribution point (lines
441-452): the first URI that is not empty. -/
def crlUrlOfNames : List GENERAL_NAME → Option Bytes
  | [] => none
  | gen_name :: rest =>
      match gen_name with
      | .GEN_URI uri => if uri.length > 0 then some uri else crlUrlOfNames rest
      | .other => crlUrlOfNames rest

/-- The loop over the distribution points (lines 437-454): the points with a
name of type 0 are searched in order. -/
def crlUrlOfPoints : List DIST_POINT → Option Bytes
  | [] => none
  | dp :: rest =>
      match dp.distpoint with
      | some (.fullname names) =>
          match crlUrlOfNames names with
          | some crl_url => some crl_url
          | none => crlUrlOfPoints rest
      | _ => crlUrlOfPoints rest

/-- Lines 427-457 of `getCrlFromCertificate`: what is returned for the
certificate found. -/
def crlUrlOfCertificate (cert : X509) : Except Error Bytes :=
  if cert.subject_name.isNone || cert.issuer_name.isNone then
    .error (.runtime_error "Parsed certificate structure is invalid.")
  else
    match cert.crl_distribution_points.bind crlUrlOfPoints with
    | some crl_url => .ok crl_url
    | none => .error (.runtime_error "No CRL distribution point URL found in certificate.")

/-- `PdfRemoteSignDocumentSession::getCrlFromCertificate`. -/
def getCrlFromCertificate (env : Env) (base64Cert : Bytes) : Except Error Bytes :=
  match base64_decode base64Cert with
  | .error e => .error e
  | .ok decoded =>
      if decoded.length < 50 then
        .error (.runtime_error "Decoded data too small to be valid X.509 or timestamp.")
      else
        match certificateOfDecoded env decoded with
        | .error e => .error e
        | .ok cert => crlUrlOfCertificate cert

/-! ## The DocTimeStamp signer -/

/-- The call `contents.resize(n)` on a `charbuff`: cut to `n` bytes, or
extended to `n` bytes; the bytes added are taken as zeros, as
`std::string::resize` leaves them. -/
def resize (contents : Bytes) (n : Nat) : Bytes :=
  contents.take n ++ List.replicate (n - contents.length) 0

/-- `PdfDocTimeStampSigner::ComputeSignatureDeferred`: the contents after
the call. -/
def PdfDocTimeStampSigner.ComputeSignatureDeferred (_signer : PdfDocTimeStampSigner)
    (processedResult contents : Bytes) (dryrun : Bool) : Bytes :=
  if dryrun then resize contents 20000 else processedResult

/-- `ssl::ComputeHash` of the toolkit, outside the file: the digest of the
data under a hashing algorithm. -/
abbrev ComputeHashFunction := Bytes → PdfHashingAlgorithm → Bytes

/-- How a call of the DocTimeStamp signer that computes a digest ends: with
the digest, with the `std::length_error` of `reserve`, or without a defined
result (a variable read before it is set, a signed overflow, bytes copied
from outside the buffer). -/
inductive Digest where
  | value (digest : Bytes)
  | length_error
  | undefined
deriving DecidableEq, Repr

/-- The constructor `PdfDocTimeStampSigner::PdfDocTimeStampSigner`. -/
def PdfDocTimeStampSigner.init : PdfDocTimeStampSigner := ⟨none, false, []⟩

/-- `PdfDocTimeStampSigner::SetDevice`. -/
def PdfDocTimeStampSigner.SetDevice (signer : PdfDocTimeStampSigner) (device : StreamDevice) :
    PdfDocTimeStampSigner :=
  { signer with m_device := some device, m_useManualByteRange := true }

/-- `PdfDocTimeStampSigner::Reset`. -/
def PdfDocTimeStampSigner.Reset (signer : PdfDocTimeStampSigner) : PdfDocTimeStampSigner :=
  { signer with m_hashBuffer := [] }

/-- `PdfDocTimeStampSigner::AppendData`: the signer and the function-static
`lastEndPosition` after the call (the `gap` computed from the static is not
used). -/
def PdfDocTimeStampSigner.AppendData (signer : PdfDocTimeStampSigner) (lastEndPosition : Nat)
    (data : Bytes) : PdfDocTimeStampSigner × Nat :=
  let oldSize := signer.m_hashBuffer.length
  let _gap := if oldSize > 0 ∧ oldSize ≠ lastEndPosition then oldSize - lastEndPosition else 0
  ({ signer with m_hashBuffer := signer.m_hashBuffer ++ data }, oldSize + data.length)

/-- `PdfDocTimeStampSigner::ComputeSignature`: the contents after the call. -/
def PdfDocTimeStampSigner.ComputeSignature (_signer : PdfDocTimeStampSigner) (contents : Bytes)
    (dryrun : Bool) : Bytes :=
  if dryrun then resize contents 6000 else contents

/-- The search `haystack.find(needle, pos)` in the bytes from `pos` on, which
are `tail`: the index of the first occurrence, `none` for `npos`. -/
def findIn (needle : Bytes) : Bytes → Nat → Option Nat
  | [], pos => if needle.isEmpty then some pos else none
  | c :: tail, pos =>
      if needle.isPrefixOf (c :: tail) then some pos else findIn needle tail (pos + 1)

/-- `std::string::find(needle, pos)`. -/
def find (haystack needle : Bytes) (pos : Nat) : Option Nat :=
  if pos > haystack.length then none else findIn needle (haystack.drop pos) pos

/-- The C function `isdigit`. -/
def isdigit (c : Byte) : Bool := 48 ≤ c.val && c.val ≤ 57

/-- The digits a decimal extraction consumes, with the value read so far. -/
def readDigits (acc : Nat) : Bytes → Nat × Bytes
  | [] => (acc, [])
  | c :: rest => if isdigit c then readDigits (acc * 10 + (c.val - 48)) rest else (acc, c :: rest)

/-- The extraction `iss >> value` of an `int64_t` from the rest of a string
stream: white space is skipped, then an optional sign and decimal digits are
read. The result is the value with the rest of the stream, or `none` when
the extraction fails (no digit, or a value outside the range of `int64_t`),
after which the stream delivers nothing more. -/
def readInt64 (stream : Bytes) : Option (Int × Bytes) :=
  let body := stream.dropWhile isspace
  let signed : Bool × Bytes :=
    match body with
    | c :: rest => if c.val = 45 then (true, rest) else if c.val = 43 then (false, rest) else (false, body)
    | [] => (false, body)
  match signed.2 with
  | c :: _ =>
      if isdigit c then
        let digits := readDigits 0 signed.2
        let value : Int := if signed.1 then -(digits.1 : Int) else (digits.1 : Int)
        if -(2 ^ 63 : Int) ≤ value ∧ value < 2 ^ 63 then some (value, digits.2) else none
      else none
  | [] => none

/-- The bytes `memcpy` reads for one range of `calculateCorrectHash`: nothing
for a length that is not positive, `none` when the range is not inside the
buffer of `fileSize` bytes. -/
def copyRange (fileContent : Bytes) (rangeStart rangeLength : Int) : Option Bytes :=
  if rangeLength > 0 then
    if 0 ≤ rangeStart ∧ rangeStart + rangeLength ≤ (fileContent.length : Int) then
      some ((fileContent.drop rangeStart.toNat).take rangeLength.toNat)
    else none
  else some []

/-- What `calculateCorrectHash` makes of the file: no `/ByteRange[` in it,
the bytes `correctData` to hash, the `std::length_error` of `reserve`, or no
defined result. -/
inductive RangedData where
  | absent
  | bytes (correctData : Bytes)
  | length_error
  | undefined
deriving DecidableEq, Repr

/-- Lines 1023-1053 of `calculateCorrectHash`: the first `/ByteRange[` of the
file is looked up, the four integers behind it are read and the two ranges
copied from the file one after the other. -/
def rangedData (fileContent : Bytes) : RangedData :=
  match find fileContent (ascii "/ByteRange[") 0 with
  | none => .absent
  | some byteRangePos =>
      let start : Nat :=
        match find fileContent (ascii "[") byteRangePos with
        | some bracket => bracket + 1
        | none => 0
      let byteRangeStr : Bytes :=
        match find fileContent (ascii "]") start with
        | some stop => (fileContent.drop start).take (stop - start)
        | none => fileContent.drop start
      match readInt64 byteRangeStr with
      | none => .undefined
      | some (range1Start, rest1) =>
      match readInt64 rest1 with
      | none => .undefined
      | some (range1Length, rest2) =>
      match readInt64 rest2 with
      | none => .undefined
      | some (range2Start, rest3) =>
      match readInt64 rest3 with
      | none => .undefined
      | some (range2Length, _) =>
          if range1Length + range2Length ≥ 2 ^ 63 ∨ range1Length + range2Length < -(2 ^ 63 : Int) then
            .undefined
          else if range1Length + range2Length < 0 then .length_error
          else
            match copyRange fileContent range1Start range1Length,
              copyRange fileContent range2Start range2Length with
            | some first, some second => .bytes (first ++ second)
            | _, _ => .undefined

/-- `PdfDocTimeStampSigner::calculateCorrectHash`; `fileContent` is what the
device holds, read from its beginning to its end. Without a `/ByteRange[`
in the file the hash buffer is hashed. -/
def PdfDocTimeStampSigner.calculateCorrectHash (ComputeHash : ComputeHashFunction)
    (fileContent : Bytes) (signer : PdfDocTimeStampSigner) : Digest :=
  match rangedData fileContent with
  | .absent => .value (ComputeHash signer.m_hashBuffer .SHA256)
  | .bytes correctData => .value (ComputeHash correctData .SHA256)
  | .length_error => .length_error
  | .undefined => .undefined

/-- `PdfDocTimeStampSigner::FetchIntermediateResult`; `fileContent` gives
what a device holds. -/
def PdfDocTimeStampSigner.FetchIntermediateResult (ComputeHash : ComputeHashFunction)
    (fileContent : StreamDevice → Bytes) (signer : PdfDocTimeStampSigner) : Digest :=
  match signer.m_useManualByteRange, signer.m_device with
  | true, some device =>
      PdfDocTimeStampSigner.calculateCorrectHash ComputeHash (fileContent device) signer
  | _, _ => .value (ComputeHash signer.m_hashBuffer .SHA256)

/-! ## The signing calls -/

/-- `PdfAnnotationFlags::Invisible | PdfAnnotationFlags::Hidden`, bits 1 and
2 of the annotation flags. -/
def invisibleHidden : Nat := 1 + 2

/-- The block both finishing calls run to write the DSS: seek, load the
document from the stream, `createOrUpdateDSSCatalog`, `SaveUpdate` with
`NoMetadataUpdate | NoFlateCompress`. -/
def writeDss (env : Env) (validationData : ValidationData) : SessionM Unit := do
  let s ← getSession
  match s._stream with
  | none => raise (.nullDereference "_stream")
  | some _ =>
      call env (.Seek 0)
      call env .Load
      let loaded ← getSession
      record (.createOrUpdateDSSCatalog validationData)
      match createOrUpdateDSSCatalog (env.load loaded.log) validationData with
      | (.error e, _) => raise e
      | (.ok _, dss_doc) => call env (.SaveUpdate dss_doc .noMetadataUpdateNoFlateCompress)

/-- Lines 201-206 of `finishSigning`: the decoded signature is stored in the
results, then the signer is checked. -/
def storeSignedHash (signedHash : Bytes) : SessionM Unit := do
  let buff ← liftExcept (ConvertDSSHashToSignedHash signedHash)
  update (fun s => { s with _results := s._results.assign s._signerId buff })
  let s ← getSession
  if s._signer.isNone then raise (.runtime_error "Signer not initialized") else pure ()

/-- Lines 208-214 of `finishSigning`: at every level but `ADES_B_B` the
decoded time-stamp response is handed to the signer. -/
def attachTimestamp (env : Env) (base64Tsr : Bytes) : SessionM Unit := do
  let s ← getSession
  if s._conformanceLevel ≠ "ADES_B_B" then
    let tsr ← liftExcept (DecodeBase64Tsr env base64Tsr)
    call env (.SetTimestampToken tsr)
    let accept : PdfSignerCms → PdfSignerCms := fun signer => { signer with timestampToken := some tsr }
    update (fun t => { t with _signer := t._signer.map accept })
  else pure ()

/-- Line 215 of `finishSigning`: `_ctx.FinishSigning(_results)`. -/
def ctxFinishSigning (env : Env) : SessionM Unit := do
  let s ← getSession
  call env (.FinishSigning .ctx s._results)

/-- Lines 218-226 (`level` is `ADES_B_LT`) and 228-236 (`ADES_B_LTA`) of
`finishSigning`. -/
def writeDssAtLevel (env : Env) (level : String) (validationData : Option ValidationData) :
    SessionM Unit := do
  let s ← getSession
  if s._conformanceLevel = level then
    match validationData with
    | some vd => writeDss env vd
    | none => pure ()
  else pure ()

/-- The `try` block of `finishSigning`. -/
def finishSigningTry (env : Env) (signedHash base64Tsr : Bytes)
    (validationData : Option ValidationData) : SessionM Unit := do
  storeSignedHash signedHash
  attachTimestamp env base64Tsr
  ctxFinishSigning env
  writeDssAtLevel env "ADES_B_LT" validationData
  writeDssAtLevel env "ADES_B_LTA" validationData

/-- `PdfRemoteSignDocumentSession::finishSigning`. -/
def finishSigning (env : Env) (signedHash base64Tsr : Bytes)
    (validationData : Option ValidationData) : SessionM Unit :=
  tryCatchRethrow (finishSigningTry env signedHash base64Tsr validationData)
    (fun s => { s with _stream := none })

/-- Lines 171-178 and 644-651: the digest through `ToHexString`,
`HexToBytes` and `ToBase64`. -/
def digestToBase64 (INITIAL_hash : Bytes) : Except Error Bytes :=
  ToBase64 (HexToBytes (ToHexString INITIAL_hash))

/-- Lines 115-130 of `beginSigning`: the output file is made and opened, the
document loaded, and the signature field `Signature` created. -/
def prepareDocument (env : Env) : SessionM Unit := do
  let s ← getSession
  call env (.copy_file s._documentInputPath s._documentOutputPath)
  call env (.FileStreamDevice s._documentOutputPath)
  update (fun t => { t with _stream := some ⟨s._documentOutputPath⟩ })
  call env .Load
  update (fun t => { t with _doc := some (env.load t.log) })
  call env (.AddSigFlags 3)
  call env (.CreateField "Signature")
  call env (.SetFlags "Signature" invisibleHidden)
  call env .SetSignatureDate

/-- Lines 132-146 of `beginSigning`. -/
def selectSignatureType : SessionM Unit := do
  let s ← getSession
  if s._conformanceLevel = "ADES_B_B" then
    update (fun t => { t with _cmsParams := { t._cmsParams with SignatureType := .PAdES_B } })
  else if s._conformanceLevel = "ADES_B_T" then
    update (fun t => { t with _cmsParams := { t._cmsParams with SignatureType := .PAdES_B_T } })
  else if s._conformanceLevel = "ADES_B_LT" then
    update (fun t => { t with _cmsParams := { t._cmsParams with SignatureType := .PAdES_B_LT } })
  else if s._conformanceLevel = "ADES_B_LTA" then
    update (fun t => { t with _cmsParams := { t._cmsParams with SignatureType := .PAdES_B_LTA } })
  else raise (.runtime_error "Invalid conformance level")

/-- Lines 148-159 of `beginSigning`. -/
def selectHashing : SessionM Unit := do
  let s ← getSession
  if s._hashAlgorithm = .SHA256 then
    update (fun t => { t with _cmsParams := { t._cmsParams with Hashing := .SHA256 } })
  else if s._hashAlgorithm = .SHA384 then
    update (fun t => { t with _cmsParams := { t._cmsParams with Hashing := .SHA384 } })
  else if s._hashAlgorithm = .SHA512 then
    update (fun t => { t with _cmsParams := { t._cmsParams with Hashing := .SHA512 } })
  else raise (.runtime_error "Hash algorithm is not supported")

/-- Lines 161-167 of `beginSigning`: the CMS signer is created from the end
certificate, the chain and `_cmsParams`, and registered with the context. -/
def registerSigner (env : Env) : SessionM Unit := do
  let s ← getSession
  call env (.PdfSignerCms s._endCertificateDer s._certificateChainDer s._cmsParams)
  let signer : PdfSignerCms := ⟨s._endCertificateDer, s._certificateChainDer, s._cmsParams, 0, none⟩
  update (fun t => { t with _signer := some signer })
  call env (.ReserveAttributeSize 20000)
  update (fun t => { t with _signer := some { signer with reservedAttributeSize := 20000 } })
  call env (.AddSigner .ctx)
  update (fun t => { t with _signerId := env.signerId t.log })

/-- Line 169 of `beginSigning`: `_ctx.StartSigning`. -/
def ctxStartSigning (env : Env) : SessionM Unit := do
  call env (.StartSigning .ctx .noMetadataUpdate)
  update (fun t => { t with _results := env.startSigning t.log t._results })

/-- Lines 171-182 of `beginSigning`: the value returned. -/
def encodeDigest : SessionM Bytes := do
  let s ← getSession
  let INITIAL_hash := s._results.index s._signerId
  update (fun t => { t with _results := INITIAL_hash.2 })
  let base64Hash ← liftExcept (digestToBase64 INITIAL_hash.1)
  let urlEncodedHash := UrlEncode base64Hash
  pure urlEncodedHash

/-- The `try` block of `beginSigning`. -/
def beginSigningTry (env : Env) : SessionM Bytes := do
  prepareDocument env
  selectSignatureType
  selectHashing
  registerSigner env
  ctxStartSigning env
  encodeDigest

/-- `PdfRemoteSignDocumentSession::beginSigning`. -/
def beginSigning (env : Env) : SessionM Bytes :=
  tryCatchRethrow (beginSigningTry env) (fun s => { s with _stream := none })

/-- Lines 628-642 of `beginSigningLTA`: a second document is loaded from the
stream, the field `Signature2` created, and a `PdfDocTimeStampSigner`
registered with a new context, which starts signing. -/
def prepareLta (env : Env) : SessionM Unit := do
  call env (.Seek 0)
  call env .Load
  update (fun t => { t with _ltaDoc := some (env.load t.log) })
  call env (.CreateField "Signature2")
  call env (.SetFlags "Signature2" 132)
  update (fun t => { t with _ltaCtx := some .ltaCtx, _ltaSigner := some ⟨none, false, []⟩ })
  call env (.AddSigner .ltaCtx)
  update (fun t => { t with _ltaSignerId := env.signerId t.log })
  call env (.StartSigning .ltaCtx .noMetadataUpdate)
  update (fun t => { t with _ltaResults := env.startSigning t.log t._ltaResults })

/-- Lines 644-655 of `beginSigningLTA`: the value returned is `base64Hash`. -/
def encodeDigestLTA : SessionM Bytes := do
  let s ← getSession
  let INITIAL_hash := s._ltaResults.index s._ltaSignerId
  update (fun t => { t with _ltaResults := INITIAL_hash.2 })
  let base64Hash ← liftExcept (digestToBase64 INITIAL_hash.1)
  let _urlEncodedHash := UrlEncode base64Hash
  pure base64Hash

/-- The `try` block of `beginSigningLTA`. -/
def beginSigningLTATry (env : Env) : SessionM Bytes := do
  let s ← getSession
  if s._stream.isNone then
    raise (.runtime_error
      "No active stream available. Make sure finishSigning() was called successfully.")
  else
    prepareLta env
    encodeDigestLTA

/-- The handler of both LTA calls: the three LTA members are reset. -/
def resetLta (s : Session) : Session :=
  { s with _ltaDoc := none, _ltaCtx := none, _ltaSigner := none }

/-- `PdfRemoteSignDocumentSession::beginSigningLTA`. -/
def beginSigningLTA (env : Env) : SessionM Bytes :=
  tryCatchRethrow (beginSigningLTATry env) resetLta

/-- Lines 676-683 of `finishSigningLTA`: the token extracted from the
response is stored in the LTA results and the LTA context finishes. -/
def storeTimestampToken (env : Env) (base64Tsr : Bytes) : SessionM Unit := do
  let tsr ← liftExcept (DecodeBase64Tsr env base64Tsr)
  let timestampToken ← liftExcept (ExtractTimestampTokenFromTSR env tsr)
  update (fun t => { t with _ltaResults := t._ltaResults.assign t._ltaSignerId timestampToken })
  let s ← getSession
  call env (.FinishSigning .ltaCtx s._ltaResults)

/-- Lines 685-693 of `finishSigningLTA`. -/
def writeDssIfNotEmpty (env : Env) (validationData : Option ValidationData) : SessionM Unit :=
  match validationData with
  | some vd => if vd.empty then pure () else writeDss env vd
  | none => pure ()

/-- The `try` block of `finishSigningLTA`. -/
def finishSigningLTATry (env : Env) (base64Tsr : Bytes)
    (validationData : Option ValidationData) : SessionM Unit := do
  let s ← getSession
  if s._ltaDoc.isNone ∨ s._ltaCtx.isNone ∨ s._ltaSigner.isNone ∨ s._stream.isNone then
    raise (.runtime_error "LTA signing has not been started. Call beginSigningLTA() first.")
  else
    storeTimestampToken env base64Tsr
    writeDssIfNotEmpty env validationData
    update resetLta

/-- `PdfRemoteSignDocumentSession::finishSigningLTA`. -/
def finishSigningLTA (env : Env) (base64Tsr : Bytes)
    (validationData : Option ValidationData) : SessionM Unit :=
  tryCatchRethrow (finishSigningLTATry env base64Tsr validationData) resetLta

/-- The constructor of `PdfRemoteSignDocumentSession`. `cmsParams` is the
default-constructed `PdfSignerCmsParams` of the toolkit; the other members
start empty. -/
def construct (cmsParams : PdfSignerCmsParams)
    (conformanceLevel hashAlgorithmOid documentInputPath documentOutputPath : String)
    (endCertificateBase64 : Bytes) (certificateChainBase64 : List Bytes)
    (rootEntityCertificateBase64 : Option Bytes) : Except Error Session := do
  let endCertificateDer ← ConvertBase64PEMtoDER endCertificateBase64
  let certificateChainDer ← certificateChainBase64.mapM ConvertBase64PEMtoDER
  let rootCertificateDer ←
    match rootEntityCertificateBase64 with
    | some root => ConvertBase64PEMtoDER root
    | none => pure []
  pure
    { _conformanceLevel := conformanceLevel
      _hashAlgorithm := hashAlgorithmFromOid hashAlgorithmOid
      _documentInputPath := documentInputPath
      _documentOutputPath := documentOutputPath
      _endCertificateDer := endCertificateDer
      _certificateChainDer := certificateChainDer
      _rootCertificateDer := rootCertificateDer
      _cmsParams := cmsParams
      _stream := none
      _doc := none
      _signer := none
      _signerId := 0
      _results := ⟨[]⟩
      _ltaDoc := none
      _ltaCtx := none
      _ltaSigner := none
      _ltaSignerId := 0
      _ltaResults := ⟨[]⟩
      log := [] }

/-! ## Concrete collaborators and inputs for the examples -/

/-- A reader for the DER of a `TimeStampResp` in its plainest layout: an
outer SEQUENCE with a one-byte length, a `PKIStatusInfo` holding only a
one-byte status INTEGER, and, when bytes remain, the `timeStampToken` as one
SEQUENCE with a one-byte length, kept as its encoding (its content is not
read: `d.sign` is null). It is a stand-in for the examples and reads more
than `d2i_TS_RESP` of OpenSSL does, which refuses a token without a
`TSTInfo` and a response of status 0 without a token. -/
def exampleD2iTsResp (der : Bytes) : Option TS_RESP :=
  match der.map Fin.val with
  | 0x30 :: len :: 0x30 :: 0x03 :: 0x02 :: 0x01 :: status :: rest =>
      if len < 128 ∧ len = rest.length + 5 ∧ status < 128 then
        match rest with
        | [] => some ⟨some ⟨some (status : Int)⟩, none⟩
        | 0x30 :: tokenLen :: body =>
            if tokenLen < 128 ∧ tokenLen = body.length then
              some ⟨some ⟨some (status : Int)⟩, some ⟨der.drop 7, none⟩⟩
            else none
        | _ => none
      else none
  | _ => none

/-- The certificate of the example time-stamping authority: its Authority
Information Access extension names an OCSP responder and, under
`caIssuers`, first a name that is not a URI and then the URI
`http://ca.example/ca.crt`; its CRL Distribution Points extension has a
point without a name, a point with a relative name, a point whose full name
holds a name that is not a URI and two URIs, and a point with one more URI.
The encoding is schematic. -/
def tsaCertificate : X509 :=
  { der := [0x30, 0x03, 0x02, 0x01, 0x01].map toByte
    info_access := some
      [⟨.NID_ad_OCSP, .GEN_URI (ascii "http://ca.example/ocsp")⟩,
        ⟨.NID_ad_ca_issuers, .other⟩,
        ⟨.NID_ad_ca_issuers, .GEN_URI (ascii "http://ca.example/ca.crt")⟩]
    crl_distribution_points := some
      [⟨none⟩, ⟨some .relativename⟩,
        ⟨some (.fullname [.other, .GEN_URI (ascii "http://ca.example/tsa.crl"),
          .GEN_URI (ascii "ldap://ca.example/tsa")])⟩,
        ⟨some (.fullname [.GEN_URI (ascii "http://mirror.example/tsa.crl")])⟩]
    subject_name := some (ascii "CN=TSA")
    issuer_name := some (ascii "CN=CA") }

/-- The certificate of the authority that issued `tsaCertificate`; it has no
Authority Information Access extension. -/
def tsaIssuerCertificate : X509 :=
  { der := [0x30, 0x03, 0x02, 0x01, 0x02].map toByte
    info_access := none
    crl_distribution_points := none
    subject_name := some (ascii "CN=CA")
    issuer_name := some (ascii "CN=CA") }

/-- A certificate parser that knows the two example certificates. -/
def exampleD2iX509 (der : Bytes) : Except String X509 :=
  if der = tsaCertificate.der then .ok tsaCertificate
  else if der = tsaIssuerCertificate.der then .ok tsaIssuerCertificate
  else .error "wrong tag"

/-- The digest the example signing context computes. -/
def exampleDigest : Bytes := (List.range 32).map toByte

/-- Collaborators that never throw: the signing context gives the signer the
identifier 0 and leaves `exampleDigest` for it, and the stream holds a
document whose catalog has no `/DSS`. -/
def exampleEnv : Env where
  throws := fun _ _ => none
  signerId := fun _ => 0
  startSigning := fun _ r => r.assign 0 exampleDigest
  load := fun _ => ⟨[("Type", .direct "/Catalog"), ("Pages", .reference 1)], [(1, .other)]⟩
  d2i_TS_RESP := exampleD2iTsResp
  d2i_X509 := exampleD2iX509

/-- A session as the constructor leaves it for a conformance level, SHA-256
and empty certificates. -/
def exampleSession (conformanceLevel : String) : Session :=
  { _conformanceLevel := conformanceLevel
    _hashAlgorithm := .SHA256
    _documentInputPath := "in.pdf"
    _documentOutputPath := "out.pdf"
    _endCertificateDer := []
    _certificateChainDer := []
    _rootCertificateDer := []
    _cmsParams := ⟨.PAdES_B, .SHA256⟩
    _stream := none
    _doc := none
    _signer := none
    _signerId := 0
    _results := ⟨[]⟩
    _ltaDoc := none
    _ltaCtx := none
    _ltaSigner := none
    _ltaSignerId := 0
    _ltaResults := ⟨[]⟩
    log := [] }

/-- The example session after a successful `beginSigning`. -/
def startedSession (conformanceLevel : String) : Session :=
  (beginSigning exampleEnv (exampleSession conformanceLevel)).2

/-- A signature of 256 bytes, the size of an RSA-2048 signature. -/
def rsa2048Signature : Bytes := (List.range 256).map toByte

/-- The DER of a `TimeStampResp` with status 2 (rejection) and no token:
`30 05 30 03 02 01 02`. -/
def rejectedTsr : Bytes := [0x30, 0x05, 0x30, 0x03, 0x02, 0x01, 0x02].map toByte

/-- The DER of a `TimeStampResp` with status 0 and, as token, a
`ContentInfo` of type signedData: `30 12 30 03 02 01 00 30 0B 06 09 ...`. -/
def grantedTsr : Bytes :=
  [0x30, 0x12, 0x30, 0x03, 0x02, 0x01, 0x00,
    0x30, 0x0B, 0x06, 0x09, 0x2A, 0x86, 0x48, 0x86, 0xF7, 0x0D, 0x01, 0x07, 0x02].map toByte

/-- Validation data that is present and empty. -/
def emptyValidationData : ValidationData := ⟨[], [], []⟩

/-- Whether a call belongs to a DSS update: `createOrUpdateDSSCatalog` or the
incremental save of the document it changed. -/
def isDssCall : Call → Bool
  | .createOrUpdateDSSCatalog _ => true
  | .SaveUpdate _ _ => true
  | _ => false

/-- Whether a call creates the CMS signer or registers a signer with a
signing context. -/
def isSignerCall : Call → Bool
  | .PdfSignerCms _ _ _ => true
  | .AddSigner _ => true
  | _ => false

/-- The table of section 6 of the specification: the CMS signature type of a
conformance level string. -/
def specSignatureType (conformanceLevel : String) : Option PdfSignatureType :=
  if conformanceLevel = "ADES_B_B" then some .PAdES_B
  else if conformanceLevel = "ADES_B_T" then some .PAdES_B_T
  else if conformanceLevel = "ADES_B_LT" then some .PAdES_B_LT
  else if conformanceLevel = "ADES_B_LTA" then some .PAdES_B_LTA
  else none

/-- A relation between the session before and after holds for every run of
a piece of a member function. -/
def Keeps {α : Type} (P : Session → Session → Prop) (m : SessionM α) : Prop :=
  ∀ s, P s (m s).2

/-- What the preparation of the document leaves alone: the conformance
level, the CMS parameters and the signer; the calls it adds to the log
neither create nor register a signer. -/
def PrepFrame (s t : Session) : Prop :=
  t._conformanceLevel = s._conformanceLevel ∧ t._cmsParams = s._cmsParams ∧
    t._signer = s._signer ∧
    ∃ calls, t.log = s.log ++ calls ∧ ∀ c ∈ calls, isSignerCall c = false

/-- What the steps after the creation of the signer leave alone. -/
def SignerFrame (s t : Session) : Prop :=
  t._cmsParams = s._cmsParams ∧ t._signer = s._signer

/-- A one-byte signature in base64: `AA==`. -/
def tinySignedHash : Bytes := ascii "AA=="

/-- The example session at `ADES_B_LTA` after `beginSigning`, a
`finishSigning` without validation data, and `beginSigningLTA`. -/
def ltaStartedSession : Session :=
  (beginSigningLTA exampleEnv
    (finishSigning exampleEnv tinySignedHash (b64Encode grantedTsr) none
      (startedSession "ADES_B_LTA")).2).2

/-! ## Reading the DSS of a document -/

/-- The value stored under `key` in the dictionary object `dss`. -/
def dssEntry (doc : PdfMemDocument) (dss : PdfReference) (key : String) : Option PdfVariant :=
  match PdfIndirectObjectList.GetObject doc.objects dss with
  | some (.dictionary dict _) => PdfDictionary.GetKey dict key
  | _ => none

/-- The array under `key` of the DSS dictionary: the items of the array
object the entry refers to. -/
def dssArray (doc : PdfMemDocument) (dss : PdfReference) (key : String) :
    Option (List PdfVariant) :=
  match dssEntry doc dss key with
  | some (.reference r) =>
      match PdfIndirectObjectList.GetObject doc.objects r with
      | some (.array items) => some items
      | _ => none
  | _ => none

/-- The three keys of a DSS dictionary the session writes. -/
def dssKeys : List String := ["Certs", "CRLs", "OCSPs"]

/-- The entries present under the three keys refer to existing objects, and
no two of them to the same object. -/
def DistinctEntries (doc : PdfMemDocument) (dss : PdfReference) : Prop :=
  ∀ k1 ∈ dssKeys, ∀ r, dssEntry doc dss k1 = some (.reference r) →
    PdfIndirectObjectList.GetObject doc.objects r ≠ none ∧
      ∀ k2 ∈ dssKeys, k2 ≠ k1 → dssEntry doc dss k2 ≠ some (.reference r)

/-- The references `refs` are, in order, those of stream objects that did
not exist in `before` and hold in `after` the base64 decoding of `items`. -/
def NewStreams (before after : PdfMemDocument) (refs : List PdfReference) (items : List Bytes) :
    Prop :=
  List.Forall₂
    (fun r item =>
      PdfIndirectObjectList.GetObject before.objects r = none ∧
        ∃ der, b64Decode item = some der ∧
          PdfIndirectObjectList.GetObject after.objects r = some (.dictionary [] (some der)))
    refs items

/-- What C6 says of one key: with an empty input list the entry and its
array are as before; otherwise the array is the one held before (empty if
the key was absent) followed by the references of new stream objects, one
per item and in the order of the items. -/
def Appended (before after : PdfMemDocument) (dss : PdfReference) (key : String)
    (items : List Bytes) : Prop :=
  if items = [] then
    dssEntry after dss key = dssEntry before dss key ∧
      dssArray after dss key = dssArray before dss key
  else
    ∃ refs, dssArray after dss key =
        some ((dssArray before dss key).getD [] ++ refs.map PdfVariant.reference) ∧
      NewStreams before after refs items

/-- The effect of one successful `addToDssArray` for `key` on the objects:
`a` is the array object used, `refs` the references of the streams made. -/
def Step (docA docB : PdfMemDocument) (dss : PdfReference) (key : String) (a : PdfReference)
    (refs : List PdfReference) (items : List Bytes) : Prop :=
  docB.catalog = docA.catalog ∧
  (∃ old,
    ((dssEntry docA dss key = some (.reference a) ∧
        PdfIndirectObjectList.GetObject docA.objects a = some (.array old)) ∨
      (dssEntry docA dss key = none ∧
        PdfIndirectObjectList.GetObject docA.objects a = none ∧ old = [])) ∧
    PdfIndirectObjectList.GetObject docB.objects a =
      some (.array (old ++ refs.map PdfVariant.reference))) ∧
  dssEntry docB dss key = some (.reference a) ∧
  (∀ k, k ≠ key → dssEntry docB dss k = dssEntry docA dss k) ∧
  (∃ dictA dictB st,
    PdfIndirectObjectList.GetObject docA.objects dss = some (.dictionary dictA st) ∧
      PdfIndirectObjectList.GetObject docB.objects dss = some (.dictionary dictB st)) ∧
  List.Forall₂
    (fun r item =>
      PdfIndirectObjectList.GetObject docA.objects r = none ∧
        ∃ der, ConvertBase64PEMtoDER item = .ok der ∧
          PdfIndirectObjectList.GetObject docB.objects r = some (.dictionary [] (some der)))
    refs items ∧
  (∀ r, r ≠ a → r ≠ dss → PdfIndirectObjectList.GetObject docA.objects r ≠ none →
    PdfIndirectObjectList.GetObject docB.objects r =
      PdfIndirectObjectList.GetObject docA.objects r) ∧
  (∀ r, PdfIndirectObjectList.GetObject docA.objects r ≠ none →
    PdfIndirectObjectList.GetObject docB.objects r ≠ none)

/-- The effect of one guarded call of `addToDssArray` that returns: nothing
for an empty list, a `Step` otherwise. -/
def Effect (docA docB : PdfMemDocument) (dss : PdfReference) (key : String)
    (items : List Bytes) : Prop :=
  if items = [] then docB = docA else ∃ a refs, Step docA docB dss key a refs items

/-- A document whose DSS dictionary (object 2) has `/Certs` only, an array
(object 3) holding one reference. -/
def exampleDssDocument : PdfMemDocument :=
  ⟨[("DSS", .reference 2)],
    [(1, .other), (2, .dictionary [("Certs", .reference 3)] none), (3, .array [.reference 1])]⟩

/-- A document whose DSS dictionary has `/Certs` and `/CRLs` referring to
the same array object 3. -/
def sharedArrayDocument : PdfMemDocument :=
  ⟨[("DSS", .reference 2)],
    [(1, .other), (2, .dictionary [("Certs", .reference 3), ("CRLs", .reference 3)] none),
      (3, .array [.reference 1])]⟩

/-- Validation data with one certificate (`AA==`, the byte 00) and one CRL
(`AQI=`, the bytes 01 02). -/
def exampleValidationData : ValidationData := ⟨[ascii "AA=="], [ascii "AQI="], []⟩

/-- The log grows by calls none of which belongs to a DSS update. -/
def NoDssFrame (s t : Session) : Prop :=
  ∃ calls, t.log = s.log ++ calls ∧ ∀ c ∈ calls, isDssCall c = false

/-! ## Examples and predicates for the helpers and the state errors -/

/-- A time-stamp response (schematic encoding) whose token holds the
certificate of the authority only. -/
def oneCertificateTsr : Bytes := [0x30, 0x03, 0x0A, 0x01, 0x01].map toByte

/-- A time-stamp response (schematic encoding) whose token holds the
certificate of the authority and that of its issuer. -/
def twoCertificateTsr : Bytes := [0x30, 0x03, 0x0A, 0x01, 0x02].map toByte

/-- A time-stamp response (schematic encoding) whose token holds one
certificate, which has no Authority Information Access extension. -/
def bareCertificateTsr : Bytes := [0x30, 0x03, 0x0A, 0x01, 0x03].map toByte

/-- A parser that knows the three responses above, each granted (status 0)
with a SignedData token, and reads any other input as `exampleD2iTsResp`. -/
def tsaD2iTsResp (der : Bytes) : Option TS_RESP :=
  if der = oneCertificateTsr then
    some ⟨some ⟨some 0⟩, some ⟨[0x30, 0x01, 0x01].map toByte, some ⟨some [tsaCertificate]⟩⟩⟩
  else if der = twoCertificateTsr then
    some ⟨some ⟨some 0⟩,
      some ⟨[0x30, 0x01, 0x02].map toByte, some ⟨some [tsaCertificate, tsaIssuerCertificate]⟩⟩⟩
  else if der = bareCertificateTsr then
    some ⟨some ⟨some 0⟩, some ⟨[0x30, 0x01, 0x03].map toByte, some ⟨some [tsaIssuerCertificate]⟩⟩⟩
  else exampleD2iTsResp der

/-- The example collaborators with the parser `tsaD2iTsResp`. -/
def tsaEnv : Env := { exampleEnv with d2i_TS_RESP := tsaD2iTsResp }

/-- The URI of the first access description of an Authority Information
Access extension that has the method `caIssuers` and a location of type
URI. -/
def firstCaIssuersUri (info : List ACCESS_DESCRIPTION) : Option Bytes :=
  info.findSome? (fun ad =>
    match ad.method, ad.location with
    | .NID_ad_ca_issuers, .GEN_URI uri => some uri
    | _, _ => none)

/-- A fetcher that answers every URL with the same text, `QUJD`. -/
def fixedFetcher : HttpFetcher := some (fun _ => .ok (ascii "QUJD"))

/-- The hashing algorithm of the CMS signer that has the name of a hash
algorithm of the session. -/
def hashingOf : HashAlgorithm → Option PdfHashingAlgorithm
  | .SHA256 => some .SHA256
  | .SHA384 => some .SHA384
  | .SHA512 => some .SHA512
  | .Unknown => none

/-- What `f` reads from the session is as before. -/
def Unchanged {α : Type} (f : Session → α) (s t : Session) : Prop := f t = f s

/-- The log grows by calls in which every CMS signer is created with the
parameters `params`. -/
def SignerParamsFrame (params : PdfSignerCmsParams) (s t : Session) : Prop :=
  ∃ calls, t.log = s.log ++ calls ∧
    ∀ cert chain p, Call.PdfSignerCms cert chain p ∈ calls → p = params

/-- A piece of a member function that ends in the dereference of a null
pointer only with a session that holds no stream. -/
def NullOnlyWithoutStream {α : Type} (m : SessionM α) : Prop :=
  ∀ s what, (m s).1 = .error (.nullDereference what) → (m s).2._stream = none

/-- A helper never ends in the dereference of a null pointer. -/
def Throws {α : Type} (r : Except Error α) : Prop :=
  ∀ what, r ≠ .error (.nullDereference what)

/-- The sessions on which `beginSigning` has never been called: a session as
the constructor leaves it, and the session any of the three other signing
calls leaves when made on such a session. -/
inductive NeverBegun (env : Env) : Session → Prop where
  | constructed (cmsParams : PdfSignerCmsParams)
      (conformanceLevel hashAlgorithmOid documentInputPath documentOutputPath : String)
      (endCertificateBase64 : Bytes) (certificateChainBase64 : List Bytes)
      (rootEntityCertificateBase64 : Option Bytes) (s : Session) :
      construct cmsParams conformanceLevel hashAlgorithmOid documentInputPath documentOutputPath
        endCertificateBase64 certificateChainBase64 rootEntityCertificateBase64 = .ok s →
      NeverBegun env s
  | afterFinishSigning (s : Session) (signedHash base64Tsr : Bytes)
      (validationData : Option ValidationData) :
      NeverBegun env s → NeverBegun env (finishSigning env signedHash base64Tsr validationData s).2
  | afterBeginSigningLTA (s : Session) :
      NeverBegun env s → NeverBegun env (beginSigningLTA env s).2
  | afterFinishSigningLTA (s : Session) (base64Tsr : Bytes)
      (validationData : Option ValidationData) :
      NeverBegun env s → NeverBegun env (finishSigningLTA env base64Tsr validationData s).2

/-- The collaborators end a call by returning or by throwing an exception
derived from `std::exception`. -/
def ThrowsExceptions (env : Env) : Prop :=
  ∀ history c what, env.throws history c ≠ some (.nullDereference what)

/-- The three LTA members are as before. -/
def LtaFrame (s t : Session) : Prop :=
  t._ltaDoc = s._ltaDoc ∧ t._ltaCtx = s._ltaCtx ∧ t._ltaSigner = s._ltaSigner

/-- The exception `finishSigningLTA` throws when the LTA signing has not
been started. -/
def ltaNotStarted : Error :=
  .runtime_error "LTA signing has not been started. Call beginSigningLTA() first."

/-- The exception `beginSigningLTA` throws when the session holds no stream. -/
def noActiveStream : Error :=
  .runtime_error "No active stream available. Make sure finishSigning() was called successfully."

/-- Whether a call hands a timestamp token to the CMS signer. -/
def isSetTimestampToken : Call → Bool
  | .SetTimestampToken _ => true
  | _ => false

/-! ## Predicates and examples for the signer, the CRL address and `UrlEncode` -/

/-- The log grows by calls in which every `SetFlags` gives the widget of the
field `field` the flags `flags`. -/
def FlagsFrame (field : String) (flags : Nat) (s t : Session) : Prop :=
  ∃ calls, t.log = s.log ++ calls ∧
    ∀ f g, Call.SetFlags f g ∈ calls → f = field ∧ g = flags

/-- A stand-in for `ssl::ComputeHash` in the examples: the data itself. -/
def exampleHash : ComputeHashFunction := fun data _ => data

/-- A serialized file with two signatures, each written by an incremental
update: the signature of the first update has the byte range
`[0 61 65 15]`, the document time stamp of the second `[0 141 145 15]`, which
is the whole file but its own `/Contents<00>`. -/
def twoSignatureFile : Bytes :=
  ascii ("%PDF-1.7 1 0 obj<</Type/Sig/ByteRange[0 061 065 015]/Contents<00>>>endobj %%EOF " ++
    "2 0 obj<</Type/DocTimeStamp/ByteRange[0 141 145 015]/Contents<00>>>endobj %%EOF ")

/-- The general names of the distribution points with a full name, in the
order of the points and, within a point, of its names. -/
def fullNames (points : List DIST_POINT) : List GENERAL_NAME :=
  points.flatMap (fun dp =>
    match dp.distpoint with
    | some (.fullname names) => names
    | _ => [])

/-- The first general name of type URI in a list of names. -/
def firstUri (names : List GENERAL_NAME) : Option Bytes :=
  names.findSome? (fun gen_name =>
    match gen_name with
    | .GEN_URI uri => some uri
    | .other => none)

/-- The first general name of type URI in a list of names that is not the
empty string. -/
def firstNonEmptyUri (names : List GENERAL_NAME) : Option Bytes :=
  names.findSome? (fun gen_name =>
    match gen_name with
    | .GEN_URI uri => if uri = [] then none else some uri
    | .other => none)

/-- A time-stamp response (schematic encoding, 50 bytes) whose token holds
the certificate of the authority. -/
def longCertificateTsr : Bytes := (List.range 50).map toByte

/-- A parser that reads `longCertificateTsr` as a granted response with the
certificate of the authority, and any other input as `tsaD2iTsResp`. -/
def crlD2iTsResp (der : Bytes) : Option TS_RESP :=
  if der = longCertificateTsr then
    some ⟨some ⟨some 0⟩, some ⟨[0x30, 0x01, 0x04].map toByte, some ⟨some [tsaCertificate]⟩⟩⟩
  else tsaD2iTsResp der

/-- The example collaborators with the parser `crlD2iTsResp`. -/
def crlEnv : Env := { exampleEnv with d2i_TS_RESP := crlD2iTsResp }

/-- The characters `UrlEncode` copies: letters, digits, `-`, `_`, `.` and
`~`. -/
def unreserved (c : Byte) : Bool :=
  isalnum c || c.val == 45 || c.val == 95 || c.val == 46 || c.val == 126

/-- An upper-case hexadecimal digit: `0`-`9` or `A`-`F`. -/
def isUpperHex (c : Byte) : Bool := (48 ≤ c.val && c.val ≤ 57) || (65 ≤ c.val && c.val ≤ 70)

/-- A text made of unreserved characters and of escapes: `%` followed by two
upper-case hexadecimal digits. -/
inductive UrlEncoded : Bytes → Prop where
  | nil : UrlEncoded []
  | copy (c : Byte) (rest : Bytes) : unreserved c = true → UrlEncoded rest → UrlEncoded (c :: rest)
  | escape (hi lo : Byte) (rest : Bytes) : isUpperHex hi = true → isUpperHex lo = true →
      UrlEncoded rest → UrlEncoded (toByte 37 :: hi :: lo :: rest)

/-- Where a percent-decoder stands: in plain text, behind a `%`, or behind a
`%` and the first digit of an escape. -/
inductive DecodeState where
  | text
  | percent
  | digit (hi : Nat)
deriving DecidableEq, Repr

/-- Percent-decoding from a state: `%XY` is the byte with the hexadecimal
digits `X` and `Y`, any other byte stands for itself; `none` for a `%` that
is not followed by two hexadecimal digits. -/
def percentDecodeFrom : DecodeState → Bytes → Option Bytes
  | .text, [] => some []
  | .text, c :: rest =>
      if c.val = 37 then percentDecodeFrom .percent rest
      else (percentDecodeFrom .text rest).map (fun out => c :: out)
  | .percent, [] => none
  | .percent, c :: rest =>
      match hexVal c with
      | some hi => percentDecodeFrom (.digit hi) rest
      | none => none
  | .digit _, [] => none
  | .digit hi, c :: rest =>
      match hexVal c with
      | some lo => (percentDecodeFrom .text rest).map (fun out => toByte (hi * 16 + lo) :: out)
      | none => none

/-- Percent-decoding of a text. -/
def percentDecode (text : Bytes) : Option Bytes := percentDecodeFrom .text text

/-- What becomes of a character of base64 text under URL encoding: `+`, `/`
and `=` are written `%2B`, `%2F` and `%3D`, the others stay. -/
def escapeBase64 (c : Byte) : Bytes :=
  if c.val = 43 then ascii "%2B"
  else if c.val = 47 then ascii "%2F"
  else if c.val = 61 then ascii "%3D"
  else [c]

/-- The certificate at index 0 of the signed token of a time-stamp
response. -/
def firstTokenCertificate (ts_resp : TS_RESP) : Option X509 :=
  ts_resp.token.bind (fun pkcs7 =>
    pkcs7.sign.bind (fun sign => sign.cert.bind (fun certs => certs[0]?)))

/-- The entry is no reference to an array object of the list: a value
stored directly, or a reference to an object that is not an array or that
the list does not have. -/
def NotAnArray (objs : PdfIndirectObjectList) : PdfVariant → Prop
  | .direct _ => True
  | .reference r => ∀ items, PdfIndirectObjectList.GetObject objs r ≠ some (.array items)

/-- The entry is a value stored directly or a reference to an object of the
list. -/
def Resolves (objs : PdfIndirectObjectList) : PdfVariant → Prop
  | .direct _ => True
  | .reference r => PdfIndirectObjectList.GetObject objs r ≠ none

/-- Calls of `addToDssArray` one after the other for the given keys and
lists, up to the first that throws. -/
def addAll (dss : PdfReference) :
    List (String × List Bytes) → PdfMemDocument → Except Error Unit × PdfMemDocument
  | [], doc => (.ok (), doc)
  | (keyName, data) :: rest, doc =>
      match addToDssArray dss keyName data createCertificateStream doc with
      | (.error e, doc1) => (.error e, doc1)
      | (.ok _, doc1) => addAll dss rest doc1

/-- A document whose DSS dictionary (object 2) has under `/Certs` a value
that is no reference and under `/CRLs` a reference to object 1, which is no
array. -/
def brokenDssDocument : PdfMemDocument :=
  ⟨[("DSS", .reference 2)],
    [(1, .other), (2, .dictionary [("Certs", .direct "null"), ("CRLs", .reference 1)] none)]⟩

/-- The log grows by calls none of which is a `SetTimestampToken`. -/
def NoTokenFrame (s t : Session) : Prop :=
  ∃ calls, t.log = s.log ++ calls ∧ ∀ token, Call.SetTimestampToken token ∉ calls

/-- The DER (schematic encoding, 50 bytes) of `emptyUriCertificate`. -/
def emptyUriCertificateDer : Bytes := (List.range 50).map (fun n => toByte (n + 100))

/-- A certificate whose CRL Distribution Points extension has one point, the
full name of which holds a URI of length 0 and then the URI
`http://ca.example/tsa.crl`. -/
def emptyUriCertificate : X509 :=
  { der := emptyUriCertificateDer
    info_access := none
    crl_distribution_points := some
      [⟨some (.fullname [.GEN_URI [], .GEN_URI (ascii "http://ca.example/tsa.crl")])⟩]
    subject_name := some (ascii "CN=TSA")
    issuer_name := some (ascii "CN=CA") }

/-- The example collaborators with a certificate parser that also knows
`emptyUriCertificate`. -/
def emptyUriEnv : Env :=
  { exampleEnv with
    d2i_X509 := fun der =>
      if der = emptyUriCertificateDer then .ok emptyUriCertificate else exampleD2iX509 der }

/-- A document whose DSS dictionary (object 2) has under `/CRLs` a reference
to object 3, which the document does not have, and no `/Certs`. -/
def danglingCrlsDocument : PdfMemDocument :=
  ⟨[("DSS", .reference 2)], [(1, .other), (2, .dictionary [("CRLs", .reference 3)] none)]⟩

/-! ## Base64 round trip -/

theorem toByte_val (n : Nat) : (toByte n).val = n % 256 := rfl

theorem toByte_eq (b : Byte) (n : Nat) (h : n = b.val) : toByte n = b := by
  apply Fin.ext
  have := b.isLt
  simp only [toByte_val]
  omega

theorem b64Val_b64Char (v : Nat) (h : v < 64) : b64Val (b64Char v) = some v := by
  unfold b64Char
  split_ifs <;> unfold b64Val <;> simp only [toByte_val] <;> split_ifs <;>
    first | omega | (simp only [Option.some.injEq]; omega)

theorem b64Char_ne_pad (v : Nat) : b64Char v ≠ b64Pad := by
  intro h
  have h2 := congrArg Fin.val h
  unfold b64Char at h2
  split_ifs at h2 <;> simp only [b64Pad, toByte_val] at h2 <;> omega

theorem b64Decode_group (c0 c1 c2 c3 : Byte) (v0 v1 v2 v3 : Nat) (tl : Bytes)
    (h0 : b64Val c0 = some v0) (h1 : b64Val c1 = some v1) (h2 : b64Val c2 = some v2)
    (h3 : b64Val c3 = some v3) (p2 : c2 ≠ b64Pad) (p3 : c3 ≠ b64Pad) :
    b64Decode (c0 :: c1 :: c2 :: c3 :: tl) =
      (b64Decode tl).map (fun out => toByte (v0 * 4 + v1 / 16) ::
        toByte (v1 % 16 * 16 + v2 / 4) :: toByte (v2 % 4 * 64 + v3) :: out) := by
  cases tl with
  | nil => simp [b64Decode, b64DecodeLast, h0, h1, h2, h3, p2, p3]
  | cons t ts =>
      simp only [b64Decode, h0, h1, h2, h3]
      cases b64Decode (t :: ts) <;> rfl

theorem b64Decode_b64Encode (s : Bytes) : b64Decode (b64Encode s) = some s := by
  induction s using b64Encode.induct with
  | case1 a b c rest ih =>
      have ha := a.isLt
      have hb := b.isLt
      have hc := c.isLt
      rw [b64Encode, b64Decode_group _ _ _ _ _ _ _ _ _
        (b64Val_b64Char _ (by omega)) (b64Val_b64Char _ (by omega))
        (b64Val_b64Char _ (by omega)) (b64Val_b64Char _ (by omega))
        (b64Char_ne_pad _) (b64Char_ne_pad _), ih]
      simp only [Option.map_some']
      rw [toByte_eq a _ (by omega), toByte_eq b _ (by omega), toByte_eq c _ (by omega)]
  | case2 a b =>
      have ha := a.isLt
      have hb := b.isLt
      simp only [b64Encode, b64Decode, b64DecodeLast,
        b64Val_b64Char (a.val / 4) (by omega),
        b64Val_b64Char (a.val % 4 * 16 + b.val / 16) (by omega),
        b64Val_b64Char (b.val % 16 * 4) (by omega), b64Char_ne_pad, false_and, if_false,
        if_true]
      rw [toByte_eq a _ (by omega), toByte_eq b _ (by omega)]
  | case3 a =>
      have ha := a.isLt
      simp only [b64Encode, b64Decode, b64DecodeLast,
        b64Val_b64Char (a.val / 4) (by omega),
        b64Val_b64Char (a.val % 4 * 16) (by omega), and_self, if_true]
      rw [toByte_eq a _ (by omega)]
  | case4 => rfl


/-! ## Hexadecimal round trip -/

theorem hexVal_hexDigit (n : Nat) (h : n < 16) : hexVal (hexDigit n) = some n := by
  unfold hexDigit
  split_ifs <;> unfold hexVal <;> simp only [toByte_val] <;> split_ifs <;>
    first | omega | (simp only [Option.some.injEq]; omega)

theorem isspace_hexDigit (n : Nat) (h : n < 16) : isspace (hexDigit n) = false := by
  unfold hexDigit isspace
  split_ifs <;> simp only [toByte_val] <;>
    simp only [Bool.or_eq_false_iff, Bool.and_eq_false_iff, decide_eq_false_iff_not,
      beq_eq_false_iff_ne, ne_eq] <;> omega

theorem hexDigit_val (n : Nat) (h : n < 16) :
    (hexDigit n).val = if n < 10 then 48 + n else 87 + n := by
  unfold hexDigit
  split_ifs <;> simp only [toByte_val] <;> omega

theorem strtol16_hexDigits (hi lo : Nat) (h1 : hi < 16) (h2 : lo < 16) :
    strtol16 [hexDigit hi, hexDigit lo] = ((hi * 16 + lo : Nat) : Int) := by
  have v1 := hexDigit_val hi h1
  have ne45 : (hexDigit hi).val ≠ 45 := by rw [v1]; split_ifs <;> omega
  have ne43 : (hexDigit hi).val ≠ 43 := by rw [v1]; split_ifs <;> omega
  simp only [strtol16, List.dropWhile, isspace_hexDigit hi h1, ne45, ne43, if_false,
    strtolDigits, hexVal_hexDigit hi h1, hexVal_hexDigit lo h2, Bool.false_eq_true]
  simp

theorem HexToBytes_ToHexString (d : Bytes) : HexToBytes (ToHexString d) = d := by
  induction d with
  | nil => rfl
  | cons c rest ih =>
      have hc := c.isLt
      simp only [ToHexString, HexToBytes, ih,
        strtol16_hexDigits (c.val / 16) (c.val % 16) (by omega) (by omega)]
      congr 1
      apply Fin.ext
      simp only [longToByte, toByte_val]
      omega


/-! ## Stepping through the session monad -/

theorem bind_apply {α β : Type} (m : SessionM α) (f : α → SessionM β) (s : Session) :
    (m >>= f) s =
      match m s with
      | (.ok a, s1) => f a s1
      | (.error e, s1) => (.error e, s1) := rfl

theorem pure_apply {α : Type} (a : α) (s : Session) : (pure a : SessionM α) s = (.ok a, s) := rfl

theorem raise_apply {α : Type} (e : Error) (s : Session) : (raise e : SessionM α) s = (.error e, s) :=
  rfl

theorem getSession_apply (s : Session) : getSession s = (.ok s, s) := rfl

theorem update_apply (f : Session → Session) (s : Session) : update f s = (.ok (), f s) := rfl

theorem liftExcept_apply {α : Type} (r : Except Error α) (s : Session) : liftExcept r s = (r, s) :=
  rfl

theorem record_apply (c : Call) (s : Session) :
    record c s = (.ok (), { s with log := s.log ++ [c] }) := rfl

theorem call_apply (env : Env) (c : Call) (s : Session) :
    call env c s =
      match env.throws s.log c with
      | some e => (.error e, { s with log := s.log ++ [c] })
      | none => (.ok (), { s with log := s.log ++ [c] }) := rfl



theorem bind_ok {α β : Type} {m : SessionM α} {f : α → SessionM β} {s s1 : Session} {a : α}
    (h : m s = (.ok a, s1)) : (m >>= f) s = f a s1 := by
  rw [bind_apply, h]

theorem bind_error {α β : Type} {m : SessionM α} {f : α → SessionM β} {s s1 : Session} {e : Error}
    (h : m s = (.error e, s1)) : (m >>= f) s = (.error e, s1) := by
  rw [bind_apply, h]

/-! ## The stages of `finishSigning` -/

theorem storeSignedHash_apply (signedHash : Bytes) (s : Session) :
    storeSignedHash signedHash s =
      match ConvertDSSHashToSignedHash signedHash with
      | .error e => (.error e, s)
      | .ok buff =>
          if s._signer.isNone then
            (.error (.runtime_error "Signer not initialized"),
              { s with _results := s._results.assign s._signerId buff })
          else (.ok (), { s with _results := s._results.assign s._signerId buff }) := by
  unfold storeSignedHash
  simp only [bind_apply, liftExcept_apply, update_apply, getSession_apply]
  cases ConvertDSSHashToSignedHash signedHash with
  | error e => rfl
  | ok buff =>
      simp only
      split <;> rfl

theorem attachTimestamp_apply (env : Env) (base64Tsr : Bytes) (s : Session) :
    attachTimestamp env base64Tsr s =
      if s._conformanceLevel ≠ "ADES_B_B" then
        match DecodeBase64Tsr env base64Tsr with
        | .error e => (.error e, s)
        | .ok tsr =>
            match env.throws s.log (.SetTimestampToken tsr) with
            | some e => (.error e, { s with log := s.log ++ [.SetTimestampToken tsr] })
            | none =>
                (.ok (),
                  { s with
                    log := s.log ++ [.SetTimestampToken tsr]
                    _signer := s._signer.map (fun signer => { signer with timestampToken := some tsr }) })
      else (.ok (), s) := by
  unfold attachTimestamp
  simp only [bind_apply, getSession_apply]
  split
  · simp only [bind_apply, liftExcept_apply, call_apply, update_apply]
    cases DecodeBase64Tsr env base64Tsr with
    | error e => rfl
    | ok tsr =>
        simp only
        cases env.throws s.log (.SetTimestampToken tsr) <;> rfl
  · rfl

theorem ctxFinishSigning_apply (env : Env) (s : Session) :
    ctxFinishSigning env s =
      match env.throws s.log (.FinishSigning .ctx s._results) with
      | some e => (.error e, { s with log := s.log ++ [.FinishSigning .ctx s._results] })
      | none => (.ok (), { s with log := s.log ++ [.FinishSigning .ctx s._results] }) := rfl

theorem writeDss_apply (env : Env) (vd : ValidationData) (s : Session) :
    writeDss env vd s =
      match s._stream with
      | none => (.error (.nullDereference "_stream"), s)
      | some _ =>
          match env.throws s.log (.Seek 0) with
          | some e => (.error e, { s with log := s.log ++ [.Seek 0] })
          | none =>
              match env.throws (s.log ++ [.Seek 0]) .Load with
              | some e => (.error e, { s with log := s.log ++ [.Seek 0, .Load] })
              | none =>
                  match createOrUpdateDSSCatalog (env.load (s.log ++ [.Seek 0, .Load])) vd with
                  | (.error e, _) =>
                      (.error e,
                        { s with log := s.log ++ [.Seek 0, .Load, .createOrUpdateDSSCatalog vd] })
                  | (.ok _, dss_doc) =>
                      match env.throws (s.log ++ [.Seek 0, .Load, .createOrUpdateDSSCatalog vd])
                          (.SaveUpdate dss_doc .noMetadataUpdateNoFlateCompress) with
                      | some e =>
                          (.error e,
                            { s with log := s.log ++ [.Seek 0, .Load, .createOrUpdateDSSCatalog vd,
                                .SaveUpdate dss_doc .noMetadataUpdateNoFlateCompress] })
                      | none =>
                          (.ok (),
                            { s with log := s.log ++ [.Seek 0, .Load, .createOrUpdateDSSCatalog vd,
                                .SaveUpdate dss_doc .noMetadataUpdateNoFlateCompress] }) := by
  unfold writeDss
  simp only [bind_apply, getSession_apply]
  cases h : s._stream with
  | none => rfl
  | some dev =>
      simp only [bind_apply, call_apply, getSession_apply, record_apply, raise_apply]
      cases env.throws s.log (.Seek 0) with
      | some e => simp [h]
      | none =>
          simp only [List.append_assoc, List.singleton_append]
          cases env.throws (s.log ++ [.Seek 0]) .Load with
          | some e => simp [h]
          | none =>
              simp only [List.append_assoc, List.singleton_append, List.cons_append, List.nil_append]
              rcases hc : createOrUpdateDSSCatalog (env.load (s.log ++ [.Seek 0, .Load])) vd with ⟨r, d⟩
              rw [hc]
              cases r with
              | error e => simp [h, raise_apply]
              | ok u =>
                  simp only [List.append_assoc, List.singleton_append, List.cons_append,
                    List.nil_append, call_apply]
                  cases env.throws (s.log ++ [.Seek 0, .Load, .createOrUpdateDSSCatalog vd])
                      (.SaveUpdate d .noMetadataUpdateNoFlateCompress) <;> simp [h]

theorem writeDssAtLevel_apply (env : Env) (level : String) (vd : Option ValidationData)
    (s : Session) :
    writeDssAtLevel env level vd s =
      if s._conformanceLevel = level then
        match vd with
        | some v => writeDss env v s
        | none => (.ok (), s)
      else (.ok (), s) := by
  unfold writeDssAtLevel
  simp only [bind_apply, getSession_apply]
  split
  · cases vd <;> rfl
  · rfl


theorem seq_cases {α : Type} (m : SessionM Unit) (f : Unit → SessionM α) (s : Session) :
    ((m s).1 = .ok () ∧ (m >>= f) s = f () (m s).2) ∨
      (∃ e, (m s).1 = .error e ∧ (m >>= f) s = (.error e, (m s).2)) := by
  rw [bind_apply]
  rcases h : m s with ⟨r, s1⟩
  cases r with
  | error e => exact Or.inr ⟨e, rfl, rfl⟩
  | ok u => exact Or.inl ⟨rfl, rfl⟩

theorem tryCatchRethrow_fst {α : Type} (body : SessionM α) (handler : Session → Session)
    (s : Session) : (tryCatchRethrow body handler s).1 = (body s).1 := by
  unfold tryCatchRethrow
  rcases h : body s with ⟨r, s1⟩
  cases r with
  | ok a => rfl
  | error e => cases e <;> rfl

theorem tryCatchRethrow_log {α : Type} (body : SessionM α) (handler : Session → Session)
    (hlog : ∀ t, (handler t).log = t.log) (s : Session) :
    (tryCatchRethrow body handler s).2.log = (body s).2.log := by
  unfold tryCatchRethrow
  rcases h : body s with ⟨r, s1⟩
  cases r with
  | ok a => rfl
  | error e => cases e <;> simp [hlog]

theorem storeSignedHash_frame (signedHash : Bytes) (s : Session) :
    (storeSignedHash signedHash s).2.log = s.log ∧
      (storeSignedHash signedHash s).2._conformanceLevel = s._conformanceLevel := by
  rw [storeSignedHash_apply]
  cases ConvertDSSHashToSignedHash signedHash with
  | error e => exact ⟨rfl, rfl⟩
  | ok buff =>
      simp only
      split <;> exact ⟨rfl, rfl⟩

theorem attachTimestamp_frame (env : Env) (base64Tsr : Bytes) (s : Session) :
    (attachTimestamp env base64Tsr s).2._conformanceLevel = s._conformanceLevel ∧
      ∃ ts, (attachTimestamp env base64Tsr s).2.log = s.log ++ ts ∧
        (∀ c ∈ ts, isDssCall c = false) := by
  rw [attachTimestamp_apply]
  split
  · cases DecodeBase64Tsr env base64Tsr with
    | error e => exact ⟨rfl, [], by simp, by simp⟩
    | ok tsr =>
        simp only
        cases env.throws s.log (.SetTimestampToken tsr) with
        | some e => exact ⟨rfl, [.SetTimestampToken tsr], rfl, by simp [isDssCall]⟩
        | none => exact ⟨rfl, [.SetTimestampToken tsr], rfl, by simp [isDssCall]⟩
  · exact ⟨rfl, [], by simp, by simp⟩

theorem ctxFinishSigning_frame (env : Env) (s : Session) :
    (ctxFinishSigning env s).2._conformanceLevel = s._conformanceLevel ∧
      (ctxFinishSigning env s).2.log = s.log ++ [.FinishSigning .ctx s._results] ∧
      ((ctxFinishSigning env s).1 = .ok () →
        env.throws s.log (.FinishSigning .ctx s._results) = none) := by
  rw [ctxFinishSigning_apply]
  cases env.throws s.log (.FinishSigning .ctx s._results) with
  | some e => exact ⟨rfl, rfl, by simp⟩
  | none => exact ⟨rfl, rfl, by simp⟩

theorem writeDss_frame (env : Env) (vd : ValidationData) (s : Session) :
    (writeDss env vd s).2._conformanceLevel = s._conformanceLevel ∧
      ∃ dss, (writeDss env vd s).2.log = s.log ++ dss ∧
        ((writeDss env vd s).1 = .ok () →
          ∃ doc, dss = [.Seek 0, .Load, .createOrUpdateDSSCatalog vd,
              .SaveUpdate doc .noMetadataUpdateNoFlateCompress] ∧
            createOrUpdateDSSCatalog (env.load (s.log ++ [.Seek 0, .Load])) vd = (.ok (), doc)) := by
  rw [writeDss_apply]
  cases s._stream with
  | none => exact ⟨rfl, [], by simp, by simp⟩
  | some dev =>
      simp only
      cases env.throws s.log (.Seek 0) with
      | some e => exact ⟨rfl, _, rfl, by simp⟩
      | none =>
          simp only
          cases env.throws (s.log ++ [.Seek 0]) .Load with
          | some e => exact ⟨rfl, _, rfl, by simp⟩
          | none =>
              simp only
              rcases hc : createOrUpdateDSSCatalog (env.load (s.log ++ [.Seek 0, .Load])) vd with ⟨r, d⟩
              rw [hc] at *
              cases r with
              | error e => exact ⟨rfl, _, rfl, by simp⟩
              | ok u =>
                  simp only
                  cases env.throws (s.log ++ [.Seek 0, .Load, .createOrUpdateDSSCatalog vd])
                      (.SaveUpdate d .noMetadataUpdateNoFlateCompress) with
                  | some e => exact ⟨rfl, _, rfl, by simp⟩
                  | none => exact ⟨rfl, _, rfl, fun _ => ⟨d, rfl, rfl⟩⟩

theorem writeDssAtLevel_frame (env : Env) (level : String) (vd : Option ValidationData)
    (s : Session) :
    (writeDssAtLevel env level vd s).2._conformanceLevel = s._conformanceLevel ∧
      ∃ dss, (writeDssAtLevel env level vd s).2.log = s.log ++ dss ∧
        ((s._conformanceLevel ≠ level ∨ vd = none) →
          dss = [] ∧ (writeDssAtLevel env level vd s).1 = .ok ()) ∧
        (∀ v, s._conformanceLevel = level → vd = some v →
          (writeDssAtLevel env level vd s).1 = .ok () →
          ∃ doc, dss = [.Seek 0, .Load, .createOrUpdateDSSCatalog v,
              .SaveUpdate doc .noMetadataUpdateNoFlateCompress] ∧
            createOrUpdateDSSCatalog (env.load (s.log ++ [.Seek 0, .Load])) v = (.ok (), doc)) := by
  rw [writeDssAtLevel_apply]
  by_cases hl : s._conformanceLevel = level
  · cases vd with
    | none => simp [hl]
    | some v =>
        simp only [hl, if_true]
        obtain ⟨h1, dss, h2, h3⟩ := writeDss_frame env v s
        refine ⟨h1.trans hl, dss, h2, ?_, ?_⟩
        · intro h
          simp at h
        · intro w _ hw hok
          cases hw
          exact h3 hok
  · simp [hl]


theorem finishSigningTry_cases (env : Env) (signedHash base64Tsr : Bytes)
    (validationData : Option ValidationData) (s : Session) :
    let s1 := (storeSignedHash signedHash s).2
    let s2 := (attachTimestamp env base64Tsr s1).2
    let s3 := (ctxFinishSigning env s2).2
    let s4 := (writeDssAtLevel env "ADES_B_LT" validationData s3).2
    let out := finishSigningTry env signedHash base64Tsr validationData s
    (∃ e, out = (.error e, s1)) ∨
      (∃ e, out = (.error e, s2)) ∨
      (∃ e, out = (.error e, s3)) ∨
      ((ctxFinishSigning env s2).1 = .ok () ∧ ∃ e, out = (.error e, s4)) ∨
      ((ctxFinishSigning env s2).1 = .ok () ∧
        (writeDssAtLevel env "ADES_B_LT" validationData s3).1 = .ok () ∧
        out = writeDssAtLevel env "ADES_B_LTA" validationData s4) := by
  intro s1 s2 s3 s4 out
  have hout : out = finishSigningTry env signedHash base64Tsr validationData s := rfl
  clear_value out
  subst hout
  unfold finishSigningTry
  rcases seq_cases (storeSignedHash signedHash) _ s with ⟨_, h1⟩ | ⟨e, _, h1⟩
  · rw [h1]
    rcases seq_cases (attachTimestamp env base64Tsr) _ s1 with ⟨_, h2⟩ | ⟨e, _, h2⟩
    · rw [h2]
      rcases seq_cases (ctxFinishSigning env) _ s2 with ⟨ok3, h3⟩ | ⟨e, _, h3⟩
      · rw [h3]
        rcases seq_cases (writeDssAtLevel env "ADES_B_LT" validationData) _ s3 with
          ⟨ok4, h4⟩ | ⟨e, _, h4⟩
        · rw [h4]
          exact Or.inr (Or.inr (Or.inr (Or.inr ⟨ok3, ok4, rfl⟩)))
        · rw [h4]
          exact Or.inr (Or.inr (Or.inr (Or.inl ⟨ok3, e, rfl⟩)))
      · rw [h3]
        exact Or.inr (Or.inr (Or.inl ⟨e, rfl⟩))
    · rw [h2]
      exact Or.inr (Or.inl ⟨e, rfl⟩)
  · rw [h1]
    exact Or.inl ⟨e, rfl⟩


theorem finishSigning_fst (env : Env) (signedHash base64Tsr : Bytes)
    (validationData : Option ValidationData) (s : Session) :
    (finishSigning env signedHash base64Tsr validationData s).1 =
      (finishSigningTry env signedHash base64Tsr validationData s).1 :=
  tryCatchRethrow_fst _ _ s

theorem finishSigning_log (env : Env) (signedHash base64Tsr : Bytes)
    (validationData : Option ValidationData) (s : Session) :
    (finishSigning env signedHash base64Tsr validationData s).2.log =
      (finishSigningTry env signedHash base64Tsr validationData s).2.log :=
  tryCatchRethrow_log (finishSigningTry env signedHash base64Tsr validationData)
    (fun t => { t with _stream := none }) (fun _ => rfl) s

theorem lt_ne_lta : ("ADES_B_LT" : String) ≠ "ADES_B_LTA" := by decide

/-- C8: the calls `finishSigning` adds to the log. At `ADES_B_B` and
`ADES_B_T` none of them belongs to a DSS update, whatever validation data
is supplied. At `ADES_B_LT` and `ADES_B_LTA` with validation data, a call
that returns has made, after `FinishSigning`, exactly one
`createOrUpdateDSSCatalog` on the document loaded from the stream followed
by one `SaveUpdate` of the result with `NoMetadataUpdate | NoFlateCompress`.
In every run a DSS call comes after a `FinishSigning` that did not throw. -/
theorem C8_dss_update_once_after_FinishSigning (env : Env) (signedHash base64Tsr : Bytes)
    (validationData : Option ValidationData) (s : Session) :
    ∃ calls, (finishSigning env signedHash base64Tsr validationData s).2.log = s.log ++ calls ∧
      ((s._conformanceLevel = "ADES_B_B" ∨ s._conformanceLevel = "ADES_B_T") →
        ∀ c ∈ calls, isDssCall c = false) ∧
      (∀ vd, (s._conformanceLevel = "ADES_B_LT" ∨ s._conformanceLevel = "ADES_B_LTA") →
        validationData = some vd →
        (finishSigning env signedHash base64Tsr validationData s).1 = .ok () →
        ∃ before results doc,
          calls = before ++ [.FinishSigning .ctx results, .Seek 0, .Load,
            .createOrUpdateDSSCatalog vd, .SaveUpdate doc .noMetadataUpdateNoFlateCompress] ∧
          (∀ c ∈ before, isDssCall c = false) ∧
          createOrUpdateDSSCatalog
            (env.load (s.log ++ before ++ [.FinishSigning .ctx results, .Seek 0, .Load])) vd =
              (.ok (), doc)) ∧
      ((∃ c ∈ calls, isDssCall c = true) →
        ∃ before results after, calls = before ++ .FinishSigning .ctx results :: after ∧
          (∀ c ∈ before, isDssCall c = false) ∧
          env.throws (s.log ++ before) (.FinishSigning .ctx results) = none) := by
  rw [finishSigning_fst, finishSigning_log]
  have F1 := storeSignedHash_frame signedHash s
  have C := finishSigningTry_cases env signedHash base64Tsr validationData s
  dsimp only at C
  generalize (storeSignedHash signedHash s).2 = s1 at F1 C
  have F2 := attachTimestamp_frame env base64Tsr s1
  generalize (attachTimestamp env base64Tsr s1).2 = s2 at F2 C
  have F3 := ctxFinishSigning_frame env s2
  generalize (ctxFinishSigning env s2).2 = s3 at F3 C
  have F4 := writeDssAtLevel_frame env "ADES_B_LT" validationData s3
  generalize (writeDssAtLevel env "ADES_B_LT" validationData s3).2 = s4 at F4 C
  have F5 := writeDssAtLevel_frame env "ADES_B_LTA" validationData s4
  obtain ⟨l1, v1⟩ := F1
  obtain ⟨v2, ts, l2, nd⟩ := F2
  obtain ⟨v3, l3, ok3t⟩ := F3
  obtain ⟨v4, dss4, l4, e4, f4⟩ := F4
  obtain ⟨v5, dss5, l5, e5, f5⟩ := F5
  have L2 : s2.log = s.log ++ ts := by rw [l2, l1]
  have L3 : s3.log = s.log ++ (ts ++ [.FinishSigning .ctx s2._results]) := by
    rw [l3, L2, List.append_assoc]
  have V2 : s2._conformanceLevel = s._conformanceLevel := v2.trans v1
  have V3 : s3._conformanceLevel = s._conformanceLevel := v3.trans V2
  have V4 : s4._conformanceLevel = s._conformanceLevel := v4.trans V3
  have ndFin : ∀ c ∈ ts ++ [Call.FinishSigning .ctx s2._results], isDssCall c = false := by
    intro c hc
    rcases List.mem_append.mp hc with h | h
    · exact nd c h
    · rw [List.mem_singleton.mp h]; rfl
  rcases C with ⟨e, h⟩ | ⟨e, h⟩ | ⟨e, h⟩ | ⟨ok3, e, h⟩ | ⟨ok3, ok4, h⟩
  · rw [h]
    refine ⟨[], by simp [l1], by simp, ?_, by simp⟩
    intro vd _ _ hok
    simp at hok
  · rw [h]
    refine ⟨ts, L2, fun _ => nd, ?_, ?_⟩
    · intro vd _ _ hok
      simp at hok
    · rintro ⟨c, hc, hd⟩
      rw [nd c hc] at hd
      simp at hd
  · rw [h]
    refine ⟨_, L3, fun _ => ndFin, ?_, ?_⟩
    · intro vd _ _ hok
      simp at hok
    · rintro ⟨c, hc, hd⟩
      rw [ndFin c hc] at hd
      simp at hd
  · rw [h]
    refine ⟨ts ++ [.FinishSigning .ctx s2._results] ++ dss4, by
      simp only [l4, L3, List.append_assoc], ?_, ?_, ?_⟩
    · intro hl
      have hne : s3._conformanceLevel ≠ "ADES_B_LT" := by
        rw [V3]; rcases hl with hl | hl <;> rw [hl] <;> decide
      have := (e4 (Or.inl hne)).1
      subst this
      simpa using ndFin
    · intro vd _ _ hok
      simp at hok
    · intro _
      exact ⟨ts, s2._results, dss4, by simp, nd, by rw [← L2]; exact ok3t ok3⟩
  · rw [h]
    refine ⟨ts ++ [.FinishSigning .ctx s2._results] ++ dss4 ++ dss5, by
      simp only [l5, l4, L3, List.append_assoc], ?_, ?_, ?_⟩
    · intro hl
      have hne4 : s3._conformanceLevel ≠ "ADES_B_LT" := by
        rw [V3]; rcases hl with hl | hl <;> rw [hl] <;> decide
      have hne5 : s4._conformanceLevel ≠ "ADES_B_LTA" := by
        rw [V4]; rcases hl with hl | hl <;> rw [hl] <;> decide
      have h4 := (e4 (Or.inl hne4)).1
      have h5 := (e5 (Or.inl hne5)).1
      subst h4 h5
      simpa using ndFin
    · intro vd hl hvd hok
      rcases hl with hl | hl
      · have hne5 : s4._conformanceLevel ≠ "ADES_B_LTA" := by
          rw [V4, hl]; exact lt_ne_lta
        have h5 := (e5 (Or.inl hne5)).1
        obtain ⟨doc, hd, hdoc⟩ := f4 vd (V3.trans hl) hvd ok4
        subst h5 hd
        refine ⟨ts, s2._results, doc, by simp, nd, ?_⟩
        rw [L3] at hdoc
        simpa [List.append_assoc] using hdoc
      · have hne4 : s3._conformanceLevel ≠ "ADES_B_LT" := by
          rw [V3, hl]; exact lt_ne_lta.symm
        have h4 := (e4 (Or.inl hne4)).1
        obtain ⟨doc, hd, hdoc⟩ := f5 vd (V4.trans hl) hvd hok
        subst h4 hd
        refine ⟨ts, s2._results, doc, by simp, nd, ?_⟩
        rw [l4, L3] at hdoc
        simpa [List.append_assoc] using hdoc
    · intro _
      exact ⟨ts, s2._results, dss4 ++ dss5, by simp, nd, by rw [← L2]; exact ok3t ok3⟩


/-! ## The stages of `beginSigning` -/

theorem call_quiet (env : Env) (hthrows : ∀ history c, env.throws history c = none) (c : Call)
    (s : Session) : call env c s = (.ok (), { s with log := s.log ++ [c] }) := by
  rw [call_apply, hthrows]

theorem encodeDigest_fst (s : Session) :
    (encodeDigest s).1 = (ToBase64 (s._results.index s._signerId).1).map UrlEncode := by
  unfold encodeDigest
  simp only [bind_apply, getSession_apply, update_apply, liftExcept_apply, digestToBase64,
    HexToBytes_ToHexString]
  cases ToBase64 (s._results.index s._signerId).1 <;> rfl

theorem encodeDigestLTA_fst (s : Session) :
    (encodeDigestLTA s).1 = ToBase64 (s._ltaResults.index s._ltaSignerId).1 := by
  unfold encodeDigestLTA
  simp only [bind_apply, getSession_apply, update_apply, liftExcept_apply, digestToBase64,
    HexToBytes_ToHexString]
  cases ToBase64 (s._ltaResults.index s._ltaSignerId).1 <;> rfl


theorem Keeps.bind {α β : Type} {P : Session → Session → Prop}
    (htrans : ∀ a b c, P a b → P b c → P a c) {m : SessionM α} {f : α → SessionM β}
    (hm : Keeps P m) (hf : ∀ a, Keeps P (f a)) : Keeps P (m >>= f) := by
  intro s
  rw [bind_apply]
  have h1 := hm s
  rcases h : m s with ⟨r, s1⟩
  rw [h] at h1
  cases r with
  | error e => exact h1
  | ok a => exact htrans _ _ _ h1 (hf a s1)

theorem Keeps.getSession {P : Session → Session → Prop} (hrefl : ∀ s, P s s) :
    Keeps P getSession := fun s => hrefl s

theorem Keeps.pure {α : Type} {P : Session → Session → Prop} (hrefl : ∀ s, P s s) (a : α) :
    Keeps P (pure a : SessionM α) := fun s => hrefl s

theorem Keeps.raise {α : Type} {P : Session → Session → Prop} (hrefl : ∀ s, P s s) (e : Error) :
    Keeps P (raise e : SessionM α) := fun s => hrefl s

theorem Keeps.liftExcept {α : Type} {P : Session → Session → Prop} (hrefl : ∀ s, P s s)
    (r : Except Error α) : Keeps P (liftExcept r) := fun s => hrefl s

theorem Keeps.update {P : Session → Session → Prop} (f : Session → Session)
    (hf : ∀ s, P s (f s)) : Keeps P (update f) := fun s => hf s

theorem Keeps.call {P : Session → Session → Prop} (env : Env) (c : Call)
    (hc : ∀ s : Session, P s { s with log := s.log ++ [c] }) : Keeps P (call env c) := by
  intro s
  rw [call_apply]
  cases env.throws s.log c <;> exact hc s

theorem Keeps.ite {α : Type} {P : Session → Session → Prop} (c : Prop) [Decidable c]
    {m1 m2 : SessionM α} (h1 : Keeps P m1) (h2 : Keeps P m2) :
    Keeps P (if c then m1 else m2) := by
  split
  · exact h1
  · exact h2


theorem PrepFrame_refl (s : Session) : PrepFrame s s :=
  ⟨rfl, rfl, rfl, [], by simp, by simp⟩

theorem PrepFrame_trans (a b c : Session) (h1 : PrepFrame a b) (h2 : PrepFrame b c) :
    PrepFrame a c := by
  obtain ⟨l1, p1, g1, c1, e1, n1⟩ := h1
  obtain ⟨l2, p2, g2, c2, e2, n2⟩ := h2
  refine ⟨l2.trans l1, p2.trans p1, g2.trans g1, c1 ++ c2, by rw [e2, e1, List.append_assoc], ?_⟩
  intro c hc
  rcases List.mem_append.mp hc with h | h
  · exact n1 c h
  · exact n2 c h

theorem PrepFrame_call (c : Call) (hc : isSignerCall c = false) (s : Session) :
    PrepFrame s { s with log := s.log ++ [c] } :=
  ⟨rfl, rfl, rfl, [c], rfl, by simpa using hc⟩

theorem prepareDocument_frame (env : Env) : Keeps PrepFrame (prepareDocument env) := by
  unfold prepareDocument
  repeat' first
    | exact Keeps.getSession PrepFrame_refl
    | exact Keeps.call env _ (PrepFrame_call _ rfl)
    | exact Keeps.update _ (fun s => PrepFrame_refl s)
    | apply Keeps.bind PrepFrame_trans
    | intro _

theorem selectSignatureType_apply (s : Session) :
    selectSignatureType s =
      match specSignatureType s._conformanceLevel with
      | some t => (.ok (), { s with _cmsParams := { s._cmsParams with SignatureType := t } })
      | none => (.error (.runtime_error "Invalid conformance level"), s) := by
  unfold selectSignatureType specSignatureType
  simp only [bind_apply, getSession_apply]
  split_ifs <;> rfl

theorem selectHashing_frame (s : Session) :
    (selectHashing s).2._cmsParams.SignatureType = s._cmsParams.SignatureType ∧
      (selectHashing s).2._signer = s._signer := by
  unfold selectHashing
  simp only [bind_apply, getSession_apply]
  split_ifs <;> exact ⟨rfl, rfl⟩

theorem registerSigner_ok (env : Env) (s : Session) (h : (registerSigner env s).1 = .ok ()) :
    (registerSigner env s).2._signer =
        some ⟨s._endCertificateDer, s._certificateChainDer, s._cmsParams, 20000, none⟩ ∧
      (registerSigner env s).2._cmsParams = s._cmsParams := by
  unfold registerSigner at h ⊢
  simp only [bind_apply, getSession_apply, call_apply, update_apply] at h ⊢
  cases h1 : env.throws s.log (.PdfSignerCms s._endCertificateDer s._certificateChainDer s._cmsParams) with
  | some e => simp [h1] at h
  | none =>
      simp only [h1] at h ⊢
      cases h2 : env.throws
          (s.log ++ [.PdfSignerCms s._endCertificateDer s._certificateChainDer s._cmsParams])
          (.ReserveAttributeSize 20000) with
      | some e => simp [h2] at h
      | none =>
          simp only [h2] at h ⊢
          cases h3 : env.throws
              (s.log ++ [.PdfSignerCms s._endCertificateDer s._certificateChainDer s._cmsParams] ++
                [.ReserveAttributeSize 20000]) (.AddSigner .ctx) with
          | some e =>
              simp only [List.append_assoc, List.singleton_append] at h3
              simp [h3] at h
          | none =>
              simp only [List.append_assoc, List.singleton_append] at h3
              simp [h3]


theorem SignerFrame_refl (s : Session) : SignerFrame s s := ⟨rfl, rfl⟩

theorem SignerFrame_trans (a b c : Session) (h1 : SignerFrame a b) (h2 : SignerFrame b c) :
    SignerFrame a c :=
  ⟨h2.1.trans h1.1, h2.2.trans h1.2⟩

theorem ctxStartSigning_frame (env : Env) : Keeps SignerFrame (ctxStartSigning env) := by
  unfold ctxStartSigning
  repeat' first
    | exact Keeps.call env _ (fun s => SignerFrame_refl s)
    | exact Keeps.update _ (fun s => SignerFrame_refl s)
    | apply Keeps.bind SignerFrame_trans
    | intro _

theorem encodeDigest_frame : Keeps SignerFrame encodeDigest := by
  unfold encodeDigest
  repeat' first
    | exact Keeps.getSession SignerFrame_refl
    | exact Keeps.liftExcept SignerFrame_refl _
    | exact Keeps.pure SignerFrame_refl _
    | exact Keeps.update _ (fun s => SignerFrame_refl s)
    | apply Keeps.bind SignerFrame_trans
    | intro _

theorem bind_ok_inv {β : Type} {m : SessionM Unit} {f : Unit → SessionM β} {s : Session} {r : β}
    (h : ((m >>= f) s).1 = .ok r) : (m s).1 = .ok () ∧ (m >>= f) s = f () (m s).2 := by
  rcases seq_cases m f s with ⟨h1, h2⟩ | ⟨e, _, h2⟩
  · exact ⟨h1, h2⟩
  · rw [h2] at h
    simp at h

theorem tryCatchRethrow_ok {α : Type} (body : SessionM α) (handler : Session → Session)
    (s : Session) (a : α) (h : (body s).1 = .ok a) :
    (tryCatchRethrow body handler s).2 = (body s).2 := by
  unfold tryCatchRethrow
  rcases hb : body s with ⟨r, s1⟩
  rw [hb] at h
  cases r with
  | ok b => rfl
  | error e => simp at h

theorem beginSigning_ok_signer (env : Env) (s : Session) (r : Bytes)
    (h : (beginSigning env s).1 = .ok r) :
    ∃ signer, (beginSigning env s).2._signer = some signer ∧
      specSignatureType s._conformanceLevel = some signer.params.SignatureType ∧
      (beginSigning env s).2._cmsParams.SignatureType = signer.params.SignatureType := by
  have htry : (beginSigningTry env s).1 = .ok r := by
    rwa [beginSigning, tryCatchRethrow_fst] at h
  rw [beginSigning, tryCatchRethrow_ok _ _ _ r htry]
  unfold beginSigningTry at htry ⊢
  obtain ⟨-, e1⟩ := bind_ok_inv htry
  rw [e1] at htry ⊢
  have f1 := prepareDocument_frame env s
  generalize (prepareDocument env s).2 = s1 at f1 htry ⊢
  obtain ⟨ok2, e2⟩ := bind_ok_inv htry
  rw [e2] at htry ⊢
  rw [selectSignatureType_apply] at ok2 htry ⊢
  cases hspec : specSignatureType s1._conformanceLevel with
  | none => simp [hspec] at ok2
  | some t =>
      simp only [hspec] at htry ⊢
      obtain ⟨-, e3⟩ := bind_ok_inv htry
      rw [e3] at htry ⊢
      have f3 := selectHashing_frame
        { s1 with _cmsParams := { s1._cmsParams with SignatureType := t } }
      generalize (selectHashing
        { s1 with _cmsParams := { s1._cmsParams with SignatureType := t } }).2 = s3 at f3 htry ⊢
      obtain ⟨ok4, e4⟩ := bind_ok_inv htry
      rw [e4] at htry ⊢
      have f4 := registerSigner_ok env s3 ok4
      generalize (registerSigner env s3).2 = s4 at f4 htry ⊢
      obtain ⟨-, e5⟩ := bind_ok_inv htry
      rw [e5] at htry ⊢
      have f5 := ctxStartSigning_frame env s4
      generalize (ctxStartSigning env s4).2 = s5 at f5 htry ⊢
      have f6 := encodeDigest_frame s5
      generalize (encodeDigest s5).2 = s6 at f6 ⊢
      refine ⟨_, f6.2.trans (f5.2.trans f4.1), ?_, ?_⟩
      · rw [← f1.1, hspec]
        simp only [Option.some.injEq]
        exact f3.1.symm
      · rw [f6.1, f5.1, f4.2]

theorem beginSigning_rejects (env : Env) (s : Session)
    (hspec : specSignatureType s._conformanceLevel = none) :
    (∃ e, (beginSigning env s).1 = .error e) ∧
      (beginSigning env s).2._signer = s._signer ∧
      (∃ calls, (beginSigning env s).2.log = s.log ++ calls ∧
        ∀ c ∈ calls, isSignerCall c = false) ∧
      ((∀ history c, env.throws history c = none) →
        (beginSigning env s).1 = .error (.runtime_error "Invalid conformance level")) := by
  have f1 := prepareDocument_frame env s
  have key : ∃ e, beginSigningTry env s = (.error e, (prepareDocument env s).2) ∧
      ((∀ history c, env.throws history c = none) →
        e = .runtime_error "Invalid conformance level") := by
    unfold beginSigningTry
    rcases seq_cases (prepareDocument env) _ s with ⟨ok1, e1⟩ | ⟨e, er1, e1⟩
    · rw [e1]
      refine ⟨.runtime_error "Invalid conformance level", ?_, fun _ => rfl⟩
      apply bind_error
      rw [selectSignatureType_apply, f1.1, hspec]
    · refine ⟨e, e1, ?_⟩
      intro hq
      exfalso
      revert er1
      unfold prepareDocument
      simp [bind_apply, getSession_apply, update_apply, call_quiet env hq]
  obtain ⟨e, htry, hq⟩ := key
  generalize (prepareDocument env s).2 = s1 at f1 htry
  obtain ⟨-, -, g1, calls, l1, n1⟩ := f1
  unfold beginSigning tryCatchRethrow
  rw [htry]
  cases e with
  | runtime_error w => exact ⟨⟨_, rfl⟩, g1, ⟨calls, l1, n1⟩, fun h => by rw [hq h]⟩
  | collaborator w => exact ⟨⟨_, rfl⟩, g1, ⟨calls, l1, n1⟩, fun h => by rw [hq h]⟩
  | nullDereference w => exact ⟨⟨_, rfl⟩, g1, ⟨calls, l1, n1⟩, fun h => by rw [hq h]⟩


/-! ## Lookup in association lists -/

theorem lookup_append {κ β : Type} [BEq κ] [LawfulBEq κ] [DecidableEq κ] (l : List (κ × β))
    (k k1 : κ) (v : β) :
    List.lookup k1 (l ++ [(k, v)]) =
      match List.lookup k1 l with
      | some x => some x
      | none => if k1 = k then some v else none := by
  induction l with
  | nil =>
      by_cases h : k1 = k
      · subst h
        simp [List.lookup_cons]
      · have h2 : (k1 == k) = false := by simpa using h
        simp [List.lookup_cons, h, h2]
  | cons kv rest ih =>
      obtain ⟨a, b⟩ := kv
      by_cases h : k1 = a
      · subst h
        simp [List.lookup_cons]
      · have h2 : (k1 == a) = false := by simpa using h
        simp only [List.cons_append, List.lookup_cons, h2]
        exact ih

theorem lookup_map_replace {κ β : Type} [BEq κ] [LawfulBEq κ] [DecidableEq κ] (l : List (κ × β))
    (k k1 : κ) (v : β) :
    List.lookup k1 (l.map (fun kv => if kv.1 = k then (k, v) else kv)) =
      if k1 = k then (List.lookup k l).map (fun _ => v) else List.lookup k1 l := by
  induction l with
  | nil => simp
  | cons kv rest ih =>
      obtain ⟨a, b⟩ := kv
      by_cases ha : a = k
      · subst ha
        show List.lookup k1 ((if (a, b).1 = a then (a, v) else (a, b)) :: _) = _
        rw [if_pos rfl, List.lookup_cons, List.lookup_cons]
        by_cases h1 : k1 = a
        · subst h1
          simp
        · have h2 : (k1 == a) = false := by simpa using h1
          simp only [h2, h1, if_false]
          rw [ih, if_neg h1, List.lookup_cons, h2]
      · show List.lookup k1 ((if (a, b).1 = k then (k, v) else (a, b)) :: _) = _
        rw [if_neg ha, List.lookup_cons, ih]
        by_cases h1 : k1 = k
        · subst h1
          have h2 : (k1 == a) = false := by simpa using fun h => ha h.symm
          simp [List.lookup_cons, h2]
        · rw [if_neg h1, if_neg h1, List.lookup_cons]

theorem index_assign (r : PdfSigningResults) (id : PdfSignerId) (buff : Bytes) :
    ((r.assign id buff).index id).1 = buff := by
  by_cases h : (List.lookup id r.Intermediate).isSome
  · obtain ⟨x, hx⟩ := Option.isSome_iff_exists.mp h
    rw [PdfSigningResults.assign, if_pos h]
    simp only [PdfSigningResults.index, lookup_map_replace, if_true, hx, Option.map_some']
  · have hn : List.lookup id r.Intermediate = none := by
      cases hl : List.lookup id r.Intermediate with
      | none => rfl
      | some x => simp [hl] at h
    rw [PdfSigningResults.assign, if_neg h]
    simp only [PdfSigningResults.index, lookup_append, hn, if_true]

/-! ## The object list and dictionaries -/

theorem GetObject_append (objs : PdfIndirectObjectList) (r r1 : PdfReference) (o : PdfObject) :
    PdfIndirectObjectList.GetObject (objs ++ [(r, o)]) r1 =
      match PdfIndirectObjectList.GetObject objs r1 with
      | some x => some x
      | none => if r1 = r then some o else none := by
  unfold PdfIndirectObjectList.GetObject
  rw [lookup_append]
  cases List.lookup r1 objs <;> rfl

theorem GetObject_setObject (objs : PdfIndirectObjectList) (r r1 : PdfReference) (o : PdfObject) :
    PdfIndirectObjectList.GetObject (PdfIndirectObjectList.setObject objs r o) r1 =
      if r1 = r then (PdfIndirectObjectList.GetObject objs r).map (fun _ => o)
      else PdfIndirectObjectList.GetObject objs r1 := by
  unfold PdfIndirectObjectList.GetObject PdfIndirectObjectList.setObject
  rw [lookup_map_replace]

theorem lookup_none_of_lt {β : Type} (l : List (Nat × β)) (k : Nat)
    (h : (l.map Prod.fst).foldr max 0 < k) : List.lookup k l = none := by
  induction l with
  | nil => rfl
  | cons kv rest ih =>
      obtain ⟨a, b⟩ := kv
      simp only [List.map_cons, List.foldr_cons] at h
      have h1 : (k == a) = false := by
        have : k ≠ a := by omega
        simpa using this
      rw [List.lookup_cons, h1]
      exact ih (by omega)

theorem GetObject_freshRef (objs : PdfIndirectObjectList) :
    PdfIndirectObjectList.GetObject objs (PdfIndirectObjectList.freshRef objs) = none := by
  unfold PdfIndirectObjectList.GetObject PdfIndirectObjectList.freshRef
  exact lookup_none_of_lt objs _ (Nat.lt_succ_self _)

theorem GetKey_AddKey (d : PdfDictionary) (k k1 : String) (v : PdfVariant) :
    PdfDictionary.GetKey (PdfDictionary.AddKey d k v) k1 =
      if k1 = k then some v else PdfDictionary.GetKey d k1 := by
  unfold PdfDictionary.AddKey PdfDictionary.HasKey PdfDictionary.GetKey
  by_cases h : (List.lookup k d).isSome
  · obtain ⟨x, hx⟩ := Option.isSome_iff_exists.mp h
    rw [if_pos h, lookup_map_replace, hx]
    rfl
  · have hn : List.lookup k d = none := by
      cases hl : List.lookup k d with
      | none => rfl
      | some x => simp [hl] at h
    rw [if_neg h, lookup_append]
    by_cases h1 : k1 = k
    · subst h1
      simp [hn]
    · simp only [h1, if_false]
      cases List.lookup k1 d <;> rfl

/-! ## The claims on the signing calls -/

set_option maxRecDepth 100000 in
/-- C1: a signature of 256 bytes does not come back from
`ConvertDSSHashToSignedHash`: applied to its base64 encoding the function
returns the first 128 bytes only, and these are what `finishSigning` has put
in the results when the context's `FinishSigning` is called. -/
theorem C1_signature_cut_to_128_bytes :
    rsa2048Signature.length = 256 ∧
      ConvertDSSHashToSignedHash (b64Encode rsa2048Signature) = .ok (rsa2048Signature.take 128) ∧
      rsa2048Signature.take 128 ≠ rsa2048Signature ∧
      (finishSigning exampleEnv (b64Encode rsa2048Signature) [] none
          (startedSession "ADES_B_B")).2.log =
        (startedSession "ADES_B_B").log ++
          [.FinishSigning .ctx ⟨[(0, rsa2048Signature.take 128)]⟩] := by
  decide

set_option maxRecDepth 100000 in
/-- C2: at `ADES_B_T`, `finishSigning` with a time-stamp response of status 2
returns normally: the response is handed to the signer and the context's
`FinishSigning` is called, although `ExtractTimestampTokenFromTSR` rejects
the same response. -/
theorem C2_rejected_response_is_finalized :
    b64Encode rejectedTsr = ascii "MAUwAwIBAg==" ∧
      exampleEnv.d2i_TS_RESP rejectedTsr = some ⟨some ⟨some 2⟩, none⟩ ∧
      (∃ what, ExtractTimestampTokenFromTSR exampleEnv rejectedTsr = .error (.runtime_error what)) ∧
      (finishSigning exampleEnv tinySignedHash (b64Encode rejectedTsr) none
          (startedSession "ADES_B_T")).1 = .ok () ∧
      (finishSigning exampleEnv tinySignedHash (b64Encode rejectedTsr) none
          (startedSession "ADES_B_T")).2.log =
        (startedSession "ADES_B_T").log ++
          [.SetTimestampToken rejectedTsr, .FinishSigning .ctx ⟨[(0, [0])]⟩] := by
  refine ⟨by decide, by decide, ⟨_, rfl⟩, by decide, by decide⟩

set_option maxRecDepth 100000 in
/-- Witness of C8: at `ADES_B_LT` with validation data the example run
returns, so the second part of C8 speaks of it. -/
theorem C8_witness :
    (finishSigning exampleEnv tinySignedHash (b64Encode grantedTsr) (some emptyValidationData)
        (startedSession "ADES_B_LT")).1 = .ok () ∧
      ∃ before results doc calls,
        (finishSigning exampleEnv tinySignedHash (b64Encode grantedTsr)
            (some emptyValidationData) (startedSession "ADES_B_LT")).2.log =
          (startedSession "ADES_B_LT").log ++ calls ∧
        calls = before ++ [.FinishSigning .ctx results, .Seek 0, .Load,
          .createOrUpdateDSSCatalog emptyValidationData,
          .SaveUpdate doc .noMetadataUpdateNoFlateCompress] := by
  have hok : (finishSigning exampleEnv tinySignedHash (b64Encode grantedTsr)
      (some emptyValidationData) (startedSession "ADES_B_LT")).1 = .ok () := by decide
  obtain ⟨calls, hlog, -, h2, -⟩ :=
    C8_dss_update_once_after_FinishSigning exampleEnv tinySignedHash (b64Encode grantedTsr)
      (some emptyValidationData) (startedSession "ADES_B_LT")
  obtain ⟨before, results, doc, hcalls, -, -⟩ := h2 emptyValidationData (Or.inl rfl) rfl hok
  exact ⟨hok, before, results, doc, calls, hlog, hcalls⟩

/-- C9: `HexToBytes` undoes `ToHexString` on every buffer. When no
collaborator throws and `StartSigning` leaves the digest `d` for the signer,
`beginSigning` (at a valid level and hash algorithm) returns
`UrlEncode(ToBase64(d))` and `beginSigningLTA` (with an open stream) returns
`ToBase64(d)` itself; for a digest that is not empty these are the
URL-encoded base64 text of `d` and the base64 text of `d`. -/
theorem C9_begin_returns_base64_of_digest (env : Env) (s sLta : Session) (d : Bytes)
    (hthrows : ∀ history c, env.throws history c = none)
    (hdigest : ∀ history history1 results,
      ((env.startSigning history results).index (env.signerId history1)).1 = d)
    (hlevel : s._conformanceLevel = "ADES_B_B" ∨ s._conformanceLevel = "ADES_B_T" ∨
      s._conformanceLevel = "ADES_B_LT" ∨ s._conformanceLevel = "ADES_B_LTA")
    (hhash : s._hashAlgorithm ≠ .Unknown)
    (hstream : sLta._stream ≠ none) :
    (∀ buffer, HexToBytes (ToHexString buffer) = buffer) ∧
      (beginSigning env s).1 = (ToBase64 d).map UrlEncode ∧
      (beginSigningLTA env sLta).1 = ToBase64 d ∧
      (d ≠ [] → (beginSigning env s).1 = .ok (UrlEncode (b64Encode d)) ∧
        (beginSigningLTA env sLta).1 = .ok (b64Encode d)) := by
  have hbegin : (beginSigning env s).1 = (ToBase64 d).map UrlEncode := by
    unfold beginSigning
    rw [tryCatchRethrow_fst]
    unfold beginSigningTry prepareDocument selectSignatureType selectHashing registerSigner
      ctxStartSigning
    rcases hlevel with hl | hl | hl | hl <;> cases hh : s._hashAlgorithm <;>
      first
        | exact absurd hh hhash
        | simp [bind_apply, getSession_apply, update_apply, call_quiet env hthrows, hl, hh,
            pure_apply, encodeDigest_fst, hdigest]
  have hlta : (beginSigningLTA env sLta).1 = ToBase64 d := by
    unfold beginSigningLTA
    rw [tryCatchRethrow_fst]
    unfold beginSigningLTATry prepareLta
    cases hs : sLta._stream with
    | none => exact absurd hs hstream
    | some dev =>
        simp [bind_apply, getSession_apply, update_apply, call_quiet env hthrows, hs,
          encodeDigestLTA_fst, hdigest]
  refine ⟨HexToBytes_ToHexString, hbegin, hlta, ?_⟩
  intro hd
  have hb : ToBase64 d = .ok (b64Encode d) := by
    unfold ToBase64
    rw [if_neg]
    simpa using hd
  rw [hbegin, hlta, hb]
  exact ⟨rfl, rfl⟩

set_option maxRecDepth 100000 in
/-- Witness of C9: the example collaborators leave `exampleDigest`. -/
theorem C9_witness :
    (beginSigning exampleEnv (exampleSession "ADES_B_T")).1 =
        .ok (UrlEncode (b64Encode exampleDigest)) ∧
      (beginSigningLTA exampleEnv (startedSession "ADES_B_LTA")).1 =
        .ok (b64Encode exampleDigest) :=
  (C9_begin_returns_base64_of_digest exampleEnv (exampleSession "ADES_B_T")
    (startedSession "ADES_B_LTA") exampleDigest (fun _ _ => rfl)
    (fun _ _ results => index_assign results 0 exampleDigest)
    (Or.inr (Or.inl rfl)) (by decide) (by decide)).2.2.2 (by decide)

theorem prepareDocument_quiet (env : Env) (hthrows : ∀ history c, env.throws history c = none)
    (s : Session) : (prepareDocument env s).1 = .ok () := by
  unfold prepareDocument
  simp [bind_apply, getSession_apply, update_apply, call_quiet env hthrows]

theorem registerSigner_quiet (env : Env) (hthrows : ∀ history c, env.throws history c = none)
    (s : Session) : (registerSigner env s).1 = .ok () := by
  unfold registerSigner
  simp [bind_apply, getSession_apply, update_apply, call_quiet env hthrows]

theorem selectHashing_ok (s : Session) (h : s._hashAlgorithm ≠ .Unknown) :
    (selectHashing s).1 = .ok () ∧
      (selectHashing s).2._hashAlgorithm = s._hashAlgorithm := by
  unfold selectHashing
  simp only [bind_apply, getSession_apply]
  cases hh : s._hashAlgorithm <;> first | exact absurd hh h | exact ⟨rfl, hh⟩

theorem bind_of_ok {β : Type} {m : SessionM Unit} {f : Unit → SessionM β} {s : Session}
    (h : (m s).1 = .ok ()) : (m >>= f) s = f () (m s).2 := by
  rcases seq_cases m f s with ⟨_, h2⟩ | ⟨e, h1, _⟩
  · exact h2
  · rw [h1] at h
    simp at h

theorem tryCatchRethrow_signer {α : Type} (body : SessionM α) (s : Session) :
    (tryCatchRethrow body (fun t => { t with _stream := none }) s).2._signer =
      (body s).2._signer := by
  unfold tryCatchRethrow
  rcases h : body s with ⟨r, s1⟩
  cases r with
  | ok a => rfl
  | error e => cases e <;> rfl

theorem beginSigning_quiet_signer (env : Env) (s : Session)
    (hthrows : ∀ history c, env.throws history c = none)
    (hhash : s._hashAlgorithm ≠ .Unknown) (t : PdfSignatureType)
    (ht : specSignatureType s._conformanceLevel = some t) :
    ∃ signer, (beginSigning env s).2._signer = some signer ∧
      signer.params.SignatureType = t := by
  unfold beginSigning
  rw [tryCatchRethrow_signer]
  unfold beginSigningTry
  rw [bind_of_ok (prepareDocument_quiet env hthrows s)]
  have f1 := prepareDocument_frame env s
  have hprep : (prepareDocument env s).2._hashAlgorithm = s._hashAlgorithm := by
    unfold prepareDocument
    simp [bind_apply, getSession_apply, update_apply, call_quiet env hthrows]
  generalize (prepareDocument env s).2 = s1 at f1 hprep ⊢
  have hsel : selectSignatureType s1 =
      (.ok (), { s1 with _cmsParams := { s1._cmsParams with SignatureType := t } }) := by
    rw [selectSignatureType_apply, f1.1, ht]
  rw [bind_ok hsel]
  have hh := selectHashing_ok { s1 with _cmsParams := { s1._cmsParams with SignatureType := t } }
    (by simpa [hprep] using hhash)
  rw [bind_of_ok hh.1]
  have f3 := selectHashing_frame
    { s1 with _cmsParams := { s1._cmsParams with SignatureType := t } }
  generalize (selectHashing
    { s1 with _cmsParams := { s1._cmsParams with SignatureType := t } }).2 = s3 at f3 ⊢
  rw [bind_of_ok (registerSigner_quiet env hthrows s3)]
  have f4 := registerSigner_ok env s3 (registerSigner_quiet env hthrows s3)
  generalize (registerSigner env s3).2 = s4 at f4 ⊢
  have f5 : Keeps SignerFrame (ctxStartSigning env >>= fun _ => encodeDigest) :=
    Keeps.bind SignerFrame_trans (ctxStartSigning_frame env) (fun _ => encodeDigest_frame)
  refine ⟨_, (f5 s4).2.trans f4.1, ?_⟩
  exact f3.1

/-- C10: when `beginSigning` returns, the signer it created carries the
signature type the conformance level names, by exact match of the four
strings; for every other string `beginSigning` throws, leaves `_signer` as
it was and makes no call that creates or registers a signer, and when the
collaborators do not throw the exception is "Invalid conformance level".
When the collaborators do not throw and the hash algorithm is supported, the
signer is created with the signature type of the level also if the call ends
in a later exception. -/
theorem C10_signature_type_by_exact_match (env : Env) (s : Session) :
    (∀ r, (beginSigning env s).1 = .ok r →
      ∃ signer, (beginSigning env s).2._signer = some signer ∧
        (beginSigning env s).2._cmsParams.SignatureType = signer.params.SignatureType ∧
        ((s._conformanceLevel = "ADES_B_B" ∧ signer.params.SignatureType = .PAdES_B) ∨
          (s._conformanceLevel = "ADES_B_T" ∧ signer.params.SignatureType = .PAdES_B_T) ∨
          (s._conformanceLevel = "ADES_B_LT" ∧ signer.params.SignatureType = .PAdES_B_LT) ∨
          (s._conformanceLevel = "ADES_B_LTA" ∧ signer.params.SignatureType = .PAdES_B_LTA))) ∧
      (s._conformanceLevel ≠ "ADES_B_B" → s._conformanceLevel ≠ "ADES_B_T" →
        s._conformanceLevel ≠ "ADES_B_LT" → s._conformanceLevel ≠ "ADES_B_LTA" →
        (∃ e, (beginSigning env s).1 = .error e) ∧
          (beginSigning env s).2._signer = s._signer ∧
          (∃ calls, (beginSigning env s).2.log = s.log ++ calls ∧
            ∀ c ∈ calls, isSignerCall c = false) ∧
          ((∀ history c, env.throws history c = none) →
            (beginSigning env s).1 = .error (.runtime_error "Invalid conformance level"))) ∧
      ((∀ history c, env.throws history c = none) → s._hashAlgorithm ≠ .Unknown →
        ∀ t, specSignatureType s._conformanceLevel = some t →
          ∃ signer, (beginSigning env s).2._signer = some signer ∧
            signer.params.SignatureType = t) := by
  refine ⟨?_, ?_, ?_⟩
  rotate_left 2
  · intro hthrows hhash t ht
    exact beginSigning_quiet_signer env s hthrows hhash t ht
  · intro r h
    obtain ⟨signer, h1, h2, h3⟩ := beginSigning_ok_signer env s r h
    refine ⟨signer, h1, h3, ?_⟩
    unfold specSignatureType at h2
    split_ifs at h2 with a b c d <;> simp only [Option.some.injEq] at h2
    · exact Or.inl ⟨a, h2.symm⟩
    · exact Or.inr (Or.inl ⟨b, h2.symm⟩)
    · exact Or.inr (Or.inr (Or.inl ⟨c, h2.symm⟩))
    · exact Or.inr (Or.inr (Or.inr ⟨d, h2.symm⟩))
  · intro a b c d
    apply beginSigning_rejects
    unfold specSignatureType
    rw [if_neg a, if_neg b, if_neg c, if_neg d]

set_option maxRecDepth 100000 in
/-- Witness of C10: the example session returns at `ADES_B_LT`, and is
rejected at the level string `ADES_B_LTX`. -/
theorem C10_witness :
    (∃ signer, (beginSigning exampleEnv (exampleSession "ADES_B_LT")).2._signer = some signer ∧
        signer.params.SignatureType = .PAdES_B_LT) ∧
      (beginSigning exampleEnv (exampleSession "ADES_B_LTX")).1 =
        .error (.runtime_error "Invalid conformance level") := by
  constructor
  · obtain ⟨signer, h1, -, h3⟩ :=
      (C10_signature_type_by_exact_match exampleEnv (exampleSession "ADES_B_LT")).1
        (UrlEncode (b64Encode exampleDigest)) (by decide)
    refine ⟨signer, h1, ?_⟩
    rcases h3 with ⟨h, _⟩ | ⟨h, _⟩ | ⟨_, h⟩ | ⟨h, _⟩
    · exact absurd h (by decide)
    · exact absurd h (by decide)
    · exact h
    · exact absurd h (by decide)
  · exact ((C10_signature_type_by_exact_match exampleEnv (exampleSession "ADES_B_LTX")).2.1
      (by decide) (by decide) (by decide) (by decide)).2.2.2 (fun _ _ => rfl)

/-! ## The DSS writer -/

theorem createCRLStream_eq : createCRLStream = createCertificateStream := rfl

theorem createOCSPStream_eq : createOCSPStream = createCertificateStream := rfl

theorem createCertificateStream_catalog (doc : PdfMemDocument) (b : Bytes) :
    (createCertificateStream doc b).2.catalog = doc.catalog := by
  unfold createCertificateStream
  cases ConvertBase64PEMtoDER b <;> rfl

theorem addItems_catalog
    (f : PdfMemDocument → Bytes → Except Error PdfReference × PdfMemDocument)
    (hf : ∀ doc b, (f doc b).2.catalog = doc.catalog) (arr : PdfReference) (items : List Bytes)
    (doc : PdfMemDocument) : (addItems f arr items doc).2.catalog = doc.catalog := by
  induction items generalizing doc with
  | nil => rfl
  | cons item rest ih =>
      unfold addItems
      have h := hf doc item
      rcases hc : f doc item with ⟨r, doc1⟩
      rw [hc] at h
      cases r with
      | error e => exact h
      | ok stream =>
          simp only
          rw [ih]
          exact h

theorem addToDssArray_catalog (dss : PdfReference) (keyName : String) (data : List Bytes)
    (f : PdfMemDocument → Bytes → Except Error PdfReference × PdfMemDocument)
    (hf : ∀ doc b, (f doc b).2.catalog = doc.catalog) (doc : PdfMemDocument) :
    (addToDssArray dss keyName data f doc).2.catalog = doc.catalog := by
  unfold addToDssArray
  split
  · split
    · split
      · rfl
      · split
        · exact addItems_catalog f hf _ _ _
        · rfl
    · simp only
      rw [addItems_catalog f hf]
  · rfl

theorem addIfNonEmpty_catalog (dss : PdfReference) (keyName : String) (data : List Bytes)
    (f : PdfMemDocument → Bytes → Except Error PdfReference × PdfMemDocument)
    (hf : ∀ doc b, (f doc b).2.catalog = doc.catalog) (doc : PdfMemDocument) :
    (addIfNonEmpty dss keyName data f doc).2.catalog = doc.catalog := by
  unfold addIfNonEmpty
  split
  · rfl
  · exact addToDssArray_catalog dss keyName data f hf doc

theorem createOrUpdateDSSCatalog_catalog (doc : PdfMemDocument) (vd : ValidationData) :
    (createOrUpdateDSSCatalog doc vd).2.catalog = (getOrCreateDss doc).2.catalog := by
  unfold createOrUpdateDSSCatalog
  rcases h0 : getOrCreateDss doc with ⟨r0, doc0⟩
  cases r0 with
  | error e => rfl
  | ok dss =>
      simp only
      have c1 := addIfNonEmpty_catalog dss "Certs" vd.certificatesBase64 createCertificateStream
        createCertificateStream_catalog doc0
      rcases h1 : addIfNonEmpty dss "Certs" vd.certificatesBase64 createCertificateStream doc0 with
        ⟨r1, doc1⟩
      rw [h1] at c1
      cases r1 with
      | error e => exact c1
      | ok u1 =>
          simp only
          have c2 := addIfNonEmpty_catalog dss "CRLs" vd.crlsBase64 createCRLStream
            (by rw [createCRLStream_eq]; exact createCertificateStream_catalog) doc1
          rcases h2 : addIfNonEmpty dss "CRLs" vd.crlsBase64 createCRLStream doc1 with ⟨r2, doc2⟩
          rw [h2] at c2
          cases r2 with
          | error e => exact c2.trans c1
          | ok u2 =>
              simp only
              rw [addIfNonEmpty_catalog dss "OCSPs" vd.ocspsBase64 createOCSPStream
                (by rw [createOCSPStream_eq]; exact createCertificateStream_catalog) doc2]
              exact c2.trans c1

theorem getOrCreateDss_reuse (doc : PdfMemDocument) (r : PdfReference) (dict : PdfDictionary)
    (st : Option Bytes) (hkey : PdfDictionary.GetKey doc.catalog "DSS" = some (.reference r))
    (hobj : PdfIndirectObjectList.GetObject doc.objects r = some (.dictionary dict st)) :
    getOrCreateDss doc = (.ok r, doc) := by
  unfold getOrCreateDss
  simp [PdfDictionary.HasKey, hkey, PdfVariant.GetReference, hobj]

theorem getOrCreateDss_create (doc : PdfMemDocument)
    (hkey : PdfDictionary.GetKey doc.catalog "DSS" = none) :
    getOrCreateDss doc =
      (.ok (PdfIndirectObjectList.freshRef doc.objects),
        { catalog := PdfDictionary.AddKey doc.catalog "DSS"
            (.reference (PdfIndirectObjectList.freshRef doc.objects)),
          objects := doc.objects ++
            [(PdfIndirectObjectList.freshRef doc.objects, .dictionary [] none)] }) := by
  unfold getOrCreateDss
  simp [PdfDictionary.HasKey, hkey, PdfIndirectObjectList.CreateDictionaryObject]

theorem getOrCreateDss_reject (doc : PdfMemDocument) (entry : PdfVariant)
    (hkey : PdfDictionary.GetKey doc.catalog "DSS" = some entry)
    (hnot : ∀ r dict st, entry = .reference r →
      PdfIndirectObjectList.GetObject doc.objects r ≠ some (.dictionary dict st)) :
    ∃ e, getOrCreateDss doc = (.error e, doc) := by
  unfold getOrCreateDss
  simp only [PdfDictionary.HasKey, hkey, Option.isSome_some, if_true]
  cases entry with
  | direct t => exact ⟨_, rfl⟩
  | reference r =>
      simp only [PdfVariant.GetReference]
      cases hobj : PdfIndirectObjectList.GetObject doc.objects r with
      | none => exact ⟨_, rfl⟩
      | some o =>
          cases o with
          | dictionary d st => exact absurd hobj (hnot r d st rfl)
          | array items => exact ⟨_, rfl⟩
          | other => exact ⟨_, rfl⟩

theorem addIfNonEmpty_nil (dss : PdfReference) (keyName : String)
    (f : PdfMemDocument → Bytes → Except Error PdfReference × PdfMemDocument)
    (doc : PdfMemDocument) : addIfNonEmpty dss keyName [] f doc = (.ok (), doc) := rfl

/-- Counterexample to C4: on a document whose catalog has no `/DSS`, the
call with three empty lists returns normally and leaves a catalog with a
`/DSS` entry and one more object, an empty dictionary. -/
theorem C4_counterexample :
    createOrUpdateDSSCatalog ⟨[("Pages", .reference 1)], [(1, .other)]⟩ ⟨[], [], []⟩ =
        (.ok (), ⟨[("Pages", .reference 1), ("DSS", .reference 2)],
          [(1, .other), (2, .dictionary [] none)]⟩) ∧
      (createOrUpdateDSSCatalog ⟨[("Pages", .reference 1)], [(1, .other)]⟩ ⟨[], [], []⟩).2 ≠
        ⟨[("Pages", .reference 1)], [(1, .other)]⟩ := by
  decide

/-- C4, amended: when the `/DSS` entry of the catalog refers to a dictionary
object, `createOrUpdateDSSCatalog` with three empty lists returns normally
and leaves the document as it was. -/
theorem C4_empty_data_noop_when_dss_exists (doc : PdfMemDocument) (r : PdfReference)
    (dict : PdfDictionary) (st : Option Bytes)
    (hkey : PdfDictionary.GetKey doc.catalog "DSS" = some (.reference r))
    (hobj : PdfIndirectObjectList.GetObject doc.objects r = some (.dictionary dict st)) :
    createOrUpdateDSSCatalog doc ⟨[], [], []⟩ = (.ok (), doc) := by
  unfold createOrUpdateDSSCatalog
  rw [getOrCreateDss_reuse doc r dict st hkey hobj]
  simp only [addIfNonEmpty_nil]

/-- Witness of C4 (amended): a catalog whose `/DSS` refers to the
dictionary object 2. -/
theorem C4_witness :
    createOrUpdateDSSCatalog
        ⟨[("Pages", .reference 1), ("DSS", .reference 2)],
          [(1, .other), (2, .dictionary [("Certs", .reference 3)] none), (3, .array [])]⟩
        ⟨[], [], []⟩ =
      (.ok (), ⟨[("Pages", .reference 1), ("DSS", .reference 2)],
        [(1, .other), (2, .dictionary [("Certs", .reference 3)] none), (3, .array [])]⟩) :=
  C4_empty_data_noop_when_dss_exists _ 2 [("Certs", .reference 3)] none (by decide) (by decide)

/-- Counterexample to C7: the `/DSS` entry of the catalog refers to an array
object. No dictionary object is created and nothing is linked: the call
throws and the document is as before. -/
theorem C7_counterexample :
    createOrUpdateDSSCatalog
        ⟨[("Pages", .reference 1), ("DSS", .reference 2)], [(1, .other), (2, .array [])]⟩
        ⟨[ascii "AA=="], [], []⟩ =
      (.error (.runtime_error "Existing DSS object is not a dictionary."),
        ⟨[("Pages", .reference 1), ("DSS", .reference 2)], [(1, .other), (2, .array [])]⟩) := by
  decide

/-- C7, amended: `createOrUpdateDSSCatalog` works on the object the `/DSS`
entry of the catalog refers to when that object is a dictionary, creating
nothing and leaving the catalog as it was; when the catalog has no `/DSS`
key it appends a new empty dictionary object under a fresh reference and
links it from the catalog under `/DSS`; when the `/DSS` entry is anything
else (not a reference, or a reference to a missing object or to an object
that is not a dictionary) it throws and leaves the document as it was. -/
theorem C7_dss_reused_created_or_rejected (doc : PdfMemDocument) (vd : ValidationData) :
    (∀ r dict st, PdfDictionary.GetKey doc.catalog "DSS" = some (.reference r) →
      PdfIndirectObjectList.GetObject doc.objects r = some (.dictionary dict st) →
      getOrCreateDss doc = (.ok r, doc) ∧
        (createOrUpdateDSSCatalog doc vd).2.catalog = doc.catalog) ∧
    (PdfDictionary.GetKey doc.catalog "DSS" = none →
      getOrCreateDss doc =
          (.ok (PdfIndirectObjectList.freshRef doc.objects),
            { catalog := PdfDictionary.AddKey doc.catalog "DSS"
                (.reference (PdfIndirectObjectList.freshRef doc.objects)),
              objects := doc.objects ++
                [(PdfIndirectObjectList.freshRef doc.objects, .dictionary [] none)] }) ∧
        PdfIndirectObjectList.GetObject doc.objects (PdfIndirectObjectList.freshRef doc.objects) =
          none ∧
        PdfDictionary.GetKey (createOrUpdateDSSCatalog doc vd).2.catalog "DSS" =
          some (.reference (PdfIndirectObjectList.freshRef doc.objects))) ∧
    (∀ entry, PdfDictionary.GetKey doc.catalog "DSS" = some entry →
      (∀ r dict st, entry = .reference r →
        PdfIndirectObjectList.GetObject doc.objects r ≠ some (.dictionary dict st)) →
      ∃ e, createOrUpdateDSSCatalog doc vd = (.error e, doc)) := by
  refine ⟨?_, ?_, ?_⟩
  · intro r dict st hkey hobj
    have h := getOrCreateDss_reuse doc r dict st hkey hobj
    refine ⟨h, ?_⟩
    rw [createOrUpdateDSSCatalog_catalog, h]
  · intro hkey
    have h := getOrCreateDss_create doc hkey
    refine ⟨h, GetObject_freshRef _, ?_⟩
    rw [createOrUpdateDSSCatalog_catalog, h, GetKey_AddKey, if_pos rfl]
  · intro entry hkey hnot
    obtain ⟨e, he⟩ := getOrCreateDss_reject doc entry hkey hnot
    refine ⟨e, ?_⟩
    unfold createOrUpdateDSSCatalog
    rw [he]

/-- Witness of C7 (amended): a catalog with a `/DSS` dictionary, one
without `/DSS`, and one whose `/DSS` is an inline value. -/
theorem C7_witness :
    getOrCreateDss ⟨[("DSS", .reference 2)], [(1, .other), (2, .dictionary [] none)]⟩ =
        (.ok 2, ⟨[("DSS", .reference 2)], [(1, .other), (2, .dictionary [] none)]⟩) ∧
      PdfDictionary.GetKey
          (createOrUpdateDSSCatalog ⟨[("Pages", .reference 1)], [(1, .other)]⟩
            ⟨[ascii "AA=="], [], []⟩).2.catalog "DSS" = some (.reference 2) ∧
      ∃ e, createOrUpdateDSSCatalog ⟨[("DSS", .direct "<< >>")], [(1, .other)]⟩ ⟨[], [], []⟩ =
        (.error e, ⟨[("DSS", .direct "<< >>")], [(1, .other)]⟩) :=
  ⟨((C7_dss_reused_created_or_rejected
      ⟨[("DSS", .reference 2)], [(1, .other), (2, .dictionary [] none)]⟩ ⟨[], [], []⟩).1
      2 [] none (by decide) (by decide)).1,
    ((C7_dss_reused_created_or_rejected ⟨[("Pages", .reference 1)], [(1, .other)]⟩
      ⟨[ascii "AA=="], [], []⟩).2.1 (by decide)).2.2,
    (C7_dss_reused_created_or_rejected ⟨[("DSS", .direct "<< >>")], [(1, .other)]⟩
      ⟨[], [], []⟩).2.2 (.direct "<< >>") (by decide) (by intro r dict st h; cases h)⟩

/-! ## The loop of `addToDssArray` -/

theorem b64DecodeLast_length (c0 c1 c2 c3 : Byte) (out : Bytes)
    (h : b64DecodeLast c0 c1 c2 c3 = some out) : out.length ≤ 3 := by
  unfold b64DecodeLast at h
  repeat' split at h
  all_goals first
    | (simp only [Option.some.injEq] at h; subst h; simp)
    | simp at h

theorem b64Decode_length (x out : Bytes) (h : b64Decode x = some out) :
    out.length * 4 ≤ x.length * 3 := by
  induction x using b64Decode.induct generalizing out with
  | case1 =>
      simp only [b64Decode, Option.some.injEq] at h
      subst h
      simp
  | case2 c0 c1 c2 c3 =>
      simp only [b64Decode] at h
      have := b64DecodeLast_length c0 c1 c2 c3 out h
      simp only [List.length_cons, List.length_nil]
      omega
  | case3 c0 c1 c2 c3 rest hne v0 v1 v2 v3 tl htl h3 h2 h1 h0 ih =>
      rw [b64Decode] at h
      · simp only [h0, h1, h2, h3, htl, Option.some.injEq] at h
        subst h
        have := ih tl htl
        simp only [List.length_cons]
        omega
      · exact hne
  | case4 c0 c1 c2 c3 rest hne hfail ih =>
      rw [b64Decode] at h
      · split at h
        · rename_i v0 v1 v2 v3 tl h0 h1 h2 h3 htl
          exact absurd htl (fun hh => hfail v0 v1 v2 v3 tl h0 h1 h2 h3 hh)
        · simp at h
      · exact hne
  | case5 t h1 h2 h3 =>
      rw [b64Decode] at h
      · simp at h
      · exact h1
      · exact h2
      · exact h3

theorem ConvertBase64PEMtoDER_ok (x der : Bytes) (h : ConvertBase64PEMtoDER x = .ok der) :
    b64Decode x = some der := by
  unfold ConvertBase64PEMtoDER at h
  split_ifs at h with hx
  · simp only [Except.ok.injEq] at h
    subst h
    have : x = [] := List.length_eq_zero.mp hx
    subst this
    rfl
  · unfold bioReadBase64 at h
    cases hd : b64Decode x with
    | none => simp [hd] at h
    | some out =>
        simp only [hd] at h
        have hl := b64Decode_length x out hd
        have htake : out.take (x.length * 3 / 4) = out := by
          apply List.take_of_length_le
          omega
        rw [htake] at h
        split_ifs at h
        simp only [Except.ok.injEq] at h
        rw [h]

theorem createCertificateStream_ok (doc doc1 : PdfMemDocument) (item : Bytes) (r : PdfReference)
    (h : createCertificateStream doc item = (.ok r, doc1)) :
    ∃ der, ConvertBase64PEMtoDER item = .ok der ∧
      PdfIndirectObjectList.GetObject doc.objects r = none ∧
      PdfIndirectObjectList.GetObject doc1.objects r = some (.dictionary [] (some der)) ∧
      (∀ r1, r1 ≠ r → PdfIndirectObjectList.GetObject doc1.objects r1 =
        PdfIndirectObjectList.GetObject doc.objects r1) ∧
      doc1.catalog = doc.catalog := by
  unfold createCertificateStream at h
  cases hd : ConvertBase64PEMtoDER item with
  | error e => simp [hd] at h
  | ok der =>
      simp only [hd, Prod.mk.injEq, Except.ok.injEq,
        PdfIndirectObjectList.CreateDictionaryObject] at h
      obtain ⟨hr, hdoc⟩ := h
      subst hr hdoc
      have hf := GetObject_freshRef doc.objects
      refine ⟨der, rfl, hf, ?_, ?_, rfl⟩
      · simp only [GetObject_setObject, GetObject_append, hf, if_true, Option.map_some']
      · intro r1 hne
        simp only [GetObject_setObject, if_neg hne, GetObject_append]
        cases PdfIndirectObjectList.GetObject doc.objects r1 with
        | none => simp [hne]
        | some x => rfl

theorem GetObject_arrayAdd (objs : PdfIndirectObjectList) (a r1 : PdfReference)
    (items : List PdfVariant) (v : PdfVariant)
    (ha : PdfIndirectObjectList.GetObject objs a = some (.array items)) :
    PdfIndirectObjectList.GetObject (arrayAdd objs a v) r1 =
      if r1 = a then some (.array (items ++ [v])) else PdfIndirectObjectList.GetObject objs r1 := by
  unfold arrayAdd
  simp only [ha, GetObject_setObject, Option.map_some']

theorem addItems_spec (a : PdfReference) (L : List Bytes) (doc docB : PdfMemDocument)
    (old : List PdfVariant)
    (ha : PdfIndirectObjectList.GetObject doc.objects a = some (.array old))
    (hok : addItems createCertificateStream a L doc = (.ok (), docB)) :
    ∃ refs,
      PdfIndirectObjectList.GetObject docB.objects a =
        some (.array (old ++ refs.map PdfVariant.reference)) ∧
      List.Forall₂
        (fun r item =>
          PdfIndirectObjectList.GetObject doc.objects r = none ∧
            ∃ der, ConvertBase64PEMtoDER item = .ok der ∧
              PdfIndirectObjectList.GetObject docB.objects r = some (.dictionary [] (some der)))
        refs L ∧
      (∀ r, r ≠ a → PdfIndirectObjectList.GetObject doc.objects r ≠ none →
        PdfIndirectObjectList.GetObject docB.objects r =
          PdfIndirectObjectList.GetObject doc.objects r) ∧
      (∀ r, PdfIndirectObjectList.GetObject doc.objects r ≠ none →
        PdfIndirectObjectList.GetObject docB.objects r ≠ none) ∧
      docB.catalog = doc.catalog := by
  induction L generalizing doc old with
  | nil =>
      simp only [addItems, Prod.mk.injEq, true_and] at hok
      subst hok
      exact ⟨[], by simpa using ha, List.Forall₂.nil, fun _ _ _ => rfl, fun _ h => h, rfl⟩
  | cons item rest ih =>
      unfold addItems at hok
      rcases hc : createCertificateStream doc item with ⟨res, doc1⟩
      rw [hc] at hok
      cases res with
      | error e => simp at hok
      | ok r =>
          simp only at hok
          obtain ⟨der, hder, hfresh, hstream, hsame, hcat⟩ :=
            createCertificateStream_ok doc doc1 item r hc
          have har : a ≠ r := by
            intro h
            rw [h, hfresh] at ha
            simp at ha
          have ha1 : PdfIndirectObjectList.GetObject doc1.objects a = some (.array old) := by
            rw [hsame a har, ha]
          have hget2 : ∀ r1, PdfIndirectObjectList.GetObject
              (arrayAdd doc1.objects a (.reference r)) r1 =
                if r1 = a then some (.array (old ++ [.reference r]))
                else PdfIndirectObjectList.GetObject doc1.objects r1 :=
            fun r1 => GetObject_arrayAdd doc1.objects a r1 old (.reference r) ha1
          have hmono : ∀ r1, PdfIndirectObjectList.GetObject doc.objects r1 ≠ none →
              PdfIndirectObjectList.GetObject (arrayAdd doc1.objects a (.reference r)) r1 ≠
                none := by
            intro r1 h1
            rw [hget2]
            split_ifs with h2
            · simp
            · have : r1 ≠ r := by
                intro h3
                rw [h3] at h1
                exact h1 hfresh
              rw [hsame r1 this]
              exact h1
          obtain ⟨refs, harr, hall, hframe, hmonoB, hcatB⟩ :=
            ih { doc1 with objects := arrayAdd doc1.objects a (.reference r) }
              (old ++ [.reference r]) (by simp only [hget2, if_true]) hok
          refine ⟨r :: refs, ?_, ?_, ?_, ?_, ?_⟩
          · rw [harr]
            simp
          · refine List.Forall₂.cons ⟨hfresh, der, hder, ?_⟩ ?_
            · have h2 : PdfIndirectObjectList.GetObject
                  (arrayAdd doc1.objects a (.reference r)) r =
                    some (.dictionary [] (some der)) := by
                rw [hget2, if_neg (Ne.symm har), hstream]
              rw [hframe r (Ne.symm har) (by simp only [h2]; simp), h2]
            · refine List.Forall₂.imp ?_ hall
              intro r1 item1 ⟨hn, hrest⟩
              refine ⟨?_, hrest⟩
              by_contra hne
              exact hmono r1 hne hn
          · intro r1 h1 h2
            have h3 : r1 ≠ r := by
              intro h3
              rw [h3] at h2
              exact h2 hfresh
            rw [hframe r1 h1 (hmono r1 h2)]
            simp only [hget2, if_neg h1, hsame r1 h3]
          · intro r1 h1
            exact hmonoB r1 (hmono r1 h1)
          · rw [hcatB]
            exact hcat

theorem dssEntry_of_dictionary (doc : PdfMemDocument) (dss : PdfReference) (dict : PdfDictionary)
    (st : Option Bytes)
    (h : PdfIndirectObjectList.GetObject doc.objects dss = some (.dictionary dict st))
    (key : String) : dssEntry doc dss key = PdfDictionary.GetKey dict key := by
  unfold dssEntry
  rw [h]

theorem addToDssArray_step (dss : PdfReference) (key : String) (L : List Bytes)
    (docA docB : PdfMemDocument)
    (hok : addToDssArray dss key L createCertificateStream docA = (.ok (), docB)) :
    ∃ a refs, Step docA docB dss key a refs L := by
  unfold addToDssArray at hok
  cases hdss : PdfIndirectObjectList.GetObject docA.objects dss with
  | none => simp [hdss] at hok
  | some o =>
      cases o with
      | array items => simp [hdss] at hok
      | other => simp [hdss] at hok
      | dictionary dictA st =>
          simp only [hdss] at hok
          have hent := dssEntry_of_dictionary docA dss dictA st hdss
          cases hkey : PdfDictionary.GetKey dictA key with
          | some entry =>
              simp only [hkey] at hok
              cases entry with
              | direct t => simp [PdfVariant.GetReference] at hok
              | reference a =>
                  simp only [PdfVariant.GetReference] at hok
                  cases harr : PdfIndirectObjectList.GetObject docA.objects a with
                  | none => simp [harr] at hok
                  | some o =>
                      cases o with
                      | dictionary d s => simp [harr] at hok
                      | other => simp [harr] at hok
                      | array old =>
                          simp only [harr] at hok
                          obtain ⟨refs, hB, hall, hframe, hmono, hcat⟩ :=
                            addItems_spec a L docA docB old harr hok
                          have hne : dss ≠ a := by
                            intro h
                            rw [h, harr] at hdss
                            simp at hdss
                          have hdssB : PdfIndirectObjectList.GetObject docB.objects dss =
                              some (.dictionary dictA st) := by
                            rw [hframe dss hne (by rw [hdss]; simp), hdss]
                          have hentB := dssEntry_of_dictionary docB dss dictA st hdssB
                          refine ⟨a, refs, hcat, ⟨old, Or.inl ⟨by rw [hent, hkey], harr⟩, hB⟩,
                            by rw [hentB, hkey], fun k _ => by rw [hentB, hent],
                            ⟨dictA, dictA, st, hdss, hdssB⟩, hall,
                            fun r h1 _ h3 => hframe r h1 h3, hmono⟩
          | none =>
              simp only [hkey, PdfIndirectObjectList.CreateArrayObject] at hok
              have hf := GetObject_freshRef docA.objects
              generalize PdfIndirectObjectList.freshRef docA.objects = a at hok hf
              have hne : dss ≠ a := by
                intro h
                rw [h, hf] at hdss
                simp at hdss
              have hget2 : ∀ r1, PdfIndirectObjectList.GetObject
                  (PdfIndirectObjectList.setObject (docA.objects ++ [(a, .array [])]) dss
                    (.dictionary (PdfDictionary.AddKey dictA key (.reference a)) st)) r1 =
                  if r1 = dss then
                    some (.dictionary (PdfDictionary.AddKey dictA key (.reference a)) st)
                  else if r1 = a then some (.array [])
                  else PdfIndirectObjectList.GetObject docA.objects r1 := by
                intro r1
                rw [GetObject_setObject]
                split_ifs with h1 h2
                · simp only [GetObject_append, hdss, Option.map_some']
                · subst h2
                  simp only [GetObject_append, hf, if_true]
                · simp only [GetObject_append]
                  cases PdfIndirectObjectList.GetObject docA.objects r1 with
                  | none => simp [h2]
                  | some x => rfl
              obtain ⟨refs, hB, hall, hframe, hmono, hcat⟩ :=
                addItems_spec a L _ docB [] (by
                  show PdfIndirectObjectList.GetObject _ a = _
                  rw [hget2, if_neg (Ne.symm hne), if_pos rfl]) hok
              simp only [hget2] at hall hframe hmono
              have hdssB : PdfIndirectObjectList.GetObject docB.objects dss =
                  some (.dictionary (PdfDictionary.AddKey dictA key (.reference a)) st) := by
                rw [hframe dss hne (by simp), if_pos rfl]
              have hentB := dssEntry_of_dictionary docB dss _ st hdssB
              refine ⟨a, refs, hcat, ⟨[], Or.inr ⟨by rw [hent, hkey], hf, rfl⟩, hB⟩,
                by rw [hentB, GetKey_AddKey, if_pos rfl],
                fun k hk => by rw [hentB, hent, GetKey_AddKey, if_neg hk],
                ⟨dictA, _, st, hdss, hdssB⟩, ?_, ?_, ?_⟩
              · refine List.Forall₂.imp ?_ hall
                intro r item ⟨hn, hrest⟩
                refine ⟨?_, hrest⟩
                split_ifs at hn
                exact hn
              · intro r h1 h2 h3
                rw [hframe r h1 (by rw [if_neg h2, if_neg h1]; exact h3), if_neg h2, if_neg h1]
              · intro r h1
                apply hmono
                split_ifs <;> simp [h1]

theorem addIfNonEmpty_effect (dss : PdfReference) (key : String) (L : List Bytes)
    (docA docB : PdfMemDocument)
    (hok : addIfNonEmpty dss key L createCertificateStream docA = (.ok (), docB)) :
    Effect docA docB dss key L := by
  unfold addIfNonEmpty at hok
  unfold Effect
  by_cases hL : L = []
  · subst hL
    simp only [List.isEmpty_nil, if_true, Prod.mk.injEq, true_and] at hok
    rw [if_pos rfl]
    exact hok.symm
  · have : L.isEmpty = false := by
      cases L with
      | nil => exact absurd rfl hL
      | cons x xs => rfl
    rw [this] at hok
    rw [if_neg hL]
    exact addToDssArray_step dss key L docA docB hok

/-! ## One call seen from the other keys -/

theorem Step.ne_array {docA docB : PdfMemDocument} {dss : PdfReference} {key : String}
    {a : PdfReference} {refs : List PdfReference} {L : List Bytes}
    (S : Step docA docB dss key a refs L) (r : PdfReference)
    (hex : PdfIndirectObjectList.GetObject docA.objects r ≠ none)
    (hne : dssEntry docA dss key ≠ some (.reference r)) : r ≠ a := by
  obtain ⟨-, ⟨old, hcase, -⟩, -⟩ := S
  intro h
  subst h
  rcases hcase with ⟨h1, -⟩ | ⟨-, h2, -⟩
  · exact hne h1
  · exact hex h2

theorem Effect.dictionary {docA docB : PdfMemDocument} {dss : PdfReference} {key : String}
    {L : List Bytes} (E : Effect docA docB dss key L)
    (hA : ∃ dict st, PdfIndirectObjectList.GetObject docA.objects dss = some (.dictionary dict st)) :
    ∃ dict st, PdfIndirectObjectList.GetObject docB.objects dss = some (.dictionary dict st) := by
  unfold Effect at E
  split_ifs at E
  · rw [E]; exact hA
  · obtain ⟨a, refs, -, -, -, -, ⟨dictA, dictB, st, -, hB⟩, -⟩ := E
    exact ⟨dictB, st, hB⟩

theorem Effect.entry {docA docB : PdfMemDocument} {dss : PdfReference} {key : String}
    {L : List Bytes} (E : Effect docA docB dss key L) (k : String) (hk : k ≠ key) :
    dssEntry docB dss k = dssEntry docA dss k := by
  unfold Effect at E
  split_ifs at E
  · rw [E]
  · obtain ⟨a, refs, -, -, -, hother, -⟩ := E
    exact hother k hk

theorem Effect.mono {docA docB : PdfMemDocument} {dss : PdfReference} {key : String}
    {L : List Bytes} (E : Effect docA docB dss key L) (r : PdfReference)
    (h : PdfIndirectObjectList.GetObject docA.objects r ≠ none) :
    PdfIndirectObjectList.GetObject docB.objects r ≠ none := by
  unfold Effect at E
  split_ifs at E
  · rw [E]; exact h
  · obtain ⟨a, refs, -, -, -, -, -, -, -, hmono⟩ := E
    exact hmono r h

theorem Effect.array {docA docB : PdfMemDocument} {dss : PdfReference} {key : String}
    {L : List Bytes} (E : Effect docA docB dss key L) (D : DistinctEntries docA dss)
    (hkey : key ∈ dssKeys) (k : String) (hk : k ∈ dssKeys) (hne : k ≠ key) :
    dssArray docB dss k = dssArray docA dss k := by
  have hent := E.entry k hne
  unfold Effect at E
  split_ifs at E
  · rw [E]
  · obtain ⟨a, refs, S⟩ := E
    unfold dssArray
    rw [hent]
    cases he : dssEntry docA dss k with
    | none => rfl
    | some entry =>
        cases entry with
        | direct t => rfl
        | reference r =>
            simp only
            obtain ⟨hex, hdist⟩ := D k hk r he
            have hra : r ≠ a := S.ne_array r hex (hdist key hkey (Ne.symm hne))
            obtain ⟨-, -, -, -, ⟨dictA, dictB, st, hA, hB⟩, -, hframe, -⟩ := S
            by_cases hrd : r = dss
            · subst hrd
              rw [hA, hB]
            · rw [hframe r hra hrd hex]

theorem Effect.distinct {docA docB : PdfMemDocument} {dss : PdfReference} {key : String}
    {L : List Bytes} (E : Effect docA docB dss key L) (D : DistinctEntries docA dss)
    (hkey : key ∈ dssKeys) : DistinctEntries docB dss := by
  have hentry := fun k hk => E.entry k hk
  have hmono := fun r h => E.mono r h
  unfold Effect at E
  split_ifs at E
  · rw [E]; exact D
  · obtain ⟨a, refs, S⟩ := E
    have hna := fun r hex hne => S.ne_array r hex hne
    obtain ⟨-, ⟨old, hcase, hBa⟩, hBkey, -⟩ := S
    intro k1 hk1 r h1
    by_cases hk : k1 = key
    · subst hk
      rw [hBkey] at h1
      simp only [Option.some.injEq, PdfVariant.reference.injEq] at h1
      subst h1
      refine ⟨by rw [hBa]; simp, ?_⟩
      intro k2 hk2 hne2 h2
      rw [hentry k2 hne2] at h2
      obtain ⟨hex, hdist⟩ := D k2 hk2 a h2
      rcases hcase with ⟨hc, -⟩ | ⟨-, hc, -⟩
      · exact hdist k1 hk1 (Ne.symm hne2) hc
      · exact hex hc
    · rw [hentry k1 hk] at h1
      obtain ⟨hex, hdist⟩ := D k1 hk1 r h1
      refine ⟨hmono r hex, ?_⟩
      intro k2 hk2 hne2 h2
      by_cases hk2key : k2 = key
      · subst hk2key
        rw [hBkey] at h2
        simp only [Option.some.injEq, PdfVariant.reference.injEq] at h2
        exact hna r hex (hdist k2 hk2 hne2) h2.symm
      · rw [hentry k2 hk2key] at h2
        exact hdist k2 hk2 hne2 h2

theorem Effect.stream {docA docB : PdfMemDocument} {dss : PdfReference} {key : String}
    {L : List Bytes} (E : Effect docA docB dss key L) (r : PdfReference) (der : Bytes)
    (hr : PdfIndirectObjectList.GetObject docA.objects r = some (.dictionary [] (some der)))
    (hne : r ≠ dss) :
    PdfIndirectObjectList.GetObject docB.objects r = some (.dictionary [] (some der)) := by
  unfold Effect at E
  split_ifs at E
  · rw [E]; exact hr
  · obtain ⟨a, refs, -, ⟨old, hcase, -⟩, -, -, -, -, hframe, -⟩ := E
    have hra : r ≠ a := by
      intro h
      subst h
      rcases hcase with ⟨-, hc⟩ | ⟨-, hc, -⟩
      · rw [hc] at hr; simp at hr
      · rw [hc] at hr; simp at hr
    rw [hframe r hra hne (by rw [hr]; simp), hr]

theorem Effect.appended {docA docB : PdfMemDocument} {dss : PdfReference} {key : String}
    {L : List Bytes} (E : Effect docA docB dss key L) : Appended docA docB dss key L := by
  unfold Effect at E
  unfold Appended
  split_ifs at E ⊢
  · rw [E]
    exact ⟨rfl, rfl⟩
  · obtain ⟨a, refs, -, ⟨old, hcase, hBa⟩, hBkey, -, -, hall, -, -⟩ := E
    refine ⟨refs, ?_, ?_⟩
    · have hB : dssArray docB dss key = some (old ++ refs.map PdfVariant.reference) := by
        unfold dssArray
        rw [hBkey]
        simp only [hBa]
      have hA : (dssArray docA dss key).getD [] = old := by
        unfold dssArray
        rcases hcase with ⟨h1, h2⟩ | ⟨h1, -, h3⟩
        · rw [h1]
          simp only [h2, Option.getD_some]
        · rw [h1, h3]
          rfl
      rw [hB, hA]
    · refine List.Forall₂.imp ?_ hall
      intro r item ⟨hn, der, hder, hs⟩
      exact ⟨hn, der, ConvertBase64PEMtoDER_ok item der hder, hs⟩

theorem Appended.before {docX docA docB : PdfMemDocument} {dss : PdfReference}
    {key key2 : String} {L L2 : List Bytes} (E : Effect docX docA dss key2 L2)
    (D : DistinctEntries docX dss) (hkey2 : key2 ∈ dssKeys) (hkey : key ∈ dssKeys)
    (hne : key ≠ key2) (h : Appended docA docB dss key L) : Appended docX docB dss key L := by
  unfold Appended at h ⊢
  have harr := E.array D hkey2 key hkey hne
  have hent := E.entry key hne
  split_ifs at h ⊢
  · rw [← hent, ← harr]
    exact h
  · obtain ⟨refs, h1, h2⟩ := h
    refine ⟨refs, by rw [← harr]; exact h1, ?_⟩
    refine List.Forall₂.imp ?_ h2
    intro r item ⟨hn, hrest⟩
    refine ⟨?_, hrest⟩
    by_contra hex
    exact E.mono r hex hn

theorem Appended.after {docA docB docC : PdfMemDocument} {dss : PdfReference}
    {key key2 : String} {L L2 : List Bytes} (E : Effect docB docC dss key2 L2)
    (D : DistinctEntries docB dss) (hkey2 : key2 ∈ dssKeys) (hkey : key ∈ dssKeys)
    (hne : key ≠ key2)
    (hA : ∃ dict st, PdfIndirectObjectList.GetObject docA.objects dss = some (.dictionary dict st))
    (h : Appended docA docB dss key L) : Appended docA docC dss key L := by
  unfold Appended at h ⊢
  have harr := E.array D hkey2 key hkey hne
  have hent := E.entry key hne
  split_ifs at h ⊢
  · rw [hent, harr]
    exact h
  · obtain ⟨refs, h1, h2⟩ := h
    refine ⟨refs, by rw [harr]; exact h1, ?_⟩
    refine List.Forall₂.imp ?_ h2
    intro r item ⟨hn, der, hder, hs⟩
    refine ⟨hn, der, hder, E.stream r der hs ?_⟩
    intro hrd
    obtain ⟨dict, st, hd⟩ := hA
    rw [hrd, hd] at hn
    simp at hn

/-- Counterexample to C6: in `sharedArrayDocument`, `/Certs` and `/CRLs`
refer to the same array object 3, which holds one reference. With one
certificate and one CRL the call returns normally, and the array under
`/Certs` has two new references, not one: that of the certificate stream and
that of the CRL stream. -/
theorem C6_counterexample :
    createOrUpdateDSSCatalog sharedArrayDocument exampleValidationData =
      (.ok (),
        ⟨[("DSS", .reference 2)],
          [(1, .other), (2, .dictionary [("Certs", .reference 3), ("CRLs", .reference 3)] none),
            (3, .array [.reference 1, .reference 4, .reference 5]),
            (4, .dictionary [] (some [toByte 0])),
            (5, .dictionary [] (some [toByte 1, toByte 2]))]⟩) ∧
    ¬ Appended sharedArrayDocument
        (createOrUpdateDSSCatalog sharedArrayDocument exampleValidationData).2
        2 "Certs" exampleValidationData.certificatesBase64 := by
  refine ⟨by decide, ?_⟩
  intro h
  unfold Appended at h
  rw [if_neg (by decide)] at h
  obtain ⟨refs, h1, h2⟩ := h
  have hl := List.Forall₂.length_eq h2
  have e1 : dssArray (createOrUpdateDSSCatalog sharedArrayDocument exampleValidationData).2
      2 "Certs" = some [.reference 1, .reference 4, .reference 5] := by decide
  have e0 : dssArray sharedArrayDocument 2 "Certs" = some [.reference 1] := by decide
  rw [e1, e0] at h1
  have h3 := congrArg (fun o => (o.getD []).length) h1
  have h4 : exampleValidationData.certificatesBase64.length = 1 := by decide
  simp at h3
  omega

/-- C6, amended: let the `/DSS` entry of the catalog refer to a dictionary
object whose entries under `Certs`, `CRLs` and `OCSPs`, where present, refer
to existing objects, no two to the same one. When `createOrUpdateDSSCatalog`
returns, for each of the three keys with a non-empty input list the array
under the key is the array it held before (empty if the key was absent)
followed by the references of new stream objects, one per item in the order
of the list, each holding the base64 decoding of its item; for a key with an
empty list the entry and its array are as before. -/
theorem C6_arrays_extended_in_order (doc doc1 : PdfMemDocument) (vd : ValidationData)
    (dss : PdfReference) (dict : PdfDictionary) (st : Option Bytes)
    (hkey : PdfDictionary.GetKey doc.catalog "DSS" = some (.reference dss))
    (hobj : PdfIndirectObjectList.GetObject doc.objects dss = some (.dictionary dict st))
    (hdistinct : DistinctEntries doc dss)
    (hok : createOrUpdateDSSCatalog doc vd = (.ok (), doc1)) :
    Appended doc doc1 dss "Certs" vd.certificatesBase64 ∧
      Appended doc doc1 dss "CRLs" vd.crlsBase64 ∧
      Appended doc doc1 dss "OCSPs" vd.ocspsBase64 := by
  unfold createOrUpdateDSSCatalog at hok
  rw [getOrCreateDss_reuse doc dss dict st hkey hobj] at hok
  simp only [createCRLStream_eq, createOCSPStream_eq] at hok
  rcases h1 : addIfNonEmpty dss "Certs" vd.certificatesBase64 createCertificateStream doc with
    ⟨r1, d1⟩
  rw [h1] at hok
  cases r1 with
  | error e => simp at hok
  | ok u1 =>
      simp only at hok
      rcases h2 : addIfNonEmpty dss "CRLs" vd.crlsBase64 createCertificateStream d1 with ⟨r2, d2⟩
      rw [h2] at hok
      cases r2 with
      | error e => simp at hok
      | ok u2 =>
          simp only at hok
          have E1 := addIfNonEmpty_effect dss "Certs" vd.certificatesBase64 doc d1 h1
          have E2 := addIfNonEmpty_effect dss "CRLs" vd.crlsBase64 d1 d2 h2
          have E3 := addIfNonEmpty_effect dss "OCSPs" vd.ocspsBase64 d2 doc1 hok
          have kCerts : "Certs" ∈ dssKeys := by decide
          have kCRLs : "CRLs" ∈ dssKeys := by decide
          have kOCSPs : "OCSPs" ∈ dssKeys := by decide
          have D1 := E1.distinct hdistinct kCerts
          have D2 := E2.distinct D1 kCRLs
          have I0 : ∃ dict st, PdfIndirectObjectList.GetObject doc.objects dss =
              some (.dictionary dict st) := ⟨dict, st, hobj⟩
          have I1 := E1.dictionary I0
          have I2 := E2.dictionary I1
          refine ⟨?_, ?_, ?_⟩
          · exact Appended.after E3 D2 kOCSPs kCerts (by decide) I0
              (Appended.after E2 D1 kCRLs kCerts (by decide) I0 E1.appended)
          · exact Appended.after E3 D2 kOCSPs kCRLs (by decide) I0
              (Appended.before E1 hdistinct kCerts kCRLs (by decide) E2.appended)
          · exact Appended.before E1 hdistinct kCerts kOCSPs (by decide)
              (Appended.before E2 D1 kCRLs kOCSPs (by decide) E3.appended)

/-- Witness of C6 (amended): `exampleDssDocument` with one certificate and
one CRL. The certificate goes to a new stream object 4, appended to the
array under `/Certs`. -/
theorem C6_witness :
    createOrUpdateDSSCatalog exampleDssDocument exampleValidationData =
      (.ok (),
        ⟨[("DSS", .reference 2)],
          [(1, .other),
            (2, .dictionary [("Certs", .reference 3), ("CRLs", .reference 5)] none),
            (3, .array [.reference 1, .reference 4]),
            (4, .dictionary [] (some [toByte 0])),
            (5, .array [.reference 6]),
            (6, .dictionary [] (some [toByte 1, toByte 2]))]⟩) ∧
    Appended exampleDssDocument
      (createOrUpdateDSSCatalog exampleDssDocument exampleValidationData).2 2 "Certs"
      exampleValidationData.certificatesBase64 := by
  refine ⟨by decide, ?_⟩
  refine (C6_arrays_extended_in_order exampleDssDocument _ exampleValidationData 2
    [("Certs", .reference 3)] none (by decide) (by decide) ?_ (by decide)).1
  intro k1 hk1 r h
  simp only [dssKeys, List.mem_cons, List.mem_singleton, List.not_mem_nil, or_false] at hk1
  rcases hk1 with rfl | rfl | rfl
  · have e : dssEntry exampleDssDocument 2 "Certs" = some (.reference 3) := by decide
    rw [e] at h
    have hr : r = 3 := by simpa using h.symm
    subst hr
    refine ⟨by decide, ?_⟩
    intro k2 hk2 hne
    simp only [dssKeys, List.mem_cons, List.mem_singleton, List.not_mem_nil, or_false] at hk2
    rcases hk2 with rfl | rfl | rfl
    · exact absurd rfl hne
    · decide
    · decide
  · have e : dssEntry exampleDssDocument 2 "CRLs" = none := by decide
    rw [e] at h
    cases h
  · have e : dssEntry exampleDssDocument 2 "OCSPs" = none := by decide
    rw [e] at h
    cases h

/-! ## Further facts on the finishing calls -/

theorem DecodeBase64Tsr_ok_iff (env : Env) (base64Tsr tsr : Bytes) :
    DecodeBase64Tsr env base64Tsr = .ok tsr ↔
      bioReadBase64 base64Tsr (base64Tsr.length * 3 / 4) = some tsr ∧
        (env.d2i_TS_RESP tsr).isSome := by
  unfold DecodeBase64Tsr
  cases h1 : bioReadBase64 base64Tsr (base64Tsr.length * 3 / 4) with
  | none => simp
  | some decoded =>
      simp only [Option.some.injEq]
      cases h2 : env.d2i_TS_RESP decoded with
      | none =>
          constructor
          · intro h
            cases h
          · rintro ⟨h, hs⟩
            subst h
            simp [h2] at hs
      | some resp =>
          simp only [Except.ok.injEq]
          constructor
          · intro h
            subst h
            exact ⟨rfl, by simp [h2]⟩
          · intro h
            exact h.1

theorem attachTimestamp_hands_decoded_response (env : Env) (base64Tsr tsr : Bytes) (s : Session)
    (hlevel : s._conformanceLevel ≠ "ADES_B_B")
    (hdecode : DecodeBase64Tsr env base64Tsr = .ok tsr) :
    (attachTimestamp env base64Tsr s).2.log = s.log ++ [.SetTimestampToken tsr] := by
  rw [attachTimestamp_apply, if_pos hlevel, hdecode]
  simp only
  cases env.throws s.log (.SetTimestampToken tsr) <;> rfl

theorem NoDssFrame_refl (s : Session) : NoDssFrame s s := ⟨[], by simp, by simp⟩

theorem NoDssFrame_trans (a b c : Session) (h1 : NoDssFrame a b) (h2 : NoDssFrame b c) :
    NoDssFrame a c := by
  obtain ⟨c1, e1, n1⟩ := h1
  obtain ⟨c2, e2, n2⟩ := h2
  refine ⟨c1 ++ c2, by rw [e2, e1, List.append_assoc], ?_⟩
  intro c hc
  rcases List.mem_append.mp hc with h | h
  · exact n1 c h
  · exact n2 c h

theorem NoDssFrame_call (c : Call) (hc : isDssCall c = false) (s : Session) :
    NoDssFrame s { s with log := s.log ++ [c] } :=
  ⟨[c], rfl, by simpa using hc⟩

theorem storeTimestampToken_frame (env : Env) (base64Tsr : Bytes) :
    Keeps NoDssFrame (storeTimestampToken env base64Tsr) := by
  unfold storeTimestampToken
  repeat' first
    | exact Keeps.getSession NoDssFrame_refl
    | exact Keeps.liftExcept NoDssFrame_refl _
    | exact Keeps.call env _ (NoDssFrame_call _ rfl)
    | exact Keeps.update _ (fun s => NoDssFrame_refl s)
    | apply Keeps.bind NoDssFrame_trans
    | intro _

theorem finishSigningLTA_skips_empty_data (env : Env) (base64Tsr : Bytes)
    (validationData : Option ValidationData)
    (hempty : ∀ vd, validationData = some vd → vd.empty = true) (s : Session) :
    ∃ calls, (finishSigningLTA env base64Tsr validationData s).2.log = s.log ++ calls ∧
      ∀ c ∈ calls, isDssCall c = false := by
  have hskip : writeDssIfNotEmpty env validationData = pure () := by
    unfold writeDssIfNotEmpty
    cases validationData with
    | none => rfl
    | some vd => simp [hempty vd rfl]
  have htry : Keeps NoDssFrame (finishSigningLTATry env base64Tsr validationData) := by
    unfold finishSigningLTATry
    rw [hskip]
    refine Keeps.bind NoDssFrame_trans (Keeps.getSession NoDssFrame_refl) (fun s0 => ?_)
    refine Keeps.ite _ (Keeps.raise NoDssFrame_refl _) ?_
    refine Keeps.bind NoDssFrame_trans (storeTimestampToken_frame env base64Tsr) (fun _ => ?_)
    refine Keeps.bind NoDssFrame_trans (Keeps.pure NoDssFrame_refl _) (fun _ => ?_)
    exact Keeps.update _ (fun t => NoDssFrame_refl t)
  have hlog := tryCatchRethrow_log (finishSigningLTATry env base64Tsr validationData) resetLta
    (fun _ => rfl) s
  unfold finishSigningLTA
  rw [hlog]
  exact htry s


/-! ## The certificate helpers -/

theorem b64Encode_length (d : Bytes) : (b64Encode d).length = 4 * ((d.length + 2) / 3) := by
  induction d using b64Encode.induct with
  | case1 a b c rest ih =>
      simp only [b64Encode, List.length_cons, ih]
      omega
  | case2 a b => simp [b64Encode]
  | case3 a => simp [b64Encode]
  | case4 => simp [b64Encode]

theorem ToBase64_ok (d : Bytes) (h : d ≠ []) : ToBase64 d = .ok (b64Encode d) := by
  unfold ToBase64
  rw [if_neg]
  simpa using h

theorem ConvertBase64PEMtoDER_b64Encode (d : Bytes) (h : d ≠ []) :
    ConvertBase64PEMtoDER (b64Encode d) = .ok d := by
  have hlen : 0 < d.length := List.length_pos.mpr h
  have henc := b64Encode_length d
  unfold ConvertBase64PEMtoDER bioReadBase64
  rw [if_neg (by omega), b64Decode_b64Encode]
  have htake : d.take ((b64Encode d).length * 3 / 4) = d := by
    apply List.take_of_length_le
    omega
  simp only [htake]
  rw [if_neg (by omega)]

theorem tokenCertificates_ok (env : Env) (base64Tsr tsr_der : Bytes) (ts_resp : TS_RESP)
    (pkcs7 : PKCS7) (sign : PKCS7_SIGNED)
    (hdecode : ConvertBase64PEMtoDER base64Tsr = .ok tsr_der)
    (hparse : env.d2i_TS_RESP tsr_der = some ts_resp)
    (htoken : ts_resp.token = some pkcs7)
    (hsigned : pkcs7.sign = some sign) :
    tokenCertificates env base64Tsr = .ok sign.cert := by
  unfold tokenCertificates
  simp only [hdecode, hparse, htoken, hsigned]

theorem certificateToBase64_ok (cert : X509) (role : String) (h : cert.der ≠ []) :
    certificateToBase64 cert role = .ok (b64Encode cert.der) := by
  unfold certificateToBase64
  rw [if_neg (by simpa using h), ToBase64_ok _ h]

theorem extractSignerCertFromTSR_none (env : Env) (base64Tsr : Bytes)
    (certs : Option (List X509)) (htc : tokenCertificates env base64Tsr = .ok certs)
    (h0 : (certs.getD []).length = 0) :
    extractSignerCertFromTSR env base64Tsr =
      .error (.runtime_error "TSR does not contain any certificates to find the signer.") := by
  unfold extractSignerCertFromTSR
  rw [htc]
  cases certs with
  | none => rfl
  | some cs =>
      simp only [Option.getD_some] at h0
      simp only
      rw [if_pos (by omega)]

theorem extractSignerCertFromTSR_first (env : Env) (base64Tsr : Bytes)
    (certs : Option (List X509)) (htc : tokenCertificates env base64Tsr = .ok certs)
    (h : 1 ≤ (certs.getD []).length) (hder : ((certs.getD []).get ⟨0, h⟩).der ≠ []) :
    extractSignerCertFromTSR env base64Tsr =
      .ok (b64Encode ((certs.getD []).get ⟨0, h⟩).der) := by
  unfold extractSignerCertFromTSR
  rw [htc]
  cases certs with
  | none => simp at h
  | some cs =>
      simp only [Option.getD_some] at h hder ⊢
      rw [if_neg (by omega), List.getElem?_eq_getElem (by omega)]
      exact certificateToBase64_ok _ _ hder

theorem extractIssuerCertFromTSR_short (env : Env) (base64Tsr : Bytes)
    (certs : Option (List X509)) (htc : tokenCertificates env base64Tsr = .ok certs)
    (h0 : (certs.getD []).length < 2) :
    extractIssuerCertFromTSR env base64Tsr =
      .error (.runtime_error "TSR does not contain enough certificates to find issuer.") := by
  unfold extractIssuerCertFromTSR
  rw [htc]
  cases certs with
  | none => rfl
  | some cs =>
      simp only [Option.getD_some] at h0
      simp only
      rw [if_pos h0]

theorem extractIssuerCertFromTSR_second (env : Env) (base64Tsr : Bytes)
    (certs : Option (List X509)) (htc : tokenCertificates env base64Tsr = .ok certs)
    (h : 2 ≤ (certs.getD []).length) (hder : ((certs.getD []).get ⟨1, h⟩).der ≠ []) :
    extractIssuerCertFromTSR env base64Tsr =
      .ok (b64Encode ((certs.getD []).get ⟨1, h⟩).der) := by
  unfold extractIssuerCertFromTSR
  rw [htc]
  cases certs with
  | none => simp at h
  | some cs =>
      simp only [Option.getD_some] at h hder ⊢
      rw [if_neg (by omega), List.getElem?_eq_getElem (by omega)]
      exact certificateToBase64_ok _ _ hder

/-- C17: for a response whose token is a SignedData with the certificates
`cs` (`cs` is empty when the optional field is absent), each with a DER that
is not empty: `extractSignerCertFromTSR` returns the base64 text of the DER
of `cs[0]` when there is one and throws when `cs` is empty;
`extractIssuerCertFromTSR` returns the base64 text of the DER of `cs[1]`
when there is one, and throws "TSR does not contain enough certificates to
find issuer." exactly when `cs` has fewer than two certificates. -/
theorem C17_signer_and_issuer_by_position (env : Env) (base64Tsr tsr_der : Bytes)
    (ts_resp : TS_RESP) (pkcs7 : PKCS7) (sign : PKCS7_SIGNED) (cs : List X509)
    (hdecode : ConvertBase64PEMtoDER base64Tsr = .ok tsr_der)
    (hparse : env.d2i_TS_RESP tsr_der = some ts_resp)
    (htoken : ts_resp.token = some pkcs7)
    (hsigned : pkcs7.sign = some sign)
    (hcs : sign.cert.getD [] = cs)
    (hder : ∀ c ∈ cs, c.der ≠ []) :
    (∀ h : 1 ≤ cs.length,
        extractSignerCertFromTSR env base64Tsr = .ok (b64Encode (cs.get ⟨0, h⟩).der) ∧
          b64Decode (b64Encode (cs.get ⟨0, h⟩).der) = some (cs.get ⟨0, h⟩).der) ∧
      (cs.length = 0 →
        extractSignerCertFromTSR env base64Tsr =
          .error (.runtime_error "TSR does not contain any certificates to find the signer.")) ∧
      (∀ h : 2 ≤ cs.length,
        extractIssuerCertFromTSR env base64Tsr = .ok (b64Encode (cs.get ⟨1, h⟩).der) ∧
          b64Decode (b64Encode (cs.get ⟨1, h⟩).der) = some (cs.get ⟨1, h⟩).der) ∧
      (extractIssuerCertFromTSR env base64Tsr =
          .error (.runtime_error "TSR does not contain enough certificates to find issuer.") ↔
        cs.length < 2) := by
  have htc := tokenCertificates_ok env base64Tsr tsr_der ts_resp pkcs7 sign hdecode hparse htoken
    hsigned
  subst hcs
  have hissuer1 : ∀ h : 2 ≤ (sign.cert.getD []).length,
      extractIssuerCertFromTSR env base64Tsr =
        .ok (b64Encode ((sign.cert.getD []).get ⟨1, h⟩).der) :=
    fun h => extractIssuerCertFromTSR_second env base64Tsr _ htc h (hder _ (List.get_mem _ _ _))
  refine ⟨fun h => ⟨?_, b64Decode_b64Encode _⟩, extractSignerCertFromTSR_none env base64Tsr _ htc,
    fun h => ⟨hissuer1 h, b64Decode_b64Encode _⟩, ?_,
    extractIssuerCertFromTSR_short env base64Tsr _ htc⟩
  · exact extractSignerCertFromTSR_first env base64Tsr _ htc h (hder _ (List.get_mem _ _ _))
  · intro herr
    by_contra hlen
    rw [hissuer1 (by omega)] at herr
    cases herr

set_option maxRecDepth 100000 in
/-- Witness of C17: a response with the certificate of the authority and
that of its issuer. -/
theorem C17_witness :
    extractSignerCertFromTSR tsaEnv (b64Encode twoCertificateTsr) =
        .ok (b64Encode tsaCertificate.der) ∧
      extractIssuerCertFromTSR tsaEnv (b64Encode twoCertificateTsr) =
        .ok (b64Encode tsaIssuerCertificate.der) := by
  have h := C17_signer_and_issuer_by_position tsaEnv (b64Encode twoCertificateTsr)
    twoCertificateTsr _ _ _ [tsaCertificate, tsaIssuerCertificate] (by decide)
    (show tsaEnv.d2i_TS_RESP twoCertificateTsr = some _ from rfl) rfl rfl rfl (by decide)
  exact ⟨(h.1 (by decide)).1, (h.2.2.1 (by decide)).1⟩

theorem caIssuersUrl_eq (info : List ACCESS_DESCRIPTION) :
    caIssuersUrl info = (firstCaIssuersUri info).getD [] := by
  induction info with
  | nil => rfl
  | cons ad rest ih =>
      obtain ⟨method, location⟩ := ad
      unfold firstCaIssuersUri at ih ⊢
      cases method <;> cases location <;> simp [caIssuersUrl, List.findSome?, ih]

theorem getCertificateIssuerUrlFromCertificate_ok (env : Env) (cert : X509)
    (info : List ACCESS_DESCRIPTION) (url : Bytes)
    (hder : cert.der ≠ []) (hround : env.d2i_X509 cert.der = .ok cert)
    (hinfo : cert.info_access = some info) (huri : firstCaIssuersUri info = some url)
    (hurl : url ≠ []) :
    getCertificateIssuerUrlFromCertificate env (b64Encode cert.der) = .ok url := by
  unfold getCertificateIssuerUrlFromCertificate
  rw [ConvertBase64PEMtoDER_b64Encode _ hder]
  simp only [hround, hinfo, caIssuersUrl_eq, huri, Option.getD_some]
  rw [if_neg (by simpa using hurl)]

theorem getCertificateIssuerUrlFromCertificate_none (env : Env) (cert : X509)
    (hder : cert.der ≠ []) (hround : env.d2i_X509 cert.der = .ok cert)
    (hnone : ∀ info, cert.info_access = some info → (firstCaIssuersUri info).getD [] = []) :
    getCertificateIssuerUrlFromCertificate env (b64Encode cert.der) =
      .error (.runtime_error "No CA Issuers URL found in certificate AIA extension.") := by
  unfold getCertificateIssuerUrlFromCertificate
  rw [ConvertBase64PEMtoDER_b64Encode _ hder]
  simp only [hround]
  cases hi : cert.info_access with
  | none => rfl
  | some info =>
      simp only [caIssuersUrl_eq, hnone info hi]
      rfl

theorem found_insufficient :
    found "TSR does not contain enough certificates to find issuer."
      "TSR does not contain enough certificates" = true := by
  decide

set_option maxRecDepth 100000 in
/-- Counterexample to C18: the response `bareCertificateTsr` holds exactly
one certificate, which has no Authority Information Access extension; with
a fetcher that returns the text `QUJD` for every URL,
`extractIssuerCertFromTSRWithFallback` throws and the fetcher is not
called. -/
theorem C18_counterexample :
    tsaEnv.d2i_TS_RESP bareCertificateTsr =
        some ⟨some ⟨some 0⟩,
          some ⟨[0x30, 0x01, 0x03].map toByte, some ⟨some [tsaIssuerCertificate]⟩⟩⟩ ∧
      tsaIssuerCertificate.info_access = none ∧
      extractIssuerCertFromTSRWithFallback tsaEnv (b64Encode bareCertificateTsr) fixedFetcher =
        (.error (.runtime_error
          ("AIA fallback failed: No CA Issuers URL found in certificate AIA extension." ++
            ". Original error: TSR does not contain enough certificates to find issuer.")), []) := by
  decide

/-- C18, amended: for a response whose token holds exactly one certificate,
the Authority Information Access extension of which has `url` as its first
`caIssuers` URI, not empty, and a fetcher that returns the text `s`, not
empty: `extractIssuerCertFromTSRWithFallback` returns `s` and has called the
fetcher once, with `url`. (The certificate has a DER that is not empty and
that `d2i_X509` reads back as the certificate.) -/
theorem C18_fallback_returns_fetched_text (env : Env) (base64Tsr tsr_der : Bytes)
    (ts_resp : TS_RESP) (pkcs7 : PKCS7) (sign : PKCS7_SIGNED) (signerCert : X509)
    (info : List ACCESS_DESCRIPTION) (url s : Bytes) (fetch : Bytes → Except Error Bytes)
    (hdecode : ConvertBase64PEMtoDER base64Tsr = .ok tsr_der)
    (hparse : env.d2i_TS_RESP tsr_der = some ts_resp)
    (htoken : ts_resp.token = some pkcs7)
    (hsigned : pkcs7.sign = some sign)
    (hone : sign.cert = some [signerCert])
    (hder : signerCert.der ≠ [])
    (hround : env.d2i_X509 signerCert.der = .ok signerCert)
    (hinfo : signerCert.info_access = some info)
    (huri : firstCaIssuersUri info = some url)
    (hurl : url ≠ [])
    (hfetch : ∀ u, fetch u = .ok s)
    (hs : s ≠ []) :
    extractIssuerCertFromTSRWithFallback env base64Tsr (some fetch) = (.ok s, [url]) := by
  have htc := tokenCertificates_ok env base64Tsr tsr_der ts_resp pkcs7 sign hdecode hparse htoken
    hsigned
  rw [hone] at htc
  have hissuer := extractIssuerCertFromTSR_short env base64Tsr _ htc (by simp)
  have hsigner := extractSignerCertFromTSR_first env base64Tsr _ htc (by simp) hder
  simp only [Option.getD_some, List.get_eq_getElem, List.getElem_cons_zero] at hsigner
  have hget := getCertificateIssuerUrlFromCertificate_ok env signerCert info url hder hround hinfo
    huri hurl
  unfold extractIssuerCertFromTSRWithFallback aiaFallbackTry
  rw [hissuer]
  simp only [found_insufficient, if_true, hsigner, hget, hfetch]
  rw [if_pos (by simpa using hs)]

set_option maxRecDepth 100000 in
/-- Witness of C18: the response with the certificate of the authority
only. -/
theorem C18_witness :
    extractIssuerCertFromTSRWithFallback tsaEnv (b64Encode oneCertificateTsr) fixedFetcher =
      (.ok (ascii "QUJD"), [ascii "http://ca.example/ca.crt"]) :=
  C18_fallback_returns_fetched_text tsaEnv (b64Encode oneCertificateTsr) oneCertificateTsr _ _ _
    tsaCertificate _ (ascii "http://ca.example/ca.crt") (ascii "QUJD") (fun _ => .ok (ascii "QUJD"))
    (by decide) (show tsaEnv.d2i_TS_RESP oneCertificateTsr = some _ from rfl) rfl rfl rfl
    (by decide) (by decide) rfl (by decide) (by decide) (fun _ => rfl) (by decide)

theorem fallback_fails_without_caIssuers (env : Env) (base64Tsr tsr_der : Bytes)
    (ts_resp : TS_RESP) (pkcs7 : PKCS7) (sign : PKCS7_SIGNED) (signerCert : X509)
    (httpFetcher : HttpFetcher)
    (hdecode : ConvertBase64PEMtoDER base64Tsr = .ok tsr_der)
    (hparse : env.d2i_TS_RESP tsr_der = some ts_resp)
    (htoken : ts_resp.token = some pkcs7)
    (hsigned : pkcs7.sign = some sign)
    (hone : sign.cert = some [signerCert])
    (hder : signerCert.der ≠ [])
    (hround : env.d2i_X509 signerCert.der = .ok signerCert)
    (hnone : ∀ info, signerCert.info_access = some info →
      (firstCaIssuersUri info).getD [] = []) :
    extractIssuerCertFromTSRWithFallback env base64Tsr httpFetcher =
      (.error (.runtime_error
        ("AIA fallback failed: No CA Issuers URL found in certificate AIA extension." ++
          ". Original error: TSR does not contain enough certificates to find issuer.")), []) := by
  have htc := tokenCertificates_ok env base64Tsr tsr_der ts_resp pkcs7 sign hdecode hparse htoken
    hsigned
  rw [hone] at htc
  have hissuer := extractIssuerCertFromTSR_short env base64Tsr _ htc (by simp)
  have hsigner := extractSignerCertFromTSR_first env base64Tsr _ htc (by simp) hder
  simp only [Option.getD_some, List.get_eq_getElem, List.getElem_cons_zero] at hsigner
  have hget := getCertificateIssuerUrlFromCertificate_none env signerCert hder hround hnone
  unfold extractIssuerCertFromTSRWithFallback aiaFallbackTry
  rw [hissuer]
  simp only [found_insufficient, if_true, hsigner, hget]
  rfl

/-- C19: for a response that parses and has a status: the call
`ExtractTimestampTokenFromTSR` throws exactly when the status is not 0 or
there is no token; with a status that is not 0 the exception is "TSR status
indicates failure: " followed by the status in decimal; with status 0 and a
token the value returned is the DER of the token. (The DER of a token is not
empty.) -/
theorem C19_token_extracted_iff_granted (env : Env) (tsrData : Bytes) (response : TS_RESP)
    (status_info : TS_STATUS_INFO) (status : Int)
    (hparse : env.d2i_TS_RESP tsrData = some response)
    (hinfo : response.status_info = some status_info)
    (hstatus : status_info.status = some status)
    (hder : ∀ token, response.token = some token → token.der ≠ []) :
    ((∃ e, ExtractTimestampTokenFromTSR env tsrData = .error e) ↔
        (status ≠ 0 ∨ response.token = none)) ∧
      (status ≠ 0 → ExtractTimestampTokenFromTSR env tsrData =
        .error (.runtime_error ("TSR status indicates failure: " ++ toString status))) ∧
      (∀ token, status = 0 → response.token = some token →
        ExtractTimestampTokenFromTSR env tsrData = .ok token.der) := by
  have hbad : status ≠ 0 → ExtractTimestampTokenFromTSR env tsrData =
      .error (.runtime_error ("TSR status indicates failure: " ++ toString status)) := by
    intro hne
    unfold ExtractTimestampTokenFromTSR
    simp only [hparse, hinfo, hstatus]
    rw [if_pos hne]
  have hmissing : status = 0 → response.token = none →
      ExtractTimestampTokenFromTSR env tsrData =
        .error (.runtime_error "No timestamp token found in TSR") := by
    intro h0 hnone
    unfold ExtractTimestampTokenFromTSR
    simp only [hparse, hinfo, hstatus, hnone]
    rw [if_neg (by simpa using h0)]
  have hgood : ∀ token, status = 0 → response.token = some token →
      ExtractTimestampTokenFromTSR env tsrData = .ok token.der := by
    intro token h0 htoken
    unfold ExtractTimestampTokenFromTSR
    simp only [hparse, hinfo, hstatus, htoken]
    rw [if_neg (by simpa using h0), if_neg (by simpa using hder token htoken)]
  refine ⟨⟨?_, ?_⟩, hbad, hgood⟩
  · rintro ⟨e, he⟩
    by_contra hcon
    rw [not_or, not_not] at hcon
    cases htoken : response.token with
    | none => exact hcon.2 htoken
    | some token =>
        rw [hgood token hcon.1 htoken] at he
        cases he
  · rintro (hne | hnone)
    · exact ⟨_, hbad hne⟩
    · by_cases h0 : status = 0
      · exact ⟨_, hmissing h0 hnone⟩
      · exact ⟨_, hbad h0⟩

set_option maxRecDepth 100000 in
/-- Witness of C19: the response with status 2 is refused with the text
"TSR status indicates failure: 2". -/
theorem C19_witness :
    ExtractTimestampTokenFromTSR exampleEnv rejectedTsr =
      .error (.runtime_error "TSR status indicates failure: 2") :=
  (C19_token_extracted_iff_granted exampleEnv rejectedTsr ⟨some ⟨some 2⟩, none⟩ ⟨some 2⟩ 2
    (by decide) rfl rfl (fun _ h => by cases h)).2.1 (by decide)

/-! ## The constructor and the hash algorithm -/



theorem construct_ok (cmsParams : PdfSignerCmsParams)
    (conformanceLevel hashAlgorithmOid documentInputPath documentOutputPath : String)
    (endCertificateBase64 : Bytes) (certificateChainBase64 : List Bytes)
    (rootEntityCertificateBase64 : Option Bytes) (s : Session)
    (h : construct cmsParams conformanceLevel hashAlgorithmOid documentInputPath
      documentOutputPath endCertificateBase64 certificateChainBase64
      rootEntityCertificateBase64 = .ok s) :
    s._hashAlgorithm = hashAlgorithmFromOid hashAlgorithmOid ∧
      s._conformanceLevel = conformanceLevel ∧ s._signer = none ∧ s._stream = none ∧
      s.log = [] := by
  unfold construct at h
  simp only [bind, Except.bind, pure, Except.pure] at h
  cases h1 : ConvertBase64PEMtoDER endCertificateBase64 with
  | error e =>
      simp only [h1] at h
      cases h
  | ok endDer =>
      cases h2 : List.mapM ConvertBase64PEMtoDER certificateChainBase64 with
      | error e =>
          simp only [h1, h2] at h
          cases h
      | ok chainDer =>
          cases rootEntityCertificateBase64 with
          | none =>
              simp only [h1, h2, Except.ok.injEq] at h
              subst h
              exact ⟨rfl, rfl, rfl, rfl, rfl⟩
          | some root =>
              cases h3 : ConvertBase64PEMtoDER root with
              | error e =>
                  simp only [h1, h2, h3] at h
                  cases h
              | ok rootDer =>
                  simp only [h1, h2, h3, Except.ok.injEq] at h
                  subst h
                  exact ⟨rfl, rfl, rfl, rfl, rfl⟩

theorem construct_oid (cmsParams : PdfSignerCmsParams)
    (conformanceLevel oid1 oid2 documentInputPath documentOutputPath : String)
    (endCertificateBase64 : Bytes) (certificateChainBase64 : List Bytes)
    (rootEntityCertificateBase64 : Option Bytes) :
    construct cmsParams conformanceLevel oid2 documentInputPath documentOutputPath
        endCertificateBase64 certificateChainBase64 rootEntityCertificateBase64 =
      (construct cmsParams conformanceLevel oid1 documentInputPath documentOutputPath
        endCertificateBase64 certificateChainBase64 rootEntityCertificateBase64).map
        (fun s => { s with _hashAlgorithm := hashAlgorithmFromOid oid2 }) := by
  unfold construct
  simp only [bind, Except.bind, pure, Except.pure]
  cases ConvertBase64PEMtoDER endCertificateBase64 with
  | error e => rfl
  | ok endDer =>
      simp only
      cases List.mapM ConvertBase64PEMtoDER certificateChainBase64 with
      | error e => rfl
      | ok chainDer =>
          simp only
          cases rootEntityCertificateBase64 with
          | none => rfl
          | some root =>
              simp only
              cases ConvertBase64PEMtoDER root <;> rfl

theorem hashAlgorithmFromOid_iff (oid : String) :
    (hashAlgorithmFromOid oid = .SHA256 ↔ oid = "2.16.840.1.101.3.4.2.1") ∧
      (hashAlgorithmFromOid oid = .SHA384 ↔ oid = "2.16.840.1.101.3.4.2.2") ∧
      (hashAlgorithmFromOid oid = .SHA512 ↔ oid = "2.16.840.1.101.3.4.2.3") := by
  unfold hashAlgorithmFromOid
  split_ifs with a b c
  · subst a
    exact ⟨by simp, by decide, by decide⟩
  · subst b
    exact ⟨by decide, by simp, by decide⟩
  · subst c
    exact ⟨by decide, by decide, by simp⟩
  · exact ⟨by simp [a], by simp [b], by simp [c]⟩

theorem selectHashing_apply (s : Session) :
    selectHashing s =
      match hashingOf s._hashAlgorithm with
      | some h => (.ok (), { s with _cmsParams := { s._cmsParams with Hashing := h } })
      | none => (.error (.runtime_error "Hash algorithm is not supported"), s) := by
  unfold selectHashing
  simp only [bind_apply, getSession_apply]
  split_ifs with a b c
  · rw [show hashingOf s._hashAlgorithm = some .SHA256 by rw [a]; rfl]
    rfl
  · rw [show hashingOf s._hashAlgorithm = some .SHA384 by rw [b]; rfl]
    rfl
  · rw [show hashingOf s._hashAlgorithm = some .SHA512 by rw [c]; rfl]
    rfl
  · have hu : s._hashAlgorithm = .Unknown := by
      cases hh : s._hashAlgorithm <;> simp_all
    rw [show hashingOf s._hashAlgorithm = none by rw [hu]; rfl]
    rfl

theorem Unchanged_refl {α : Type} (f : Session → α) (s : Session) : Unchanged f s s := rfl

theorem Unchanged_trans {α : Type} (f : Session → α) (a b c : Session) (h1 : Unchanged f a b)
    (h2 : Unchanged f b c) : Unchanged f a c :=
  Eq.trans h2 h1

theorem prepareDocument_hashAlgorithm (env : Env) :
    Keeps (Unchanged (fun s => s._hashAlgorithm)) (prepareDocument env) := by
  unfold prepareDocument
  repeat' first
    | exact Keeps.getSession (Unchanged_refl _)
    | exact Keeps.call env _ (fun _ => rfl)
    | exact Keeps.update _ (fun _ => rfl)
    | apply Keeps.bind (Unchanged_trans _)
    | intro _

/-- The four ways `beginSigningTry` goes on after the preparation of the
document: out by an exception of the preparation, out for the conformance
level, out for the hash algorithm, or on to the creation of the signer with
the signature type and the hashing of the session. -/
theorem beginSigningTry_cases (env : Env) (s : Session) :
    let s1 := (prepareDocument env s).2
    (∃ e, (prepareDocument env s).1 = .error e ∧ beginSigningTry env s = (.error e, s1)) ∨
      ((prepareDocument env s).1 = .ok () ∧ specSignatureType s._conformanceLevel = none ∧
        beginSigningTry env s = (.error (.runtime_error "Invalid conformance level"), s1)) ∨
      (∃ t, (prepareDocument env s).1 = .ok () ∧
        specSignatureType s._conformanceLevel = some t ∧ hashingOf s._hashAlgorithm = none ∧
        beginSigningTry env s =
          (.error (.runtime_error "Hash algorithm is not supported"),
            { s1 with _cmsParams := { s1._cmsParams with SignatureType := t } })) ∨
      (∃ t h, (prepareDocument env s).1 = .ok () ∧
        specSignatureType s._conformanceLevel = some t ∧ hashingOf s._hashAlgorithm = some h ∧
        beginSigningTry env s =
          (registerSigner env >>= fun _ => ctxStartSigning env >>= fun _ => encodeDigest)
            { s1 with _cmsParams := ⟨t, h⟩ }) := by
  intro s1
  have f1 := (prepareDocument_frame env s).1
  have g1 : s1._hashAlgorithm = s._hashAlgorithm := prepareDocument_hashAlgorithm env s
  unfold beginSigningTry
  rcases seq_cases (prepareDocument env) _ s with ⟨ok1, e1⟩ | ⟨e, er1, e1⟩
  · rw [e1]
    cases hspec : specSignatureType s._conformanceLevel with
    | none =>
        refine Or.inr (Or.inl ⟨ok1, rfl, ?_⟩)
        apply bind_error
        rw [selectSignatureType_apply, f1, hspec]
    | some t =>
        have hsel : selectSignatureType s1 =
            (.ok (), { s1 with _cmsParams := { s1._cmsParams with SignatureType := t } }) := by
          rw [selectSignatureType_apply, f1, hspec]
        rw [bind_ok hsel]
        cases hh : hashingOf s._hashAlgorithm with
        | none =>
            refine Or.inr (Or.inr (Or.inl ⟨t, ok1, rfl, rfl, ?_⟩))
            apply bind_error
            have hh1 : hashingOf
                ({ s1 with _cmsParams := { s1._cmsParams with SignatureType := t } } :
                  Session)._hashAlgorithm = none := by
              show hashingOf s1._hashAlgorithm = none
              rw [g1, hh]
            rw [selectHashing_apply, hh1]
        | some h =>
            refine Or.inr (Or.inr (Or.inr ⟨t, h, ok1, rfl, rfl, ?_⟩))
            have hh1 : hashingOf
                ({ s1 with _cmsParams := { s1._cmsParams with SignatureType := t } } :
                  Session)._hashAlgorithm = some h := by
              show hashingOf s1._hashAlgorithm = some h
              rw [g1, hh]
            have hsh : selectHashing
                { s1 with _cmsParams := { s1._cmsParams with SignatureType := t } } =
                (.ok (), { s1 with _cmsParams := ⟨t, h⟩ }) := by
              rw [selectHashing_apply, hh1]
            exact bind_ok hsh
  · exact Or.inl ⟨e, er1, e1⟩

theorem SignerParamsFrame_refl (params : PdfSignerCmsParams) (s : Session) :
    SignerParamsFrame params s s :=
  ⟨[], by simp, by simp⟩

theorem SignerParamsFrame_trans (params : PdfSignerCmsParams) (a b c : Session)
    (h1 : SignerParamsFrame params a b) (h2 : SignerParamsFrame params b c) :
    SignerParamsFrame params a c := by
  obtain ⟨c1, e1, n1⟩ := h1
  obtain ⟨c2, e2, n2⟩ := h2
  refine ⟨c1 ++ c2, by rw [e2, e1, List.append_assoc], ?_⟩
  intro cert chain p hc
  rcases List.mem_append.mp hc with h | h
  · exact n1 cert chain p h
  · exact n2 cert chain p h

theorem SignerParamsFrame_call (params : PdfSignerCmsParams) (c : Call)
    (hc : ∀ cert chain p, c = .PdfSignerCms cert chain p → p = params) (s : Session) :
    SignerParamsFrame params s { s with log := s.log ++ [c] } :=
  ⟨[c], rfl, fun cert chain p h => hc cert chain p (List.mem_singleton.mp h).symm⟩

theorem SignerParamsFrame_of_PrepFrame (params : PdfSignerCmsParams) (s t : Session)
    (h : PrepFrame s t) : SignerParamsFrame params s t := by
  obtain ⟨-, -, -, calls, hlog, hn⟩ := h
  refine ⟨calls, hlog, ?_⟩
  intro cert chain p hc
  have := hn _ hc
  simp [isSignerCall] at this

theorem registerSigner_params (env : Env) (s : Session) :
    SignerParamsFrame s._cmsParams s (registerSigner env s).2 := by
  have h1 : ∀ t : Session, SignerParamsFrame s._cmsParams t
      { t with log := t.log ++
        [.PdfSignerCms s._endCertificateDer s._certificateChainDer s._cmsParams] } :=
    fun t => SignerParamsFrame_call _ _ (fun _ _ p h => by cases h; rfl) t
  have hk : Keeps (SignerParamsFrame s._cmsParams)
      (do
        call env (.PdfSignerCms s._endCertificateDer s._certificateChainDer s._cmsParams)
        let signer : PdfSignerCms :=
          ⟨s._endCertificateDer, s._certificateChainDer, s._cmsParams, 0, none⟩
        update (fun t => { t with _signer := some signer })
        call env (.ReserveAttributeSize 20000)
        update (fun t => { t with _signer := some { signer with reservedAttributeSize := 20000 } })
        call env (.AddSigner .ctx)
        update (fun t => { t with _signerId := env.signerId t.log })) := by
    repeat' first
      | exact Keeps.call env _ h1
      | exact Keeps.call env _
          (fun t => SignerParamsFrame_call _ _ (fun _ _ _ h => by cases h) t)
      | exact Keeps.update _ (fun t => SignerParamsFrame_refl _ t)
      | apply Keeps.bind (SignerParamsFrame_trans _)
      | intro _
  exact hk s

theorem ctxStartSigning_params (env : Env) (params : PdfSignerCmsParams) :
    Keeps (SignerParamsFrame params) (ctxStartSigning env) := by
  unfold ctxStartSigning
  repeat' first
    | exact Keeps.call env _
        (fun t => SignerParamsFrame_call _ _ (fun _ _ _ h => by cases h) t)
    | exact Keeps.update _ (fun t => SignerParamsFrame_refl _ t)
    | apply Keeps.bind (SignerParamsFrame_trans _)
    | intro _

theorem encodeDigest_params (params : PdfSignerCmsParams) :
    Keeps (SignerParamsFrame params) encodeDigest := by
  unfold encodeDigest
  repeat' first
    | exact Keeps.getSession (SignerParamsFrame_refl _)
    | exact Keeps.liftExcept (SignerParamsFrame_refl _) _
    | exact Keeps.pure (SignerParamsFrame_refl _) _
    | exact Keeps.update _ (fun t => SignerParamsFrame_refl _ t)
    | apply Keeps.bind (SignerParamsFrame_trans _)
    | intro _

theorem beginSigning_log (env : Env) (s : Session) :
    (beginSigning env s).2.log = (beginSigningTry env s).2.log :=
  tryCatchRethrow_log (beginSigningTry env) (fun t => { t with _stream := none }) (fun _ => rfl) s

/-- Every CMS signer `beginSigning` creates gets the signature type of the
conformance level and the hashing of the hash algorithm of the session. -/
theorem beginSigning_signer_params (env : Env) (s : Session) :
    ∃ calls, (beginSigning env s).2.log = s.log ++ calls ∧
      ∀ cert chain p, Call.PdfSignerCms cert chain p ∈ calls →
        specSignatureType s._conformanceLevel = some p.SignatureType ∧
          hashingOf s._hashAlgorithm = some p.Hashing := by
  rw [beginSigning_log]
  have f1 := prepareDocument_frame env s
  have none1 : ∀ t : Session, t.log = (prepareDocument env s).2.log →
      ∃ calls, t.log = s.log ++ calls ∧
        ∀ cert chain p, Call.PdfSignerCms cert chain p ∈ calls →
          specSignatureType s._conformanceLevel = some p.SignatureType ∧
            hashingOf s._hashAlgorithm = some p.Hashing := by
    intro t ht
    obtain ⟨calls, hlog, hn⟩ := SignerParamsFrame_of_PrepFrame ⟨.Unknown, .Unknown⟩ _ _ f1
    obtain ⟨calls2, hlog2, hn2⟩ := SignerParamsFrame_of_PrepFrame ⟨.PAdES_B, .Unknown⟩ _ _ f1
    refine ⟨calls, by rw [ht, hlog], ?_⟩
    intro cert chain p hp
    have e1 := hn cert chain p hp
    have hc : calls2 = calls := List.append_cancel_left (hlog2.symm.trans hlog)
    have e2 := hn2 cert chain p (hc ▸ hp)
    rw [e1] at e2
    cases e2
  rcases beginSigningTry_cases env s with ⟨e, -, h⟩ | ⟨-, -, h⟩ | ⟨t, -, -, -, h⟩ | ⟨t, h, -, ht, hh, hrun⟩
  · rw [h]
    exact none1 _ rfl
  · rw [h]
    exact none1 _ rfl
  · rw [h]
    exact none1 _ rfl
  · rw [hrun]
    have hk : Keeps (SignerParamsFrame ⟨t, h⟩)
        (ctxStartSigning env >>= fun _ => encodeDigest) :=
      Keeps.bind (SignerParamsFrame_trans _) (ctxStartSigning_params env _)
        (fun _ => encodeDigest_params _)
    have hreg := registerSigner_params env
      { (prepareDocument env s).2 with _cmsParams := ⟨t, h⟩ }
    have htail : SignerParamsFrame ⟨t, h⟩
        { (prepareDocument env s).2 with _cmsParams := ⟨t, h⟩ }
        ((registerSigner env >>= fun _ => ctxStartSigning env >>= fun _ => encodeDigest)
          { (prepareDocument env s).2 with _cmsParams := ⟨t, h⟩ }).2 := by
      rcases seq_cases (registerSigner env)
          (fun _ => ctxStartSigning env >>= fun _ => encodeDigest)
          { (prepareDocument env s).2 with _cmsParams := ⟨t, h⟩ } with ⟨_, e1⟩ | ⟨e, _, e1⟩
      · rw [e1]
        exact SignerParamsFrame_trans _ _ _ _ hreg (hk _)
      · rw [e1]
        exact hreg
    obtain ⟨calls1, hlog1, hn1⟩ := SignerParamsFrame_of_PrepFrame ⟨t, h⟩ _ _ f1
    obtain ⟨calls2, hlog2, hn2⟩ := htail
    refine ⟨calls1 ++ calls2, ?_, ?_⟩
    · rw [hlog2]
      show (prepareDocument env s).2.log ++ calls2 = _
      rw [hlog1, List.append_assoc]
    · intro cert chain p hp
      have hpe : p = ⟨t, h⟩ := by
        rcases List.mem_append.mp hp with hm | hm
        · exact hn1 cert chain p hm
        · exact hn2 cert chain p hm
      subst hpe
      exact ⟨ht, hh⟩

theorem beginSigning_ok_params (env : Env) (s : Session) (r : Bytes)
    (hok : (beginSigning env s).1 = .ok r) :
    ∃ signer, (beginSigning env s).2._signer = some signer ∧
      specSignatureType s._conformanceLevel = some signer.params.SignatureType ∧
        hashingOf s._hashAlgorithm = some signer.params.Hashing := by
  have htry : (beginSigningTry env s).1 = .ok r := by
    rwa [beginSigning, tryCatchRethrow_fst] at hok
  rw [beginSigning, tryCatchRethrow_ok _ _ _ r htry]
  rcases beginSigningTry_cases env s with ⟨e, -, h⟩ | ⟨-, -, h⟩ | ⟨t, -, -, -, h⟩ | ⟨t, h, -, ht, hh, hrun⟩
  · rw [h] at htry
    cases htry
  · rw [h] at htry
    cases htry
  · rw [h] at htry
    cases htry
  · rw [hrun] at htry ⊢
    obtain ⟨ok4, e4⟩ := bind_ok_inv htry
    rw [e4]
    have f4 := registerSigner_ok env _ ok4
    have f5 : Keeps SignerFrame (ctxStartSigning env >>= fun _ => encodeDigest) :=
      Keeps.bind SignerFrame_trans (ctxStartSigning_frame env) (fun _ => encodeDigest_frame)
    refine ⟨_, (f5 _).2.trans f4.1, ?_, ?_⟩
    · exact ht
    · exact hh

theorem beginSigning_unsupported_hash (env : Env) (s : Session)
    (hhash : hashingOf s._hashAlgorithm = none) :
    (∃ e, (beginSigning env s).1 = .error e) ∧
      (beginSigning env s).2._signer = s._signer ∧
      (∃ calls, (beginSigning env s).2.log = s.log ++ calls ∧
        ∀ c ∈ calls, isSignerCall c = false) ∧
      ((∀ history c, env.throws history c = none) →
        specSignatureType s._conformanceLevel ≠ none →
        (beginSigning env s).1 = .error (.runtime_error "Hash algorithm is not supported")) := by
  have f1 := prepareDocument_frame env s
  obtain ⟨-, -, g1, calls, l1, n1⟩ := f1
  have key : ∃ e t, beginSigningTry env s = (.error e, t) ∧ t._signer = s._signer ∧
      t.log = (prepareDocument env s).2.log ∧
      ((∀ history c, env.throws history c = none) →
        specSignatureType s._conformanceLevel ≠ none →
        e = .runtime_error "Hash algorithm is not supported") := by
    rcases beginSigningTry_cases env s with
      ⟨e, er, h⟩ | ⟨-, hs, h⟩ | ⟨t, -, -, -, h⟩ | ⟨t, h, -, -, hh, -⟩
    · refine ⟨e, _, h, g1, rfl, ?_⟩
      intro hq _
      rw [prepareDocument_quiet env hq s] at er
      cases er
    · exact ⟨_, _, h, g1, rfl, fun _ hne => absurd hs hne⟩
    · exact ⟨_, _, h, g1, rfl, fun _ _ => rfl⟩
    · rw [hhash] at hh
      cases hh
  obtain ⟨e, t, htry, hsig, hlog, hq⟩ := key
  unfold beginSigning tryCatchRethrow
  rw [htry]
  cases e with
  | runtime_error w =>
      exact ⟨⟨_, rfl⟩, hsig, ⟨calls, by rw [← l1, ← hlog], n1⟩, fun a b => by rw [hq a b]⟩
  | collaborator w =>
      exact ⟨⟨_, rfl⟩, hsig, ⟨calls, by rw [← l1, ← hlog], n1⟩, fun a b => by rw [hq a b]⟩
  | nullDereference w =>
      exact ⟨⟨_, rfl⟩, hsig, ⟨calls, by rw [← l1, ← hlog], n1⟩, fun a b => by rw [hq a b]⟩

/-- C11: `hashAlgorithmFromOid` gives SHA256, SHA384 and SHA512 for exactly
the three OID strings "2.16.840.1.101.3.4.2.1", "...2.2" and "...2.3". On a
session constructed with the OID, every CMS signer `beginSigning` creates is
given the hashing selected by the OID (whether or not the call returns), and
when `beginSigning` returns the signer of the session carries it. -/
theorem C11_hash_algorithm_by_exact_match (env : Env) (cmsParams : PdfSignerCmsParams)
    (conformanceLevel oid documentInputPath documentOutputPath : String)
    (endCertificateBase64 : Bytes) (certificateChainBase64 : List Bytes)
    (rootEntityCertificateBase64 : Option Bytes) (s : Session)
    (hs : construct cmsParams conformanceLevel oid documentInputPath documentOutputPath
      endCertificateBase64 certificateChainBase64 rootEntityCertificateBase64 = .ok s) :
    ((hashAlgorithmFromOid oid = .SHA256 ↔ oid = "2.16.840.1.101.3.4.2.1") ∧
        (hashAlgorithmFromOid oid = .SHA384 ↔ oid = "2.16.840.1.101.3.4.2.2") ∧
        (hashAlgorithmFromOid oid = .SHA512 ↔ oid = "2.16.840.1.101.3.4.2.3")) ∧
      s._hashAlgorithm = hashAlgorithmFromOid oid ∧
      (∀ cert chain p, Call.PdfSignerCms cert chain p ∈ (beginSigning env s).2.log →
        (oid = "2.16.840.1.101.3.4.2.1" ∧ p.Hashing = .SHA256) ∨
          (oid = "2.16.840.1.101.3.4.2.2" ∧ p.Hashing = .SHA384) ∨
          (oid = "2.16.840.1.101.3.4.2.3" ∧ p.Hashing = .SHA512)) ∧
      (∀ r, (beginSigning env s).1 = .ok r →
        ∃ signer, (beginSigning env s).2._signer = some signer ∧
          ((oid = "2.16.840.1.101.3.4.2.1" ∧ signer.params.Hashing = .SHA256) ∨
            (oid = "2.16.840.1.101.3.4.2.2" ∧ signer.params.Hashing = .SHA384) ∨
            (oid = "2.16.840.1.101.3.4.2.3" ∧ signer.params.Hashing = .SHA512))) := by
  obtain ⟨hhash, -, -, -, hlog⟩ := construct_ok _ _ _ _ _ _ _ _ _ hs
  obtain ⟨i256, i384, i512⟩ := hashAlgorithmFromOid_iff oid
  have table : ∀ h : PdfHashingAlgorithm, hashingOf s._hashAlgorithm = some h →
      (oid = "2.16.840.1.101.3.4.2.1" ∧ h = .SHA256) ∨
        (oid = "2.16.840.1.101.3.4.2.2" ∧ h = .SHA384) ∨
        (oid = "2.16.840.1.101.3.4.2.3" ∧ h = .SHA512) := by
    intro h hh
    rw [hhash] at hh
    cases halg : hashAlgorithmFromOid oid with
    | SHA256 =>
        rw [halg] at hh
        exact Or.inl ⟨i256.mp halg, (Option.some.inj hh).symm⟩
    | SHA384 =>
        rw [halg] at hh
        exact Or.inr (Or.inl ⟨i384.mp halg, (Option.some.inj hh).symm⟩)
    | SHA512 =>
        rw [halg] at hh
        exact Or.inr (Or.inr ⟨i512.mp halg, (Option.some.inj hh).symm⟩)
    | Unknown =>
        rw [halg] at hh
        cases hh
  refine ⟨⟨i256, i384, i512⟩, hhash, ?_, ?_⟩
  · intro cert chain p hp
    obtain ⟨calls, hcalls, hn⟩ := beginSigning_signer_params env s
    rw [hcalls, hlog, List.nil_append] at hp
    exact table _ (hn cert chain p hp).2
  · intro r hr
    obtain ⟨signer, h1, -, h3⟩ := beginSigning_ok_params env s r hr
    exact ⟨signer, h1, table _ h3⟩

set_option maxRecDepth 100000 in
/-- Witness of C11: a session constructed with the OID of SHA-384. -/
theorem C11_witness :
    ∃ signer, (beginSigning exampleEnv
        { exampleSession "ADES_B_T" with _hashAlgorithm := .SHA384 }).2._signer = some signer ∧
      signer.params.Hashing = .SHA384 := by
  obtain ⟨signer, h1, h2⟩ :=
    (C11_hash_algorithm_by_exact_match exampleEnv ⟨.PAdES_B, .SHA256⟩ "ADES_B_T"
      "2.16.840.1.101.3.4.2.2" "in.pdf" "out.pdf" [] [] none
      { exampleSession "ADES_B_T" with _hashAlgorithm := .SHA384 } (by decide)).2.2.2
      (UrlEncode (b64Encode exampleDigest)) (by decide)
  refine ⟨signer, h1, ?_⟩
  rcases h2 with ⟨h, _⟩ | ⟨_, h⟩ | ⟨h, _⟩
  · exact absurd h (by decide)
  · exact h
  · exact absurd h (by decide)

/-- Counterexample to C12: for the OID of MD5 the constructor returns a
session, with the hash algorithm `Unknown`. -/
theorem C12_counterexample :
    construct ⟨.PAdES_B, .SHA256⟩ "ADES_B_B" "1.2.840.113549.2.5" "in.pdf" "out.pdf" [] [] none =
      .ok { exampleSession "ADES_B_B" with _hashAlgorithm := .Unknown } := by
  decide

/-- C12, amended: for an OID string other than the three supported ones the
constructor does what it does for a supported OID, but for the hash
algorithm of the session, which is `Unknown`; the constructor does not throw
on account of the OID. The unsupported hash is rejected by `beginSigning`:
on the session constructed the call throws, creates and registers no
signer, and, when the collaborators do not throw and the conformance level
is valid, the exception is "Hash algorithm is not supported". -/
theorem C12_unsupported_hash_rejected_by_beginSigning (env : Env)
    (cmsParams : PdfSignerCmsParams)
    (conformanceLevel oid documentInputPath documentOutputPath : String)
    (endCertificateBase64 : Bytes) (certificateChainBase64 : List Bytes)
    (rootEntityCertificateBase64 : Option Bytes)
    (h256 : oid ≠ "2.16.840.1.101.3.4.2.1") (h384 : oid ≠ "2.16.840.1.101.3.4.2.2")
    (h512 : oid ≠ "2.16.840.1.101.3.4.2.3") :
    construct cmsParams conformanceLevel oid documentInputPath documentOutputPath
        endCertificateBase64 certificateChainBase64 rootEntityCertificateBase64 =
      (construct cmsParams conformanceLevel "2.16.840.1.101.3.4.2.1" documentInputPath
        documentOutputPath endCertificateBase64 certificateChainBase64
        rootEntityCertificateBase64).map (fun s => { s with _hashAlgorithm := .Unknown }) ∧
      ∀ s, construct cmsParams conformanceLevel oid documentInputPath documentOutputPath
          endCertificateBase64 certificateChainBase64 rootEntityCertificateBase64 = .ok s →
        s._hashAlgorithm = .Unknown ∧
          (∃ e, (beginSigning env s).1 = .error e) ∧
          (beginSigning env s).2._signer = none ∧
          (∀ c ∈ (beginSigning env s).2.log, isSignerCall c = false) ∧
          ((∀ history c, env.throws history c = none) →
            specSignatureType conformanceLevel ≠ none →
            (beginSigning env s).1 = .error (.runtime_error "Hash algorithm is not supported")) := by
  have hunknown : hashAlgorithmFromOid oid = .Unknown := by
    unfold hashAlgorithmFromOid
    rw [if_neg h256, if_neg h384, if_neg h512]
  refine ⟨?_, ?_⟩
  · rw [construct_oid cmsParams conformanceLevel "2.16.840.1.101.3.4.2.1" oid, hunknown]
  · intro s hs
    obtain ⟨hhash, hlevel, hsigner, -, hlog⟩ := construct_ok _ _ _ _ _ _ _ _ _ hs
    rw [hunknown] at hhash
    obtain ⟨h1, h2, ⟨calls, h3, h4⟩, h5⟩ :=
      beginSigning_unsupported_hash env s (by rw [hhash]; rfl)
    refine ⟨hhash, h1, h2.trans hsigner, ?_, ?_⟩
    · rw [h3, hlog, List.nil_append]
      exact h4
    · rw [← hlevel]
      exact h5

set_option maxRecDepth 100000 in
/-- Witness of C12: the session constructed with the OID of MD5 is refused
by `beginSigning`. -/
theorem C12_witness :
    (beginSigning exampleEnv { exampleSession "ADES_B_B" with _hashAlgorithm := .Unknown }).1 =
      .error (.runtime_error "Hash algorithm is not supported") :=
  ((C12_unsupported_hash_rejected_by_beginSigning exampleEnv ⟨.PAdES_B, .SHA256⟩ "ADES_B_B"
    "1.2.840.113549.2.5" "in.pdf" "out.pdf" [] [] none (by decide) (by decide) (by decide)).2
    { exampleSession "ADES_B_B" with _hashAlgorithm := .Unknown } (by decide)).2.2.2.2
    (fun _ _ => rfl) (by decide)

/-! ## Exceptions and the stream -/

theorem Throws_runtime_error {α : Type} (what : String) :
    Throws (.error (.runtime_error what) : Except Error α) := by
  intro w h
  cases h

theorem Throws_ok {α : Type} (a : α) : Throws (.ok a : Except Error α) := by
  intro w h
  cases h

theorem Throws_cast {α β : Type} {e : Error} (h : Throws (.error e : Except Error α)) :
    Throws (.error e : Except Error β) := by
  intro w hw
  cases hw
  exact h w rfl

theorem ConvertBase64PEMtoDER_throws (x : Bytes) : Throws (ConvertBase64PEMtoDER x) := by
  unfold ConvertBase64PEMtoDER
  split_ifs
  · exact Throws_ok _
  · cases bioReadBase64 x (x.length * 3 / 4) with
    | none => exact Throws_runtime_error _
    | some der => exact Throws_ok _

theorem ConvertDSSHashToSignedHash_throws (x : Bytes) : Throws (ConvertDSSHashToSignedHash x) := by
  unfold ConvertDSSHashToSignedHash
  cases bioReadBase64 x 128 with
  | none => exact Throws_runtime_error _
  | some der => exact Throws_ok _

theorem DecodeBase64Tsr_throws (env : Env) (x : Bytes) : Throws (DecodeBase64Tsr env x) := by
  unfold DecodeBase64Tsr
  cases bioReadBase64 x (x.length * 3 / 4) with
  | none => exact Throws_runtime_error _
  | some der =>
      simp only
      cases env.d2i_TS_RESP der with
      | none => exact Throws_runtime_error _
      | some r => exact Throws_ok _

theorem ExtractTimestampTokenFromTSR_throws (env : Env) (x : Bytes) :
    Throws (ExtractTimestampTokenFromTSR env x) := by
  unfold ExtractTimestampTokenFromTSR
  repeat' first
    | exact Throws_runtime_error _
    | exact Throws_ok _
    | split

theorem digestToBase64_throws (x : Bytes) : Throws (digestToBase64 x) := by
  unfold digestToBase64 ToBase64
  split_ifs
  · exact Throws_runtime_error _
  · exact Throws_ok _

theorem createCertificateStream_throws (doc : PdfMemDocument) (x : Bytes) :
    Throws (createCertificateStream doc x).1 := by
  unfold createCertificateStream
  have h := ConvertBase64PEMtoDER_throws x
  cases hc : ConvertBase64PEMtoDER x with
  | error e =>
      rw [hc] at h
      exact Throws_cast h
  | ok der => exact Throws_ok _

theorem addItems_throws
    (f : PdfMemDocument → Bytes → Except Error PdfReference × PdfMemDocument)
    (hf : ∀ doc x, Throws (f doc x).1) (arr : PdfReference) (items : List Bytes)
    (doc : PdfMemDocument) : Throws (addItems f arr items doc).1 := by
  induction items generalizing doc with
  | nil => exact Throws_ok _
  | cons item rest ih =>
      unfold addItems
      have h := hf doc item
      rcases hc : f doc item with ⟨r, d⟩
      rw [hc] at h
      cases r with
      | error e => exact Throws_cast h
      | ok stream => exact ih _

theorem GetReference_throws (v : PdfVariant) : Throws (PdfVariant.GetReference v) := by
  cases v with
  | reference r => exact Throws_ok _
  | direct t =>
      intro w h
      cases h

theorem addToDssArray_throws (dss : PdfReference) (keyName : String) (data : List Bytes)
    (f : PdfMemDocument → Bytes → Except Error PdfReference × PdfMemDocument)
    (hf : ∀ doc x, Throws (f doc x).1) (doc : PdfMemDocument) :
    Throws (addToDssArray dss keyName data f doc).1 := by
  unfold addToDssArray
  repeat' first
    | exact Throws_runtime_error _
    | exact addItems_throws f hf _ _ _
    | split
  rename_i e he
  have h := GetReference_throws ‹PdfVariant›
  rw [he] at h
  exact Throws_cast h

theorem addIfNonEmpty_throws (dss : PdfReference) (keyName : String) (data : List Bytes)
    (f : PdfMemDocument → Bytes → Except Error PdfReference × PdfMemDocument)
    (hf : ∀ doc x, Throws (f doc x).1) (doc : PdfMemDocument) :
    Throws (addIfNonEmpty dss keyName data f doc).1 := by
  unfold addIfNonEmpty
  split_ifs
  · exact Throws_ok _
  · exact addToDssArray_throws dss keyName data f hf doc

theorem getOrCreateDss_throws (doc : PdfMemDocument) : Throws (getOrCreateDss doc).1 := by
  unfold getOrCreateDss
  split_ifs
  · cases PdfDictionary.GetKey doc.catalog "DSS" with
    | none =>
        intro w h
        cases h
    | some entry =>
        simp only
        have h := GetReference_throws entry
        cases hg : PdfVariant.GetReference entry with
        | error e =>
            rw [hg] at h
            exact Throws_cast h
        | ok r =>
            simp only
            split
            · exact Throws_ok _
            · exact Throws_runtime_error _
  · exact Throws_ok _

theorem createOrUpdateDSSCatalog_throws (doc : PdfMemDocument) (vd : ValidationData) :
    Throws (createOrUpdateDSSCatalog doc vd).1 := by
  unfold createOrUpdateDSSCatalog
  have h0 := getOrCreateDss_throws doc
  rcases hg : getOrCreateDss doc with ⟨r0, doc0⟩
  rw [hg] at h0
  cases r0 with
  | error e => exact Throws_cast h0
  | ok dss =>
      simp only
      have h1 := addIfNonEmpty_throws dss "Certs" vd.certificatesBase64 createCertificateStream
        createCertificateStream_throws doc0
      rcases hc1 : addIfNonEmpty dss "Certs" vd.certificatesBase64 createCertificateStream doc0
        with ⟨r1, doc1⟩
      rw [hc1] at h1
      cases r1 with
      | error e => exact Throws_cast h1
      | ok u1 =>
          simp only
          have h2 := addIfNonEmpty_throws dss "CRLs" vd.crlsBase64 createCRLStream
            createCertificateStream_throws doc1
          rcases hc2 : addIfNonEmpty dss "CRLs" vd.crlsBase64 createCRLStream doc1
            with ⟨r2, doc2⟩
          rw [hc2] at h2
          cases r2 with
          | error e => exact Throws_cast h2
          | ok u2 =>
              exact addIfNonEmpty_throws dss "OCSPs" vd.ocspsBase64 createOCSPStream
                createCertificateStream_throws doc2

theorem NullOnlyWithoutStream_bind {α β : Type} {m : SessionM α} {f : α → SessionM β}
    (hm : NullOnlyWithoutStream m) (hf : ∀ a, NullOnlyWithoutStream (f a)) :
    NullOnlyWithoutStream (m >>= f) := by
  intro s w
  rw [bind_apply]
  have h1 := hm s w
  rcases h : m s with ⟨r, s1⟩
  rw [h] at h1
  cases r with
  | error e =>
      intro hw
      cases hw
      exact h1 rfl
  | ok a => exact hf a s1 w

theorem NullOnlyWithoutStream_never {α : Type} {m : SessionM α} (h : ∀ s, Throws (m s).1) :
    NullOnlyWithoutStream m :=
  fun s w hw => absurd hw (h s w)

theorem NullOnlyWithoutStream_call (env : Env) (hexc : ThrowsExceptions env) (c : Call) :
    NullOnlyWithoutStream (call env c) := by
  apply NullOnlyWithoutStream_never
  intro s w
  rw [call_apply]
  cases h : env.throws s.log c with
  | none =>
      intro hw
      cases hw
  | some e =>
      intro hw
      cases hw
      exact hexc _ _ _ h

theorem NullOnlyWithoutStream_update (f : Session → Session) :
    NullOnlyWithoutStream (update f) :=
  NullOnlyWithoutStream_never (fun _ => Throws_ok _)

theorem NullOnlyWithoutStream_getSession : NullOnlyWithoutStream getSession :=
  NullOnlyWithoutStream_never (fun _ => Throws_ok _)

theorem NullOnlyWithoutStream_pure {α : Type} (a : α) :
    NullOnlyWithoutStream (pure a : SessionM α) :=
  NullOnlyWithoutStream_never (fun _ => Throws_ok _)

theorem NullOnlyWithoutStream_raise {α : Type} (what : String) :
    NullOnlyWithoutStream (raise (.runtime_error what) : SessionM α) :=
  NullOnlyWithoutStream_never (fun _ => Throws_runtime_error _)

theorem NullOnlyWithoutStream_liftExcept {α : Type} (r : Except Error α) (hr : Throws r) :
    NullOnlyWithoutStream (liftExcept r) :=
  NullOnlyWithoutStream_never (fun _ => hr)

theorem NullOnlyWithoutStream_ite {α : Type} (c : Prop) [Decidable c] {m1 m2 : SessionM α}
    (h1 : NullOnlyWithoutStream m1) (h2 : NullOnlyWithoutStream m2) :
    NullOnlyWithoutStream (if c then m1 else m2) := by
  split
  · exact h1
  · exact h2

theorem prepareDocument_null (env : Env) (hexc : ThrowsExceptions env) :
    NullOnlyWithoutStream (prepareDocument env) := by
  unfold prepareDocument
  repeat' first
    | exact NullOnlyWithoutStream_getSession
    | exact NullOnlyWithoutStream_call env hexc _
    | exact NullOnlyWithoutStream_update _
    | apply NullOnlyWithoutStream_bind
    | intro _

theorem selectSignatureType_null : NullOnlyWithoutStream selectSignatureType := by
  apply NullOnlyWithoutStream_never
  intro s
  rw [selectSignatureType_apply]
  cases specSignatureType s._conformanceLevel with
  | none => exact Throws_runtime_error _
  | some t => exact Throws_ok _

theorem selectHashing_null : NullOnlyWithoutStream selectHashing := by
  apply NullOnlyWithoutStream_never
  intro s
  rw [selectHashing_apply]
  cases hashingOf s._hashAlgorithm with
  | none => exact Throws_runtime_error _
  | some t => exact Throws_ok _

theorem registerSigner_null (env : Env) (hexc : ThrowsExceptions env) :
    NullOnlyWithoutStream (registerSigner env) := by
  unfold registerSigner
  repeat' first
    | exact NullOnlyWithoutStream_getSession
    | exact NullOnlyWithoutStream_call env hexc _
    | exact NullOnlyWithoutStream_update _
    | apply NullOnlyWithoutStream_bind
    | intro _

theorem ctxStartSigning_null (env : Env) (hexc : ThrowsExceptions env) :
    NullOnlyWithoutStream (ctxStartSigning env) := by
  unfold ctxStartSigning
  repeat' first
    | exact NullOnlyWithoutStream_call env hexc _
    | exact NullOnlyWithoutStream_update _
    | apply NullOnlyWithoutStream_bind
    | intro _

theorem encodeDigest_null : NullOnlyWithoutStream encodeDigest := by
  unfold encodeDigest
  repeat' first
    | exact NullOnlyWithoutStream_getSession
    | exact NullOnlyWithoutStream_liftExcept _ (digestToBase64_throws _)
    | exact NullOnlyWithoutStream_pure _
    | exact NullOnlyWithoutStream_update _
    | apply NullOnlyWithoutStream_bind
    | intro _

theorem beginSigningTry_null (env : Env) (hexc : ThrowsExceptions env) :
    NullOnlyWithoutStream (beginSigningTry env) := by
  unfold beginSigningTry
  repeat' first
    | exact prepareDocument_null env hexc
    | exact selectSignatureType_null
    | exact selectHashing_null
    | exact registerSigner_null env hexc
    | exact ctxStartSigning_null env hexc
    | exact encodeDigest_null
    | apply NullOnlyWithoutStream_bind
    | intro _

theorem storeSignedHash_null (signedHash : Bytes) :
    NullOnlyWithoutStream (storeSignedHash signedHash) := by
  unfold storeSignedHash
  repeat' first
    | exact NullOnlyWithoutStream_getSession
    | exact NullOnlyWithoutStream_liftExcept _ (ConvertDSSHashToSignedHash_throws _)
    | exact NullOnlyWithoutStream_update _
    | exact NullOnlyWithoutStream_ite _ (NullOnlyWithoutStream_raise _) (NullOnlyWithoutStream_pure _)
    | apply NullOnlyWithoutStream_bind
    | intro _

theorem attachTimestamp_null (env : Env) (hexc : ThrowsExceptions env) (base64Tsr : Bytes) :
    NullOnlyWithoutStream (attachTimestamp env base64Tsr) := by
  unfold attachTimestamp
  refine NullOnlyWithoutStream_bind NullOnlyWithoutStream_getSession (fun s => ?_)
  refine NullOnlyWithoutStream_ite _ ?_ (NullOnlyWithoutStream_pure _)
  repeat' first
    | exact NullOnlyWithoutStream_liftExcept _ (DecodeBase64Tsr_throws _ _)
    | exact NullOnlyWithoutStream_call env hexc _
    | exact NullOnlyWithoutStream_update _
    | apply NullOnlyWithoutStream_bind
    | intro _

theorem ctxFinishSigning_null (env : Env) (hexc : ThrowsExceptions env) :
    NullOnlyWithoutStream (ctxFinishSigning env) := by
  unfold ctxFinishSigning
  exact NullOnlyWithoutStream_bind NullOnlyWithoutStream_getSession
    (fun _ => NullOnlyWithoutStream_call env hexc _)

/-- `writeDss` changes nothing in the session but the log. -/
theorem writeDss_only_log (env : Env) (vd : ValidationData) (s : Session) :
    ∃ calls, (writeDss env vd s).2 = { s with log := s.log ++ calls } := by
  rw [writeDss_apply]
  repeat' split
  all_goals first
    | exact ⟨_, rfl⟩
    | exact ⟨[], by simp⟩

theorem writeDss_null (env : Env) (hexc : ThrowsExceptions env) (vd : ValidationData) :
    NullOnlyWithoutStream (writeDss env vd) := by
  intro s w hw
  obtain ⟨calls, hcalls⟩ := writeDss_only_log env vd s
  rw [hcalls]
  show s._stream = none
  rw [writeDss_apply] at hw
  have hc := createOrUpdateDSSCatalog_throws (env.load (s.log ++ [.Seek 0, .Load])) vd
  split at hw
  · assumption
  · exfalso
    split at hw
    · rename_i e he
      cases hw
      exact hexc _ _ _ he
    · split at hw
      · rename_i e he
        cases hw
        exact hexc _ _ _ he
      · split at hw
        · rename_i e d he
          rw [he] at hc
          cases hw
          exact hc w rfl
        · split at hw
          · rename_i e he
            cases hw
            exact hexc _ _ _ he
          · cases hw

theorem writeDssAtLevel_null (env : Env) (hexc : ThrowsExceptions env) (level : String)
    (vd : Option ValidationData) : NullOnlyWithoutStream (writeDssAtLevel env level vd) := by
  unfold writeDssAtLevel
  refine NullOnlyWithoutStream_bind NullOnlyWithoutStream_getSession (fun s => ?_)
  refine NullOnlyWithoutStream_ite _ ?_ (NullOnlyWithoutStream_pure _)
  cases vd with
  | none => exact NullOnlyWithoutStream_pure _
  | some v => exact writeDss_null env hexc v

theorem finishSigningTry_null (env : Env) (hexc : ThrowsExceptions env)
    (signedHash base64Tsr : Bytes) (vd : Option ValidationData) :
    NullOnlyWithoutStream (finishSigningTry env signedHash base64Tsr vd) := by
  unfold finishSigningTry
  repeat' first
    | exact storeSignedHash_null _
    | exact attachTimestamp_null env hexc _
    | exact ctxFinishSigning_null env hexc
    | exact writeDssAtLevel_null env hexc _ _
    | apply NullOnlyWithoutStream_bind
    | intro _

/-- A call whose handler releases the stream leaves the session without a
stream whenever it ends in an exception. -/
theorem tryCatchRethrow_releases {α : Type} (body : SessionM α)
    (hb : NullOnlyWithoutStream body) (s : Session) (e : Error)
    (h : (tryCatchRethrow body (fun t => { t with _stream := none }) s).1 = .error e) :
    (body s).1 = .error e ∧
      (tryCatchRethrow body (fun t => { t with _stream := none }) s).2._stream = none := by
  rw [tryCatchRethrow_fst] at h
  refine ⟨h, ?_⟩
  have hn := hb s
  unfold tryCatchRethrow
  rcases hbs : body s with ⟨r, s1⟩
  rw [hbs] at h hn
  cases r with
  | ok a => cases h
  | error e1 =>
      cases e1 with
      | runtime_error w => rfl
      | collaborator w => rfl
      | nullDereference w => exact hn w rfl

theorem beginSigningLTA_without_stream (env : Env) (s : Session) (h : s._stream = none) :
    beginSigningLTA env s = (.error noActiveStream, resetLta s) := by
  unfold beginSigningLTA tryCatchRethrow beginSigningLTATry
  simp only [bind_apply, getSession_apply, h, Option.isNone_none, if_true, raise_apply]
  rfl

theorem finishSigningLTA_not_started (env : Env) (base64Tsr : Bytes)
    (vd : Option ValidationData) (s : Session)
    (h : s._ltaDoc = none ∨ s._ltaCtx = none ∨ s._ltaSigner = none ∨ s._stream = none) :
    finishSigningLTA env base64Tsr vd s = (.error ltaNotStarted, resetLta s) := by
  have hg : s._ltaDoc.isNone ∨ s._ltaCtx.isNone ∨ s._ltaSigner.isNone ∨ s._stream.isNone := by
    rcases h with h | h | h | h
    · exact Or.inl (by rw [h]; rfl)
    · exact Or.inr (Or.inl (by rw [h]; rfl))
    · exact Or.inr (Or.inr (Or.inl (by rw [h]; rfl)))
    · exact Or.inr (Or.inr (Or.inr (by rw [h]; rfl)))
  unfold finishSigningLTA tryCatchRethrow finishSigningLTATry
  simp only [bind_apply, getSession_apply, if_pos hg, raise_apply]
  rfl

/-! ## The state errors -/

theorem finishSigning_without_signer (env : Env) (signedHash base64Tsr : Bytes)
    (vd : Option ValidationData) (s : Session) (hs : s._signer = none) :
    (∃ e, (finishSigning env signedHash base64Tsr vd s).1 = .error e) ∧
      (finishSigning env signedHash base64Tsr vd s).2.log = s.log ∧
      (finishSigning env signedHash base64Tsr vd s).2._signer = none ∧
      (finishSigning env signedHash base64Tsr vd s).2._stream = none ∧
      (∀ buff, ConvertDSSHashToSignedHash signedHash = .ok buff →
        (finishSigning env signedHash base64Tsr vd s).1 =
          .error (.runtime_error "Signer not initialized")) := by
  have hstore : ∃ e t, storeSignedHash signedHash s = (.error e, t) ∧ t.log = s.log ∧
      t._signer = none ∧ (∀ w, e ≠ .nullDereference w) ∧
      (∀ buff, ConvertDSSHashToSignedHash signedHash = .ok buff →
        e = .runtime_error "Signer not initialized") := by
    rw [storeSignedHash_apply]
    have ht := ConvertDSSHashToSignedHash_throws signedHash
    cases hc : ConvertDSSHashToSignedHash signedHash with
    | error e =>
        rw [hc] at ht
        exact ⟨e, s, rfl, rfl, hs, fun w hw => ht w (by rw [hw]), fun buff h => (by cases h)⟩
    | ok buff =>
        simp only
        rw [if_pos (by rw [hs]; rfl)]
        exact ⟨_, _, rfl, rfl, hs, fun w hw => (by cases hw), fun _ _ => rfl⟩
  obtain ⟨e, t, hst, hlog, hsig, hnull, hmsg⟩ := hstore
  have htry : finishSigningTry env signedHash base64Tsr vd s = (.error e, t) := by
    unfold finishSigningTry
    exact bind_error hst
  unfold finishSigning tryCatchRethrow
  rw [htry]
  cases e with
  | runtime_error w => exact ⟨⟨_, rfl⟩, hlog, hsig, rfl, fun b hb => by rw [hmsg b hb]⟩
  | collaborator w => exact ⟨⟨_, rfl⟩, hlog, hsig, rfl, fun b hb => by rw [hmsg b hb]⟩
  | nullDereference w => exact absurd rfl (hnull w)

theorem NeverBegun_inv (env : Env) (s : Session) (h : NeverBegun env s) :
    s._signer = none ∧ s._stream = none ∧ s.log = [] := by
  induction h with
  | constructed cmsParams level oid inp out endc chain root s hs =>
      obtain ⟨-, -, h1, h2, h3⟩ := construct_ok _ _ _ _ _ _ _ _ _ hs
      exact ⟨h1, h2, h3⟩
  | afterFinishSigning s signedHash base64Tsr vd _ ih =>
      obtain ⟨-, h2, h3, h4, -⟩ := finishSigning_without_signer env signedHash base64Tsr vd s ih.1
      exact ⟨h3, h4, h2.trans ih.2.2⟩
  | afterBeginSigningLTA s _ ih =>
      rw [beginSigningLTA_without_stream env s ih.2.1]
      exact ih
  | afterFinishSigningLTA s base64Tsr vd _ ih =>
      rw [finishSigningLTA_not_started env base64Tsr vd s (Or.inr (Or.inr (Or.inr ih.2.1)))]
      exact ih

/-- C13: on a session on which `beginSigning` has never been called,
`finishSigning` throws for every signed hash, response and validation data,
and it calls no collaborator: the log, which is empty, stays empty, so
neither `FinishSigning` of the signing context nor a write to the stream
takes place. When the signed hash decodes, the exception is "Signer not
initialized". -/
theorem C13_finishSigning_fails_without_beginSigning (env : Env) (s : Session)
    (hs : NeverBegun env s) (signedHash base64Tsr : Bytes)
    (validationData : Option ValidationData) :
    (∃ e, (finishSigning env signedHash base64Tsr validationData s).1 = .error e) ∧
      (finishSigning env signedHash base64Tsr validationData s).2.log = [] ∧
      (∀ buff, ConvertDSSHashToSignedHash signedHash = .ok buff →
        (finishSigning env signedHash base64Tsr validationData s).1 =
          .error (.runtime_error "Signer not initialized")) := by
  obtain ⟨h1, -, h3⟩ := NeverBegun_inv env s hs
  obtain ⟨g1, g2, -, -, g5⟩ :=
    finishSigning_without_signer env signedHash base64Tsr validationData s h1
  exact ⟨g1, g2.trans h3, g5⟩

set_option maxRecDepth 100000 in
/-- Witness of C13: the session the constructor leaves, also after a
`beginSigningLTA` on it. -/
theorem C13_witness :
    (finishSigning exampleEnv tinySignedHash (b64Encode grantedTsr) (some emptyValidationData)
        (beginSigningLTA exampleEnv (exampleSession "ADES_B_LT")).2).1 =
      .error (.runtime_error "Signer not initialized") :=
  (C13_finishSigning_fails_without_beginSigning exampleEnv _
    (NeverBegun.afterBeginSigningLTA _
      (NeverBegun.constructed ⟨.PAdES_B, .SHA256⟩ "ADES_B_LT" "2.16.840.1.101.3.4.2.1" "in.pdf"
        "out.pdf" [] [] none (exampleSession "ADES_B_LT") (by decide)))
    tinySignedHash (b64Encode grantedTsr) (some emptyValidationData)).2.2 [0] (by decide)

/-- C15: with collaborators that throw exceptions, whenever `beginSigning`
or `finishSigning` ends in an exception, the exception is the one raised
inside the call and the session holds no stream afterwards; a
`beginSigningLTA` on the session a failed `finishSigning` leaves throws "No
active stream available. Make sure finishSigning() was called
successfully.". -/
theorem C15_stream_released_on_failure (env : Env) (hexc : ThrowsExceptions env)
    (s : Session) :
    (∀ e, (beginSigning env s).1 = .error e →
        (beginSigningTry env s).1 = .error e ∧ (beginSigning env s).2._stream = none) ∧
      (∀ signedHash base64Tsr validationData e,
        (finishSigning env signedHash base64Tsr validationData s).1 = .error e →
        (finishSigningTry env signedHash base64Tsr validationData s).1 = .error e ∧
          (finishSigning env signedHash base64Tsr validationData s).2._stream = none ∧
          (beginSigningLTA env
            (finishSigning env signedHash base64Tsr validationData s).2).1 =
            .error noActiveStream) := by
  constructor
  · intro e he
    exact tryCatchRethrow_releases _ (beginSigningTry_null env hexc) s e he
  · intro signedHash base64Tsr validationData e he
    obtain ⟨h1, h2⟩ := tryCatchRethrow_releases _
      (finishSigningTry_null env hexc signedHash base64Tsr validationData) s e he
    have h3 := beginSigningLTA_without_stream env
      (finishSigning env signedHash base64Tsr validationData s).2 h2
    refine ⟨h1, h2, ?_⟩
    rw [h3]

set_option maxRecDepth 100000 in
/-- Witness of C15: a `finishSigning` with a signed hash that does not
decode, after a successful `beginSigning`. -/
theorem C15_witness :
    (startedSession "ADES_B_LTA")._stream ≠ none ∧
      (finishSigning exampleEnv [] (b64Encode grantedTsr) none
        (startedSession "ADES_B_LTA")).2._stream = none ∧
      (beginSigningLTA exampleEnv
        (finishSigning exampleEnv [] (b64Encode grantedTsr) none
          (startedSession "ADES_B_LTA")).2).1 = .error noActiveStream := by
  have h := (C15_stream_released_on_failure exampleEnv (fun _ _ _ h => by cases h)
    (startedSession "ADES_B_LTA")).2 [] (b64Encode grantedTsr) none
    (.runtime_error "Base64 decode failed") (by decide)
  exact ⟨by decide, h.2.1, h.2.2⟩

theorem attachTimestamp_at_B_B (env : Env) (base64Tsr : Bytes) (s : Session)
    (h : s._conformanceLevel = "ADES_B_B") : attachTimestamp env base64Tsr s = (.ok (), s) := by
  rw [attachTimestamp_apply, if_neg (by simp [h])]

theorem writeDssAtLevel_skip (env : Env) (level : String) (vd : Option ValidationData)
    (s : Session) (h : s._conformanceLevel ≠ level) :
    writeDssAtLevel env level vd s = (.ok (), s) := by
  rw [writeDssAtLevel_apply, if_neg h]

/-- At `ADES_B_B` the `try` block of `finishSigning` is the storing of the
signed hash followed by `FinishSigning`. -/
theorem finishSigningTry_B_B (env : Env) (signedHash base64Tsr : Bytes)
    (vd : Option ValidationData) (s : Session) (h : s._conformanceLevel = "ADES_B_B") :
    finishSigningTry env signedHash base64Tsr vd s =
      (storeSignedHash signedHash >>= fun _ => ctxFinishSigning env) s := by
  unfold finishSigningTry
  have f1 := (storeSignedHash_frame signedHash s).2
  rcases seq_cases (storeSignedHash signedHash) (fun _ => ctxFinishSigning env) s with
    ⟨ok1, e1⟩ | ⟨e, er1, e1⟩
  · rw [e1, bind_of_ok ok1, bind_ok (attachTimestamp_at_B_B env base64Tsr _ (f1.trans h))]
    have f3 := (ctxFinishSigning_frame env (storeSignedHash signedHash s).2).1
    rcases seq_cases (ctxFinishSigning env)
        (fun _ => writeDssAtLevel env "ADES_B_LT" vd >>= fun _ =>
          writeDssAtLevel env "ADES_B_LTA" vd)
        (storeSignedHash signedHash s).2 with ⟨ok3, e3⟩ | ⟨e, er3, e3⟩
    · have hl : (ctxFinishSigning env (storeSignedHash signedHash s).2).2._conformanceLevel =
          "ADES_B_B" := f3.trans (f1.trans h)
      rw [e3, bind_ok (writeDssAtLevel_skip env "ADES_B_LT" vd _ (by rw [hl]; decide)),
        writeDssAtLevel_skip env "ADES_B_LTA" vd _ (by rw [hl]; decide)]
      rcases hc : ctxFinishSigning env (storeSignedHash signedHash s).2 with ⟨r, t⟩
      rw [hc] at ok3
      simp only at ok3
      rw [ok3]
    · rw [e3]
      rcases hc : ctxFinishSigning env (storeSignedHash signedHash s).2 with ⟨r, t⟩
      rw [hc] at er3
      simp only at er3
      rw [er3]
  · rw [e1]
    exact bind_error (by
      rcases hc : storeSignedHash signedHash s with ⟨r, t⟩
      rw [hc] at er1
      simp only at er1
      rw [er1])

theorem storeSignedHash_signer (signedHash : Bytes) :
    Keeps (Unchanged (fun s => s._signer)) (storeSignedHash signedHash) := by
  unfold storeSignedHash
  repeat' first
    | exact Keeps.getSession (Unchanged_refl _)
    | exact Keeps.liftExcept (Unchanged_refl _) _
    | exact Keeps.update _ (fun _ => rfl)
    | exact Keeps.ite _ (Keeps.raise (Unchanged_refl _) _) (Keeps.pure (Unchanged_refl _) _)
    | apply Keeps.bind (Unchanged_trans _)
    | intro _

/-- C16: at `ADES_B_B`, `finishSigning` gives the same result and leaves the
same session, log of calls included, for any two `base64Tsr` arguments; none
of the calls it makes is `SetTimestampToken`, and the signer of the session
(the timestamp token it holds included) is as before. -/
theorem C16_tsr_ignored_at_B_B (env : Env) (signedHash base64Tsr1 base64Tsr2 : Bytes)
    (validationData : Option ValidationData) (s : Session)
    (hlevel : s._conformanceLevel = "ADES_B_B") :
    finishSigning env signedHash base64Tsr1 validationData s =
        finishSigning env signedHash base64Tsr2 validationData s ∧
      (∃ calls, (finishSigning env signedHash base64Tsr1 validationData s).2.log = s.log ++ calls ∧
        ∀ c ∈ calls, isSetTimestampToken c = false) ∧
      (finishSigning env signedHash base64Tsr1 validationData s).2._signer = s._signer := by
  have e1 := finishSigningTry_B_B env signedHash base64Tsr1 validationData s hlevel
  have e2 := finishSigningTry_B_B env signedHash base64Tsr2 validationData s hlevel
  refine ⟨?_, ?_, ?_⟩
  · unfold finishSigning tryCatchRethrow
    rw [e1, e2]
  · rw [finishSigning_log, e1]
    have f1 := (storeSignedHash_frame signedHash s).1
    rcases seq_cases (storeSignedHash signedHash) (fun _ => ctxFinishSigning env) s with
      ⟨ok1, h1⟩ | ⟨e, er1, h1⟩
    · rw [h1, (ctxFinishSigning_frame env _).2.1, f1]
      exact ⟨_, rfl, by simp [isSetTimestampToken]⟩
    · rw [h1, f1]
      exact ⟨[], by simp, by simp⟩
  · unfold finishSigning
    rw [tryCatchRethrow_signer, e1]
    have f1 : (storeSignedHash signedHash s).2._signer = s._signer :=
      storeSignedHash_signer signedHash s
    rcases seq_cases (storeSignedHash signedHash) (fun _ => ctxFinishSigning env) s with
      ⟨ok1, h1⟩ | ⟨e, er1, h1⟩
    · rw [h1, ← f1, ctxFinishSigning_apply]
      split <;> rfl
    · rw [h1, f1]

set_option maxRecDepth 100000 in
/-- Witness of C16: a granted response and a text that is not base64 lead
to the same outcome at `ADES_B_B`. -/
theorem C16_witness :
    finishSigning exampleEnv tinySignedHash (b64Encode grantedTsr) none
        (startedSession "ADES_B_B") =
      finishSigning exampleEnv tinySignedHash (ascii "not base64") none
        (startedSession "ADES_B_B") :=
  (C16_tsr_ignored_at_B_B exampleEnv tinySignedHash (b64Encode grantedTsr) (ascii "not base64")
    none (startedSession "ADES_B_B") (by decide)).1

/-! ## The LTA calls -/

theorem LtaFrame_refl (s : Session) : LtaFrame s s := ⟨rfl, rfl, rfl⟩

theorem LtaFrame_trans (a b c : Session) (h1 : LtaFrame a b) (h2 : LtaFrame b c) :
    LtaFrame a c :=
  ⟨h2.1.trans h1.1, h2.2.1.trans h1.2.1, h2.2.2.trans h1.2.2⟩

theorem Keeps_tryCatchRethrow {α : Type} {P : Session → Session → Prop} {body : SessionM α}
    {handler : Session → Session} (hb : Keeps P body) (hh : ∀ s t, P s t → P s (handler t)) :
    Keeps P (tryCatchRethrow body handler) := by
  intro s
  have h := hb s
  unfold tryCatchRethrow
  rcases hbs : body s with ⟨r, s1⟩
  rw [hbs] at h
  cases r with
  | ok a => exact h
  | error e => cases e <;> first | exact hh _ _ h | exact h

theorem writeDss_lta (env : Env) (vd : ValidationData) : Keeps LtaFrame (writeDss env vd) := by
  intro s
  obtain ⟨calls, h⟩ := writeDss_only_log env vd s
  rw [h]
  exact ⟨rfl, rfl, rfl⟩

theorem beginSigning_lta (env : Env) : Keeps LtaFrame (beginSigning env) := by
  unfold beginSigning
  refine Keeps_tryCatchRethrow ?_ (fun s t h => ⟨h.1, h.2.1, h.2.2⟩)
  unfold beginSigningTry prepareDocument selectSignatureType selectHashing registerSigner
    ctxStartSigning encodeDigest
  repeat' first
    | exact Keeps.getSession LtaFrame_refl
    | exact Keeps.liftExcept LtaFrame_refl _
    | exact Keeps.pure LtaFrame_refl _
    | exact Keeps.raise LtaFrame_refl _
    | exact Keeps.call env _ (fun s => LtaFrame_refl s)
    | exact Keeps.update _ (fun s => LtaFrame_refl s)
    | apply Keeps.ite
    | apply Keeps.bind LtaFrame_trans
    | intro _

theorem finishSigning_lta (env : Env) (signedHash base64Tsr : Bytes)
    (vd : Option ValidationData) : Keeps LtaFrame (finishSigning env signedHash base64Tsr vd) := by
  unfold finishSigning
  refine Keeps_tryCatchRethrow ?_ (fun s t h => ⟨h.1, h.2.1, h.2.2⟩)
  have hw : ∀ level, Keeps LtaFrame (writeDssAtLevel env level vd) := by
    intro level
    unfold writeDssAtLevel
    refine Keeps.bind LtaFrame_trans (Keeps.getSession LtaFrame_refl) (fun s => ?_)
    refine Keeps.ite _ ?_ (Keeps.pure LtaFrame_refl _)
    cases vd with
    | none => exact Keeps.pure LtaFrame_refl _
    | some v => exact writeDss_lta env v
  unfold finishSigningTry storeSignedHash attachTimestamp ctxFinishSigning
  repeat' first
    | exact hw _
    | exact Keeps.getSession LtaFrame_refl
    | exact Keeps.liftExcept LtaFrame_refl _
    | exact Keeps.pure LtaFrame_refl _
    | exact Keeps.raise LtaFrame_refl _
    | exact Keeps.call env _ (fun s => LtaFrame_refl s)
    | exact Keeps.update _ (fun s => LtaFrame_refl s)
    | apply Keeps.ite
    | apply Keeps.bind LtaFrame_trans
    | intro _

theorem storeTimestampToken_stream (env : Env) (base64Tsr : Bytes) :
    Keeps (Unchanged (fun s => s._stream)) (storeTimestampToken env base64Tsr) := by
  unfold storeTimestampToken
  repeat' first
    | exact Keeps.getSession (Unchanged_refl _)
    | exact Keeps.liftExcept (Unchanged_refl _) _
    | exact Keeps.call env _ (fun _ => rfl)
    | exact Keeps.update _ (fun _ => rfl)
    | apply Keeps.bind (Unchanged_trans _)
    | intro _

theorem storeTimestampToken_null (env : Env) (hexc : ThrowsExceptions env) (base64Tsr : Bytes) :
    NullOnlyWithoutStream (storeTimestampToken env base64Tsr) := by
  unfold storeTimestampToken
  repeat' first
    | exact NullOnlyWithoutStream_getSession
    | exact NullOnlyWithoutStream_liftExcept _ (DecodeBase64Tsr_throws _ _)
    | exact NullOnlyWithoutStream_liftExcept _ (ExtractTimestampTokenFromTSR_throws _ _)
    | exact NullOnlyWithoutStream_call env hexc _
    | exact NullOnlyWithoutStream_update _
    | apply NullOnlyWithoutStream_bind
    | intro _

theorem writeDssIfNotEmpty_only_log (env : Env) (vd : Option ValidationData) (s : Session) :
    ∃ calls, (writeDssIfNotEmpty env vd s).2 = { s with log := s.log ++ calls } := by
  unfold writeDssIfNotEmpty
  cases vd with
  | none => exact ⟨[], by simp [pure_apply]⟩
  | some v =>
      simp only
      split
      · exact ⟨[], by simp [pure_apply]⟩
      · exact writeDss_only_log env v s

theorem writeDssIfNotEmpty_null (env : Env) (hexc : ThrowsExceptions env)
    (vd : Option ValidationData) : NullOnlyWithoutStream (writeDssIfNotEmpty env vd) := by
  unfold writeDssIfNotEmpty
  cases vd with
  | none => exact NullOnlyWithoutStream_pure _
  | some v =>
      simp only
      split
      · exact NullOnlyWithoutStream_pure _
      · exact writeDss_null env hexc v

/-- With collaborators that throw exceptions, every `finishSigningLTA` leaves
the three LTA members reset. -/
theorem finishSigningLTA_resets (env : Env) (hexc : ThrowsExceptions env) (base64Tsr : Bytes)
    (vd : Option ValidationData) (s : Session) :
    (finishSigningLTA env base64Tsr vd s).2._ltaDoc = none ∧
      (finishSigningLTA env base64Tsr vd s).2._ltaCtx = none ∧
      (finishSigningLTA env base64Tsr vd s).2._ltaSigner = none := by
  by_cases hg : s._ltaDoc = none ∨ s._ltaCtx = none ∨ s._ltaSigner = none ∨ s._stream = none
  · rw [finishSigningLTA_not_started env base64Tsr vd s hg]
    exact ⟨rfl, rfl, rfl⟩
  · have hstream : s._stream ≠ none := fun h => hg (Or.inr (Or.inr (Or.inr h)))
    have hg2 : ¬(s._ltaDoc.isNone ∨ s._ltaCtx.isNone ∨ s._ltaSigner.isNone ∨ s._stream.isNone) := by
      simpa [Option.isNone_iff_eq_none] using hg
    have htry : finishSigningLTATry env base64Tsr vd s =
        (storeTimestampToken env base64Tsr >>= fun _ =>
          writeDssIfNotEmpty env vd >>= fun _ => update resetLta) s := by
      unfold finishSigningLTATry
      simp only [bind_apply, getSession_apply, if_neg hg2]
    have h1 : (storeTimestampToken env base64Tsr s).2._stream = s._stream :=
      storeTimestampToken_stream env base64Tsr s
    have n1 := storeTimestampToken_null env hexc base64Tsr s
    unfold finishSigningLTA tryCatchRethrow
    rw [htry]
    rcases seq_cases (storeTimestampToken env base64Tsr)
        (fun _ => writeDssIfNotEmpty env vd >>= fun _ => update resetLta) s with
      ⟨ok1, e1⟩ | ⟨e, er1, e1⟩
    · rw [e1]
      generalize (storeTimestampToken env base64Tsr s).2 = s1 at h1 ⊢
      have n2 := writeDssIfNotEmpty_null env hexc vd s1
      obtain ⟨calls, hc⟩ := writeDssIfNotEmpty_only_log env vd s1
      rcases seq_cases (writeDssIfNotEmpty env vd) (fun _ => update resetLta) s1 with
        ⟨ok2, e2⟩ | ⟨e, er2, e2⟩
      · rw [e2]
        exact ⟨rfl, rfl, rfl⟩
      · rw [e2]
        cases e with
        | runtime_error w => exact ⟨rfl, rfl, rfl⟩
        | collaborator w => exact ⟨rfl, rfl, rfl⟩
        | nullDereference w =>
            exfalso
            have := n2 w er2
            rw [hc] at this
            exact hstream (h1.symm.trans this)
    · rw [e1]
      cases e with
      | runtime_error w => exact ⟨rfl, rfl, rfl⟩
      | collaborator w => exact ⟨rfl, rfl, rfl⟩
      | nullDereference w =>
          exfalso
          exact hstream (h1.symm.trans (n1 w er1))

/-- C14: `finishSigningLTA` throws "LTA signing has not been started. Call
beginSigningLTA() first." whenever the LTA document, context or signer or
the stream is absent, whatever the response is, and then leaves the log of
calls and the LTA results as they were. With collaborators that throw
exceptions, every `finishSigningLTA`, returning or throwing, leaves the LTA
document, context and signer reset, so that a second `finishSigningLTA`
throws the same exception; `beginSigning` and `finishSigning` do not touch
the three members. -/
theorem C14_one_finishSigningLTA_per_beginSigningLTA (env : Env)
    (hexc : ThrowsExceptions env) (s : Session) (base64Tsr : Bytes)
    (validationData : Option ValidationData) :
    ((s._ltaDoc = none ∨ s._ltaCtx = none ∨ s._ltaSigner = none ∨ s._stream = none) →
        (finishSigningLTA env base64Tsr validationData s).1 = .error ltaNotStarted ∧
          (finishSigningLTA env base64Tsr validationData s).2.log = s.log ∧
          (finishSigningLTA env base64Tsr validationData s).2._ltaResults = s._ltaResults) ∧
      ((finishSigningLTA env base64Tsr validationData s).2._ltaDoc = none ∧
        (finishSigningLTA env base64Tsr validationData s).2._ltaCtx = none ∧
        (finishSigningLTA env base64Tsr validationData s).2._ltaSigner = none) ∧
      (∀ base64Tsr2 validationData2,
        (finishSigningLTA env base64Tsr2 validationData2
          (finishSigningLTA env base64Tsr validationData s).2).1 = .error ltaNotStarted) ∧
      (∀ t, LtaFrame t (beginSigning env t).2) ∧
      (∀ t signedHash base64Tsr3 validationData3,
        LtaFrame t (finishSigning env signedHash base64Tsr3 validationData3 t).2) := by
  have hreset := finishSigningLTA_resets env hexc base64Tsr validationData s
  refine ⟨?_, hreset, ?_, fun t => beginSigning_lta env t,
    fun t signedHash base64Tsr3 validationData3 =>
      finishSigning_lta env signedHash base64Tsr3 validationData3 t⟩
  · intro hg
    rw [finishSigningLTA_not_started env base64Tsr validationData s hg]
    exact ⟨rfl, rfl, rfl⟩
  · intro base64Tsr2 validationData2
    rw [finishSigningLTA_not_started env base64Tsr2 validationData2 _ (Or.inl hreset.1)]

set_option maxRecDepth 100000 in
/-- Witness of C14: after `beginSigningLTA` the first `finishSigningLTA`
returns and a second one is refused. -/
theorem C14_witness :
    (finishSigningLTA exampleEnv (b64Encode grantedTsr) none ltaStartedSession).1 = .ok () ∧
      (finishSigningLTA exampleEnv (b64Encode grantedTsr) none
        (finishSigningLTA exampleEnv (b64Encode grantedTsr) none ltaStartedSession).2).1 =
        .error ltaNotStarted :=
  ⟨by decide,
    (C14_one_finishSigningLTA_per_beginSigningLTA exampleEnv (fun _ _ _ h => by cases h)
      ltaStartedSession (b64Encode grantedTsr) none).2.2.1 (b64Encode grantedTsr) none⟩

theorem writeDssIfNotEmpty_frame (env : Env) (vd : Option ValidationData) (s : Session) :
    ∃ calls, (writeDssIfNotEmpty env vd s).2 = { s with log := s.log ++ calls } ∧
      ∀ c ∈ calls, c ≠ .FinishSigning .ltaCtx s._ltaResults := by
  unfold writeDssIfNotEmpty
  have hnil : ∃ calls, s = { s with log := s.log ++ calls } ∧
      ∀ c ∈ calls, c ≠ .FinishSigning .ltaCtx s._ltaResults := ⟨[], by simp, by simp⟩
  cases vd with
  | none => exact hnil
  | some v =>
      simp only
      split
      · exact hnil
      · rw [writeDss_apply]
        repeat' split
        all_goals first
          | exact ⟨_, rfl, by simp⟩
          | exact hnil

/-- C20: in `finishSigningLTA` on a session with the LTA signing started,
for a response that decodes and parses with status 0 and a token (the DER
of which is not empty): what `ExtractTimestampTokenFromTSR` returns is the
DER of the token; the call hands the LTA results with this DER stored for
the DocTimeStamp signer to `FinishSigning` of the LTA context, once; the DER
is what the results of the session hold for the signer afterwards; and
`ComputeSignatureDeferred` of the DocTimeStamp signer with `dryrun = false`
makes of it contents that are the DER of the token, byte for byte. -/
theorem C20_token_stored_and_embedded (env : Env) (s : Session) (base64Tsr tsr : Bytes)
    (validationData : Option ValidationData) (response : TS_RESP) (token : PKCS7)
    (hdoc : s._ltaDoc ≠ none) (hctx : s._ltaCtx ≠ none) (hsigner : s._ltaSigner ≠ none)
    (hstream : s._stream ≠ none)
    (hdecode : DecodeBase64Tsr env base64Tsr = .ok tsr)
    (hparse : env.d2i_TS_RESP tsr = some response)
    (hstatus : response.status_info = some ⟨some 0⟩)
    (htoken : response.token = some token)
    (hder : token.der ≠ []) :
    ExtractTimestampTokenFromTSR env tsr = .ok token.der ∧
      (∃ rest,
        (finishSigningLTA env base64Tsr validationData s).2.log =
          s.log ++
            .FinishSigning .ltaCtx (s._ltaResults.assign s._ltaSignerId token.der) :: rest ∧
        ∀ c ∈ rest,
          c ≠ .FinishSigning .ltaCtx (s._ltaResults.assign s._ltaSignerId token.der)) ∧
      ((s._ltaResults.assign s._ltaSignerId token.der).index s._ltaSignerId).1 = token.der ∧
      (finishSigningLTA env base64Tsr validationData s).2._ltaResults =
        s._ltaResults.assign s._ltaSignerId token.der ∧
      ∀ signer contents,
        PdfDocTimeStampSigner.ComputeSignatureDeferred signer
          ((s._ltaResults.assign s._ltaSignerId token.der).index s._ltaSignerId).1 contents false =
          token.der := by
  have hextract : ExtractTimestampTokenFromTSR env tsr = .ok token.der := by
    unfold ExtractTimestampTokenFromTSR
    simp only [hparse, hstatus, htoken]
    rw [if_neg (by simp), if_neg (by simpa using hder)]
  have hg2 : ¬(s._ltaDoc.isNone ∨ s._ltaCtx.isNone ∨ s._ltaSigner.isNone ∨ s._stream.isNone) := by
    simp only [Option.isNone_iff_eq_none]
    tauto
  have htry : finishSigningLTATry env base64Tsr validationData s =
      (storeTimestampToken env base64Tsr >>= fun _ =>
        writeDssIfNotEmpty env validationData >>= fun _ => update resetLta) s := by
    unfold finishSigningLTATry
    simp only [bind_apply, getSession_apply, if_neg hg2]
  have hstore : storeTimestampToken env base64Tsr s =
      call env (.FinishSigning .ltaCtx (s._ltaResults.assign s._ltaSignerId token.der))
        { s with _ltaResults := s._ltaResults.assign s._ltaSignerId token.der } := by
    unfold storeTimestampToken
    simp only [bind_apply, liftExcept_apply, hdecode, hextract, update_apply, getSession_apply]
  have hfinal : ∃ rest t, (finishSigningLTATry env base64Tsr validationData s).2 = t ∧
      t.log = s.log ++
        .FinishSigning .ltaCtx (s._ltaResults.assign s._ltaSignerId token.der) :: rest ∧
      (∀ c ∈ rest,
        c ≠ .FinishSigning .ltaCtx (s._ltaResults.assign s._ltaSignerId token.der)) ∧
      t._ltaResults = s._ltaResults.assign s._ltaSignerId token.der := by
    rw [htry]
    rcases seq_cases (storeTimestampToken env base64Tsr)
        (fun _ => writeDssIfNotEmpty env validationData >>= fun _ => update resetLta) s with
      ⟨ok1, e1⟩ | ⟨e, er1, e1⟩
    · rw [e1]
      have hs1 : (storeTimestampToken env base64Tsr s).2 =
          { s with _ltaResults := s._ltaResults.assign s._ltaSignerId token.der,
                   log := s.log ++
                    [.FinishSigning .ltaCtx (s._ltaResults.assign s._ltaSignerId token.der)] } := by
        rw [hstore, call_apply]
        split <;> rfl
      rw [hs1]
      generalize hs1d : ({ s with
        _ltaResults := s._ltaResults.assign s._ltaSignerId token.der,
        log := s.log ++
          [.FinishSigning .ltaCtx (s._ltaResults.assign s._ltaSignerId token.der)] } :
        Session) = s1
      have hl1 : s1.log = s.log ++
          [.FinishSigning .ltaCtx (s._ltaResults.assign s._ltaSignerId token.der)] := by
        rw [← hs1d]
      have hr1 : s1._ltaResults = s._ltaResults.assign s._ltaSignerId token.der := by
        rw [← hs1d]
      obtain ⟨calls, hc, hn⟩ := writeDssIfNotEmpty_frame env validationData s1
      rw [hr1] at hn
      rcases seq_cases (writeDssIfNotEmpty env validationData) (fun _ => update resetLta) s1 with
        ⟨ok2, e2⟩ | ⟨e, er2, e2⟩
      · rw [e2, update_apply, hc]
        exact ⟨calls, _, rfl, by show s1.log ++ calls = _; rw [hl1]; simp, hn, hr1⟩
      · rw [e2, hc]
        exact ⟨calls, _, rfl, by show s1.log ++ calls = _; rw [hl1]; simp, hn, hr1⟩
    · rw [e1, hstore, call_apply]
      split
      · exact ⟨[], _, rfl, rfl, by simp, rfl⟩
      · exact ⟨[], _, rfl, rfl, by simp, rfl⟩
  obtain ⟨rest, t, ht, hlog, hn, hres⟩ := hfinal
  have hidx := index_assign s._ltaResults s._ltaSignerId token.der
  refine ⟨hextract, ⟨rest, ?_, hn⟩, hidx, ?_, ?_⟩
  · rw [finishSigningLTA, tryCatchRethrow_log (finishSigningLTATry env base64Tsr validationData)
      resetLta (fun _ => rfl) s, ht, hlog]
  · unfold finishSigningLTA tryCatchRethrow
    rcases hb : finishSigningLTATry env base64Tsr validationData s with ⟨r, t1⟩
    rw [hb] at ht
    simp only at ht
    subst ht
    cases r with
    | ok a => exact hres
    | error e => cases e <;> exact hres
  · intro signer contents
    rw [hidx]
    rfl

set_option maxRecDepth 100000 in
/-- Witness of C20: the granted example response on the example session
with the LTA signing started. -/
theorem C20_witness :
    (finishSigningLTA exampleEnv (b64Encode grantedTsr) none ltaStartedSession).2._ltaResults =
      ⟨[(0, grantedTsr.drop 7)]⟩ :=
  (C20_token_stored_and_embedded exampleEnv ltaStartedSession (b64Encode grantedTsr) grantedTsr
    none ⟨some ⟨some 0⟩, some ⟨grantedTsr.drop 7, none⟩⟩ ⟨grantedTsr.drop 7, none⟩
    (by decide) (by decide) (by decide) (by decide) (by decide) (by decide) rfl rfl
    (by decide)).2.2.2.1.trans (by decide)

/-! ## The DocTimeStamp signer -/

theorem resize_length (contents : Bytes) (n : Nat) : (resize contents n).length = n := by
  unfold resize
  simp only [List.length_append, List.length_take, List.length_replicate]
  omega

/-- C21: a dry run of `ComputeSignatureDeferred` leaves contents of 20000
bytes, but a dry run of `ComputeSignature` leaves contents of 6000 bytes,
whatever the contents were before. -/
theorem C21_ComputeSignature_dry_run_reserves_6000 (signer : PdfDocTimeStampSigner)
    (processedResult contents : Bytes) :
    (PdfDocTimeStampSigner.ComputeSignature signer contents true).length = 6000 ∧
      (PdfDocTimeStampSigner.ComputeSignatureDeferred signer processedResult contents
        true).length = 20000 :=
  ⟨resize_length contents 6000, resize_length contents 20000⟩

/-- The signer after `AppendData` of the chunks in order, with the static
`lastEndPosition` threaded through the calls. -/
theorem AppendData_foldl (chunks : List Bytes) (signer : PdfDocTimeStampSigner)
    (lastEndPosition : Nat) :
    (chunks.foldl (fun state data => PdfDocTimeStampSigner.AppendData state.1 state.2 data)
      (signer, lastEndPosition)).1 =
      { signer with m_hashBuffer := signer.m_hashBuffer ++ chunks.flatten } := by
  induction chunks generalizing signer lastEndPosition with
  | nil => simp
  | cons data rest ih =>
      rw [List.foldl_cons]
      have h : PdfDocTimeStampSigner.AppendData signer lastEndPosition data =
          ({ signer with m_hashBuffer := signer.m_hashBuffer ++ data },
            signer.m_hashBuffer.length + data.length) := rfl
      simp only [h]
      rw [ih]
      simp [List.append_assoc]

/-- C22: for a signer without a device (the device pointer is null or the
manual byte range is off), whatever its hash buffer holds and whatever the
static `lastEndPosition` is: after `Reset` and `AppendData` of the chunks in
order, `FetchIntermediateResult` is the SHA-256 digest of the concatenation
of the chunks; for the two ranges it is the digest of `range1 ++ range2`. -/
theorem C22_digest_of_chunks_since_Reset (ComputeHash : ComputeHashFunction)
    (fileContent : StreamDevice → Bytes) (signer : PdfDocTimeStampSigner)
    (lastEndPosition : Nat) (chunks : List Bytes)
    (hdevice : signer.m_device = none ∨ signer.m_useManualByteRange = false) :
    PdfDocTimeStampSigner.FetchIntermediateResult ComputeHash fileContent
        (chunks.foldl (fun state data => PdfDocTimeStampSigner.AppendData state.1 state.2 data)
          (PdfDocTimeStampSigner.Reset signer, lastEndPosition)).1 =
      .value (ComputeHash chunks.flatten .SHA256) ∧
    ∀ range1 range2,
      PdfDocTimeStampSigner.FetchIntermediateResult ComputeHash fileContent
          (PdfDocTimeStampSigner.AppendData
            (PdfDocTimeStampSigner.AppendData (PdfDocTimeStampSigner.Reset signer)
              lastEndPosition range1).1
            (PdfDocTimeStampSigner.AppendData (PdfDocTimeStampSigner.Reset signer)
              lastEndPosition range1).2 range2).1 =
        .value (ComputeHash (range1 ++ range2) .SHA256) := by
  have key : ∀ buffer : Bytes,
      PdfDocTimeStampSigner.FetchIntermediateResult ComputeHash fileContent
        { PdfDocTimeStampSigner.Reset signer with m_hashBuffer := buffer } =
        .value (ComputeHash buffer .SHA256) := by
    intro buffer
    unfold PdfDocTimeStampSigner.FetchIntermediateResult PdfDocTimeStampSigner.Reset
    rcases hdevice with h | h
    · simp only [h]
      cases signer.m_useManualByteRange <;> rfl
    · simp only [h]
  constructor
  · rw [AppendData_foldl]
    have := key chunks.flatten
    simpa [PdfDocTimeStampSigner.Reset] using this
  · intro range1 range2
    have := key (range1 ++ range2)
    simpa [PdfDocTimeStampSigner.Reset, PdfDocTimeStampSigner.AppendData] using this

/-- Witness of C22: a signer as the constructor leaves it, with bytes in its
buffer from before the `Reset`. -/
theorem C22_witness :
    PdfDocTimeStampSigner.FetchIntermediateResult exampleHash (fun _ => [])
        (PdfDocTimeStampSigner.AppendData
          (PdfDocTimeStampSigner.AppendData
            (PdfDocTimeStampSigner.Reset ⟨none, false, ascii "old"⟩) 7 (ascii "ab")).1
          (PdfDocTimeStampSigner.AppendData
            (PdfDocTimeStampSigner.Reset ⟨none, false, ascii "old"⟩) 7 (ascii "ab")).2
          (ascii "cd")).1 =
      .value (exampleHash (ascii "abcd") .SHA256) :=
  (C22_digest_of_chunks_since_Reset exampleHash (fun _ => []) ⟨none, false, ascii "old"⟩ 7 []
    (Or.inl rfl)).2 (ascii "ab") (ascii "cd")

theorem FetchIntermediateResult_with_device (ComputeHash : ComputeHashFunction)
    (fileContent : StreamDevice → Bytes) (signer : PdfDocTimeStampSigner)
    (device : StreamDevice) (correctData : Bytes)
    (h : rangedData (fileContent device) = .bytes correctData) :
    PdfDocTimeStampSigner.FetchIntermediateResult ComputeHash fileContent
        (PdfDocTimeStampSigner.SetDevice signer device) =
      .value (ComputeHash correctData .SHA256) := by
  unfold PdfDocTimeStampSigner.FetchIntermediateResult PdfDocTimeStampSigner.SetDevice
    PdfDocTimeStampSigner.calculateCorrectHash
  simp only [h]

set_option maxRecDepth 100000 in
/-- C27: in `twoSignatureFile` the text `/ByteRange[` stands at offset 27
(the signature of the first update) and at offset 107 (the document time
stamp). With a device set, `FetchIntermediateResult` hashes bytes 0-60 and
65-79, the ranges `[0 61 65 15]` of the first signature, not bytes 0-140 and
145-159, the ranges `[0 141 145 15]` of the document time stamp. -/
theorem C27_first_ByteRange_is_hashed :
    twoSignatureFile.length = 160 ∧
      find twoSignatureFile (ascii "/ByteRange[") 0 = some 27 ∧
      find twoSignatureFile (ascii "/ByteRange[") 28 = some 107 ∧
      (∀ (ComputeHash : ComputeHashFunction) (signer : PdfDocTimeStampSigner)
          (device : StreamDevice),
        PdfDocTimeStampSigner.FetchIntermediateResult ComputeHash (fun _ => twoSignatureFile)
            (PdfDocTimeStampSigner.SetDevice signer device) =
          .value (ComputeHash
            (twoSignatureFile.take 61 ++ (twoSignatureFile.drop 65).take 15) .SHA256)) ∧
      twoSignatureFile.take 61 ++ (twoSignatureFile.drop 65).take 15 ≠
        twoSignatureFile.take 141 ++ (twoSignatureFile.drop 145).take 15 := by
  have hdata : rangedData twoSignatureFile =
      .bytes (twoSignatureFile.take 61 ++ (twoSignatureFile.drop 65).take 15) := by decide
  refine ⟨by decide, by decide, by decide, ?_, by decide⟩
  intro ComputeHash signer device
  exact FetchIntermediateResult_with_device ComputeHash (fun _ => twoSignatureFile) signer device
    _ hdata

/-! ## The signer and the field of the LTA pass -/

theorem call_snd (env : Env) (c : Call) (s : Session) :
    (call env c s).2 = { s with log := s.log ++ [c] } := by
  rw [call_apply]
  cases env.throws s.log c <;> rfl

theorem call_bind_ok {β : Type} (env : Env) (c : Call) (f : Unit → SessionM β) (s : Session)
    (r : β) (h : ((call env c >>= f) s).1 = .ok r) :
    (call env c >>= f) s = f () { s with log := s.log ++ [c] } := by
  obtain ⟨-, e⟩ := bind_ok_inv h
  rw [e, call_snd]

theorem update_bind {β : Type} (g : Session → Session) (f : Unit → SessionM β) (s : Session) :
    (update g >>= f) s = f () (g s) := rfl

theorem getSession_bind {β : Type} (f : Session → SessionM β) (s : Session) :
    (getSession >>= f) s = f s s := rfl

theorem prepareLta_ok (env : Env) (s : Session) (h : (prepareLta env s).1 = .ok ()) :
    (prepareLta env s).2._ltaSigner = some PdfDocTimeStampSigner.init ∧
      (prepareLta env s).2.log = s.log ++
        [.Seek 0, .Load, .CreateField "Signature2", .SetFlags "Signature2" 132,
          .AddSigner .ltaCtx, .StartSigning .ltaCtx .noMetadataUpdate] := by
  unfold prepareLta at h ⊢
  have e1 := call_bind_ok env _ _ _ () h
  rw [e1] at h ⊢
  have e2 := call_bind_ok env _ _ _ () h
  rw [e2, update_bind] at h ⊢
  have e3 := call_bind_ok env _ _ _ () h
  rw [e3] at h ⊢
  have e4 := call_bind_ok env _ _ _ () h
  rw [e4, update_bind] at h ⊢
  have e5 := call_bind_ok env _ _ _ () h
  rw [e5, update_bind] at h ⊢
  have e6 := call_bind_ok env _ _ _ () h
  rw [e6, update_apply]
  exact ⟨rfl, by simp⟩

theorem prepareDocument_ok (env : Env) (s : Session) (h : (prepareDocument env s).1 = .ok ()) :
    (prepareDocument env s).2.log = s.log ++
      [.copy_file s._documentInputPath s._documentOutputPath,
        .FileStreamDevice s._documentOutputPath, .Load, .AddSigFlags 3,
        .CreateField "Signature", .SetFlags "Signature" invisibleHidden, .SetSignatureDate] := by
  unfold prepareDocument at h ⊢
  rw [getSession_bind] at h ⊢
  have e1 := call_bind_ok env _ _ _ () h
  rw [e1] at h ⊢
  have e2 := call_bind_ok env _ _ _ () h
  rw [e2, update_bind] at h ⊢
  have e3 := call_bind_ok env _ _ _ () h
  rw [e3, update_bind] at h ⊢
  have e4 := call_bind_ok env _ _ _ () h
  rw [e4] at h ⊢
  have e5 := call_bind_ok env _ _ _ () h
  rw [e5] at h ⊢
  have e6 := call_bind_ok env _ _ _ () h
  rw [e6, call_snd]
  simp

theorem encodeDigestLTA_signer : Keeps (Unchanged (fun s => s._ltaSigner)) encodeDigestLTA := by
  unfold encodeDigestLTA
  repeat' first
    | exact Keeps.getSession (Unchanged_refl _)
    | exact Keeps.liftExcept (Unchanged_refl _) _
    | exact Keeps.pure (Unchanged_refl _) _
    | exact Keeps.update _ (fun _ => rfl)
    | apply Keeps.bind (Unchanged_trans _)
    | intro _

theorem encodeDigestLTA_log : Keeps (Unchanged (fun s => s.log)) encodeDigestLTA := by
  unfold encodeDigestLTA
  repeat' first
    | exact Keeps.getSession (Unchanged_refl _)
    | exact Keeps.liftExcept (Unchanged_refl _) _
    | exact Keeps.pure (Unchanged_refl _) _
    | exact Keeps.update _ (fun _ => rfl)
    | apply Keeps.bind (Unchanged_trans _)
    | intro _

theorem encodeDigest_log : Keeps (Unchanged (fun s => s.log)) encodeDigest := by
  unfold encodeDigest
  repeat' first
    | exact Keeps.getSession (Unchanged_refl _)
    | exact Keeps.liftExcept (Unchanged_refl _) _
    | exact Keeps.pure (Unchanged_refl _) _
    | exact Keeps.update _ (fun _ => rfl)
    | apply Keeps.bind (Unchanged_trans _)
    | intro _

/-- When `beginSigningLTA` returns, the signer of the LTA pass is as its
constructor leaves it and the calls made are the six of the preparation. -/
theorem beginSigningLTA_ok (env : Env) (s : Session) (r : Bytes)
    (h : (beginSigningLTA env s).1 = .ok r) :
    (beginSigningLTA env s).2._ltaSigner = some PdfDocTimeStampSigner.init ∧
      (beginSigningLTA env s).2.log = s.log ++
        [.Seek 0, .Load, .CreateField "Signature2", .SetFlags "Signature2" 132,
          .AddSigner .ltaCtx, .StartSigning .ltaCtx .noMetadataUpdate] := by
  have htry : (beginSigningLTATry env s).1 = .ok r := by
    rwa [beginSigningLTA, tryCatchRethrow_fst] at h
  rw [beginSigningLTA, tryCatchRethrow_ok _ _ _ r htry]
  by_cases hs : s._stream.isNone
  · exfalso
    unfold beginSigningLTATry at htry
    simp only [bind_apply, getSession_apply, if_pos hs, raise_apply] at htry
    cases htry
  · have heq : beginSigningLTATry env s = (prepareLta env >>= fun _ => encodeDigestLTA) s := by
      unfold beginSigningLTATry
      simp only [bind_apply, getSession_apply, if_neg hs]
    rw [heq] at htry ⊢
    obtain ⟨ok1, e1⟩ := bind_ok_inv htry
    rw [e1]
    obtain ⟨h1, h2⟩ := prepareLta_ok env s ok1
    have f1 : (encodeDigestLTA (prepareLta env s).2).2._ltaSigner =
        (prepareLta env s).2._ltaSigner := encodeDigestLTA_signer _
    have f2 : (encodeDigestLTA (prepareLta env s).2).2.log = (prepareLta env s).2.log :=
      encodeDigestLTA_log _
    exact ⟨f1.trans h1, f2.trans h2⟩

/-- C23: when `beginSigningLTA` returns, the DocTimeStamp signer it has
registered is as its constructor leaves it: no device, the manual byte range
off. Whatever bytes the signing context has appended to such a signer,
`FetchIntermediateResult` is the digest of these bytes, whatever file the
stream device holds. -/
theorem C23_LTA_signer_has_no_device (env : Env) (s : Session) (r : Bytes)
    (h : (beginSigningLTA env s).1 = .ok r) :
    (beginSigningLTA env s).2._ltaSigner = some ⟨none, false, []⟩ ∧
      (∀ c ∈ (beginSigningLTA env s).2.log, c ∈ s.log ∨
        c ∈ [Call.Seek 0, .Load, .CreateField "Signature2", .SetFlags "Signature2" 132,
          .AddSigner .ltaCtx, .StartSigning .ltaCtx .noMetadataUpdate]) ∧
      ∀ (ComputeHash : ComputeHashFunction) (fileContent : StreamDevice → Bytes)
          (appended : Bytes),
        PdfDocTimeStampSigner.FetchIntermediateResult ComputeHash fileContent
            { (⟨none, false, []⟩ : PdfDocTimeStampSigner) with m_hashBuffer := appended } =
          .value (ComputeHash appended .SHA256) := by
  obtain ⟨h1, h2⟩ := beginSigningLTA_ok env s r h
  refine ⟨h1, ?_, fun _ _ _ => rfl⟩
  intro c hc
  rw [h2] at hc
  exact List.mem_append.mp hc

set_option maxRecDepth 100000 in
/-- Witness of C23: the example session after `finishSigning`. -/
theorem C23_witness :
    ltaStartedSession._ltaSigner = some ⟨none, false, []⟩ :=
  (C23_LTA_signer_has_no_device exampleEnv
    (finishSigning exampleEnv tinySignedHash (b64Encode grantedTsr) none
      (startedSession "ADES_B_LTA")).2 (b64Encode exampleDigest) (by decide)).1

theorem FlagsFrame_refl (field : String) (flags : Nat) (s : Session) :
    FlagsFrame field flags s s :=
  ⟨[], by simp, by simp⟩

theorem FlagsFrame_trans (field : String) (flags : Nat) (a b c : Session)
    (h1 : FlagsFrame field flags a b) (h2 : FlagsFrame field flags b c) :
    FlagsFrame field flags a c := by
  obtain ⟨c1, e1, n1⟩ := h1
  obtain ⟨c2, e2, n2⟩ := h2
  refine ⟨c1 ++ c2, by rw [e2, e1, List.append_assoc], ?_⟩
  intro f g hc
  rcases List.mem_append.mp hc with h | h
  · exact n1 f g h
  · exact n2 f g h

theorem FlagsFrame_call (field : String) (flags : Nat) (c : Call)
    (hc : ∀ f g, c = .SetFlags f g → f = field ∧ g = flags) (s : Session) :
    FlagsFrame field flags s { s with log := s.log ++ [c] } :=
  ⟨[c], rfl, fun f g h => hc f g (List.mem_singleton.mp h).symm⟩

theorem FlagsFrame_SetFlags (field : String) (flags : Nat) (s : Session) :
    FlagsFrame field flags s { s with log := s.log ++ [.SetFlags field flags] } :=
  FlagsFrame_call field flags _ (fun f g h => by cases h; exact ⟨rfl, rfl⟩) s

theorem FlagsFrame_of_log (field : String) (flags : Nat) (s t : Session) (h : t.log = s.log) :
    FlagsFrame field flags s t :=
  ⟨[], by simp [h], by simp⟩

theorem beginSigningLTA_flags (env : Env) :
    Keeps (FlagsFrame "Signature2" 132) (beginSigningLTA env) := by
  unfold beginSigningLTA
  refine Keeps_tryCatchRethrow ?_ (fun s t h => h)
  unfold beginSigningLTATry prepareLta encodeDigestLTA
  repeat' first
    | exact Keeps.getSession (FlagsFrame_refl _ _)
    | exact Keeps.liftExcept (FlagsFrame_refl _ _) _
    | exact Keeps.pure (FlagsFrame_refl _ _) _
    | exact Keeps.raise (FlagsFrame_refl _ _) _
    | exact Keeps.call env (.SetFlags "Signature2" 132) (FlagsFrame_SetFlags _ _)
    | exact Keeps.call env _ (fun t => FlagsFrame_call _ _ _ (fun _ _ h => Call.noConfusion h) t)
    | exact Keeps.update _ (fun t => FlagsFrame_of_log _ _ t _ rfl)
    | apply Keeps.ite
    | apply Keeps.bind (FlagsFrame_trans _ _)
    | intro _

theorem beginSigning_flags (env : Env) :
    Keeps (FlagsFrame "Signature" invisibleHidden) (beginSigning env) := by
  unfold beginSigning
  refine Keeps_tryCatchRethrow ?_ (fun s t h => h)
  unfold beginSigningTry prepareDocument selectSignatureType selectHashing registerSigner
    ctxStartSigning encodeDigest
  repeat' first
    | exact Keeps.getSession (FlagsFrame_refl _ _)
    | exact Keeps.liftExcept (FlagsFrame_refl _ _) _
    | exact Keeps.pure (FlagsFrame_refl _ _) _
    | exact Keeps.raise (FlagsFrame_refl _ _) _
    | exact Keeps.call env (.SetFlags "Signature" invisibleHidden) (FlagsFrame_SetFlags _ _)
    | exact Keeps.call env _ (fun t => FlagsFrame_call _ _ _ (fun _ _ h => Call.noConfusion h) t)
    | exact Keeps.update _ (fun t => FlagsFrame_of_log _ _ t _ rfl)
    | apply Keeps.ite
    | apply Keeps.bind (FlagsFrame_trans _ _)
    | intro _

theorem beginSigning_ok_log (env : Env) (s : Session) (r : Bytes)
    (h : (beginSigning env s).1 = .ok r) :
    Call.SetFlags "Signature" invisibleHidden ∈ (beginSigning env s).2.log := by
  have htry : (beginSigningTry env s).1 = .ok r := by
    rwa [beginSigning, tryCatchRethrow_fst] at h
  rw [beginSigning_log]
  obtain ⟨calls, hcalls, -⟩ := beginSigning_signer_params env s
  rw [beginSigning_log] at hcalls
  unfold beginSigningTry at htry
  obtain ⟨ok1, -⟩ := bind_ok_inv htry
  have hprep := prepareDocument_ok env s ok1
  have hmono : ∀ c ∈ (prepareDocument env s).2.log, c ∈ (beginSigningTry env s).2.log := by
    rcases beginSigningTry_cases env s with ⟨e, -, h1⟩ | ⟨-, -, h1⟩ | ⟨t, -, -, -, h1⟩ |
      ⟨t, hh, -, -, -, hrun⟩
    · intro c hc
      rw [h1]
      exact hc
    · intro c hc
      rw [h1]
      exact hc
    · intro c hc
      rw [h1]
      exact hc
    · intro c hc
      rw [hrun]
      have k1 := registerSigner_params env { (prepareDocument env s).2 with _cmsParams := ⟨t, hh⟩ }
      have hk : Keeps (SignerParamsFrame ⟨t, hh⟩)
          (ctxStartSigning env >>= fun _ => encodeDigest) :=
        Keeps.bind (SignerParamsFrame_trans _) (ctxStartSigning_params env _)
          (fun _ => encodeDigest_params _)
      rcases seq_cases (registerSigner env)
          (fun _ => ctxStartSigning env >>= fun _ => encodeDigest)
          { (prepareDocument env s).2 with _cmsParams := ⟨t, hh⟩ } with ⟨_, e1⟩ | ⟨e, _, e1⟩
      · rw [e1]
        obtain ⟨c1, l1, -⟩ := SignerParamsFrame_trans _ _ _ _ k1 (hk _)
        rw [l1]
        exact List.mem_append_left _ hc
      · rw [e1]
        obtain ⟨c1, l1, -⟩ := k1
        rw [l1]
        exact List.mem_append_left _ hc
  apply hmono
  rw [hprep]
  simp

/-- C24: every `SetFlags` call of `beginSigningLTA` gives the widget of
`Signature2` the flags 132, and a `beginSigningLTA` that returns has made
the call; every `SetFlags` call of `beginSigning` gives the widget of
`Signature` the flags `Invisible | Hidden`, which is 3, and a `beginSigning`
that returns has made the call. In 132, which is 4 + 128, neither bit 1
(`Invisible`) nor bit 2 (`Hidden`) is set. -/
theorem C24_Signature2_flags_are_132 (env : Env) (s : Session) :
    (∃ calls, (beginSigningLTA env s).2.log = s.log ++ calls ∧
        ∀ f g, Call.SetFlags f g ∈ calls → f = "Signature2" ∧ g = 132) ∧
      (∀ r, (beginSigningLTA env s).1 = .ok r →
        Call.SetFlags "Signature2" 132 ∈ (beginSigningLTA env s).2.log) ∧
      (∃ calls, (beginSigning env s).2.log = s.log ++ calls ∧
        ∀ f g, Call.SetFlags f g ∈ calls → f = "Signature" ∧ g = 3) ∧
      (∀ r, (beginSigning env s).1 = .ok r →
        Call.SetFlags "Signature" 3 ∈ (beginSigning env s).2.log) ∧
      invisibleHidden = 3 ∧ (132 : Nat) = 4 + 128 ∧
      Nat.testBit 132 0 = false ∧ Nat.testBit 132 1 = false := by
  refine ⟨beginSigningLTA_flags env s, ?_, beginSigning_flags env s,
    fun r h => beginSigning_ok_log env s r h, rfl, rfl, by decide, by decide⟩
  intro r h
  rw [(beginSigningLTA_ok env s r h).2]
  simp

set_option maxRecDepth 100000 in
/-- Witness of C24: the example run of `beginSigning` at `ADES_B_LTA`, and
`beginSigningLTA` after a `finishSigning` with the response `rejectedTsr`. -/
theorem C24_witness :
    Call.SetFlags "Signature2" 132 ∈
        (beginSigningLTA exampleEnv
          (finishSigning exampleEnv tinySignedHash (b64Encode rejectedTsr) none
            (startedSession "ADES_B_LTA")).2).2.log ∧
      Call.SetFlags "Signature" 3 ∈ (startedSession "ADES_B_LTA").log :=
  ⟨(C24_Signature2_flags_are_132 exampleEnv
      (finishSigning exampleEnv tinySignedHash (b64Encode rejectedTsr) none
        (startedSession "ADES_B_LTA")).2).2.1 (b64Encode exampleDigest) (by decide),
    (C24_Signature2_flags_are_132 exampleEnv (exampleSession "ADES_B_LTA")).2.2.2.1
      (UrlEncode (b64Encode exampleDigest)) (by decide)⟩

/-! ## `UrlEncode` -/

theorem isUpperHex_upperHexDigit (n : Nat) (h : n < 16) :
    isUpperHex (upperHexDigit n) = true := by
  interval_cases n <;> rfl

theorem hexVal_upperHexDigit (n : Nat) (h : n < 16) : hexVal (upperHexDigit n) = some n := by
  interval_cases n <;> rfl

theorem unreserved_ne_percent (c : Byte) (h : unreserved c = true) : c.val ≠ 37 := by
  intro h37
  have hc : c = (37 : Fin 256) := Fin.ext h37
  rw [hc] at h
  exact absurd h (by decide)

theorem UrlEncode_cons_unreserved (c : Byte) (rest : Bytes) (h : unreserved c = true) :
    UrlEncode (c :: rest) = c :: UrlEncode rest := by
  unfold unreserved at h
  rw [UrlEncode, if_pos h]

theorem UrlEncode_cons_escaped (c : Byte) (rest : Bytes) (h : unreserved c = false) :
    UrlEncode (c :: rest) =
      toByte 37 :: upperHexDigit (c.val / 16) :: upperHexDigit (c.val % 16) :: UrlEncode rest := by
  unfold unreserved at h
  rw [UrlEncode, if_neg (Bool.eq_false_iff.mp h)]

theorem UrlEncode_encoded (s : Bytes) : UrlEncoded (UrlEncode s) := by
  induction s with
  | nil => exact UrlEncoded.nil
  | cons c rest ih =>
      have hc := c.isLt
      cases h : unreserved c with
      | true =>
          rw [UrlEncode_cons_unreserved c rest h]
          exact UrlEncoded.copy c _ h ih
      | false =>
          rw [UrlEncode_cons_escaped c rest h]
          exact UrlEncoded.escape _ _ _ (isUpperHex_upperHexDigit _ (by omega))
            (isUpperHex_upperHexDigit _ (by omega)) ih

theorem UrlEncode_flatMap (s : Bytes) :
    UrlEncode s = s.flatMap (fun c =>
      if unreserved c then [c]
      else [toByte 37, upperHexDigit (c.val / 16), upperHexDigit (c.val % 16)]) := by
  induction s with
  | nil => rfl
  | cons c rest ih =>
      rw [List.flatMap_cons, ← ih]
      cases h : unreserved c with
      | true => rw [UrlEncode_cons_unreserved c rest h]; rfl
      | false => rw [UrlEncode_cons_escaped c rest h]; rfl

theorem percentDecode_UrlEncode (s : Bytes) : percentDecode (UrlEncode s) = some s := by
  unfold percentDecode
  induction s with
  | nil => rfl
  | cons c rest ih =>
      have hc := c.isLt
      cases h : unreserved c with
      | true =>
          rw [UrlEncode_cons_unreserved c rest h]
          simp only [percentDecodeFrom, if_neg (unreserved_ne_percent c h), ih, Option.map_some']
      | false =>
          rw [UrlEncode_cons_escaped c rest h]
          have h37 : (toByte 37).val = 37 := rfl
          simp only [percentDecodeFrom, h37, if_true, hexVal_upperHexDigit (c.val / 16) (by omega),
            hexVal_upperHexDigit (c.val % 16) (by omega), ih, Option.map_some']
          rw [toByte_eq c _ (by omega)]

theorem UrlEncode_cons_base64 (c : Byte) (rest : Bytes)
    (h : (b64Val c).isSome = true ∨ c = b64Pad) :
    UrlEncode (c :: rest) = escapeBase64 c ++ UrlEncode rest := by
  by_cases h43 : c.val = 43
  · have hc : c = (43 : Fin 256) := Fin.ext h43
    subst hc
    rfl
  by_cases h47 : c.val = 47
  · have hc : c = (47 : Fin 256) := Fin.ext h47
    subst hc
    rfl
  by_cases h61 : c.val = 61
  · have hc : c = (61 : Fin 256) := Fin.ext h61
    subst hc
    rfl
  have hu : unreserved c = true := by
    rcases h with h | h
    · unfold b64Val at h
      unfold unreserved isalnum
      split_ifs at h
      all_goals first
        | (simp only [Bool.or_eq_true, Bool.and_eq_true, decide_eq_true_eq, beq_iff_eq]; omega)
        | cases h
    · exfalso
      apply h61
      rw [h]
      rfl
  rw [UrlEncode_cons_unreserved c rest hu]
  unfold escapeBase64
  rw [if_neg h43, if_neg h47, if_neg h61]
  rfl

theorem b64Encode_alphabet (d : Bytes) :
    ∀ c ∈ b64Encode d, (b64Val c).isSome = true ∨ c = b64Pad := by
  induction d using b64Encode.induct with
  | case1 a b c rest ih =>
      have ha := a.isLt
      have hb := b.isLt
      have hc := c.isLt
      intro x hx
      rw [b64Encode] at hx
      simp only [List.mem_cons] at hx
      rcases hx with rfl | rfl | rfl | rfl | hx
      · left; rw [b64Val_b64Char _ (by omega)]; rfl
      · left; rw [b64Val_b64Char _ (by omega)]; rfl
      · left; rw [b64Val_b64Char _ (by omega)]; rfl
      · left; rw [b64Val_b64Char _ (by omega)]; rfl
      · exact ih x hx
  | case2 a b =>
      have ha := a.isLt
      have hb := b.isLt
      intro x hx
      rw [b64Encode] at hx
      simp only [List.mem_cons, List.mem_singleton, List.not_mem_nil, or_false] at hx
      rcases hx with rfl | rfl | rfl | rfl
      · left; rw [b64Val_b64Char _ (by omega)]; rfl
      · left; rw [b64Val_b64Char _ (by omega)]; rfl
      · left; rw [b64Val_b64Char _ (by omega)]; rfl
      · right; rfl
  | case3 a =>
      have ha := a.isLt
      intro x hx
      rw [b64Encode] at hx
      simp only [List.mem_cons, List.mem_singleton, List.not_mem_nil, or_false] at hx
      rcases hx with rfl | rfl | rfl | rfl
      · left; rw [b64Val_b64Char _ (by omega)]; rfl
      · left; rw [b64Val_b64Char _ (by omega)]; rfl
      · right; rfl
      · right; rfl
  | case4 =>
      intro x hx
      simp [b64Encode] at hx

theorem UrlEncode_base64 (s : Bytes) (h : ∀ c ∈ s, (b64Val c).isSome = true ∨ c = b64Pad) :
    UrlEncode s = s.flatMap escapeBase64 := by
  induction s with
  | nil => rfl
  | cons c rest ih =>
      rw [UrlEncode_cons_base64 c rest (h c (List.mem_cons_self _ _)), List.flatMap_cons,
        ih (fun x hx => h x (List.mem_cons_of_mem _ hx))]

/-- C30: for every byte string `s`, `UrlEncode s` is made of unreserved
characters (letters, digits, `-`, `_`, `.`, `~`) and of escapes, a `%`
followed by two upper-case hexadecimal digits; every unreserved byte of `s`
is copied and every other byte written as the escape of its value;
percent-decoding `UrlEncode s` gives `s` back; and in the base64 text of any
data exactly `+`, `/` and `=` are rewritten, to `%2B`, `%2F` and `%3D`. -/
theorem C30_UrlEncode_inverted_by_percent_decoding (s : Bytes) :
    UrlEncoded (UrlEncode s) ∧
      UrlEncode s = s.flatMap (fun c =>
        if unreserved c then [c]
        else [toByte 37, upperHexDigit (c.val / 16), upperHexDigit (c.val % 16)]) ∧
      percentDecode (UrlEncode s) = some s ∧
      UrlEncode (b64Encode s) = (b64Encode s).flatMap escapeBase64 :=
  ⟨UrlEncode_encoded s, UrlEncode_flatMap s, percentDecode_UrlEncode s,
    UrlEncode_base64 _ (b64Encode_alphabet s)⟩

/-! ## The CRL address and the length of the decoded input -/

theorem crlUrlOfNames_eq (names : List GENERAL_NAME) :
    crlUrlOfNames names = firstNonEmptyUri names := by
  induction names with
  | nil => rfl
  | cons gen_name rest ih =>
      cases gen_name with
      | other =>
          rw [crlUrlOfNames, ih]
          rfl
      | GEN_URI uri =>
          rw [crlUrlOfNames, ih]
          unfold firstNonEmptyUri
          rw [List.findSome?_cons]
          cases uri <;> simp

theorem firstNonEmptyUri_append (a b : List GENERAL_NAME) :
    firstNonEmptyUri (a ++ b) =
      match firstNonEmptyUri a with
      | some url => some url
      | none => firstNonEmptyUri b := by
  unfold firstNonEmptyUri
  induction a with
  | nil => rfl
  | cons x xs ih =>
      rw [List.cons_append, List.findSome?_cons, List.findSome?_cons]
      split
      · rfl
      · exact ih

theorem crlUrlOfPoints_eq (points : List DIST_POINT) :
    crlUrlOfPoints points = firstNonEmptyUri (fullNames points) := by
  induction points with
  | nil => rfl
  | cons dp rest ih =>
      obtain ⟨distpoint⟩ := dp
      cases distpoint with
      | none =>
          rw [crlUrlOfPoints, ih]
          rfl
      | some name =>
          cases name with
          | relativename =>
              rw [crlUrlOfPoints, ih]
              rfl
          | fullname names =>
              have e : fullNames (⟨some (.fullname names)⟩ :: rest) = names ++ fullNames rest := by
                unfold fullNames
                rw [List.flatMap_cons]
              rw [e, firstNonEmptyUri_append]
              simp only [crlUrlOfPoints, crlUrlOfNames_eq, ih]

theorem firstNonEmptyUri_of_firstUri (names : List GENERAL_NAME) (url : Bytes)
    (h : firstUri names = some url) (hne : url ≠ []) : firstNonEmptyUri names = some url := by
  unfold firstUri at h
  unfold firstNonEmptyUri
  induction names with
  | nil => cases h
  | cons gen_name rest ih =>
      rw [List.findSome?_cons] at h ⊢
      cases gen_name with
      | other => exact ih h
      | GEN_URI uri =>
          simp only [Option.some.injEq] at h
          subst h
          simp only [if_neg hne]

theorem certificateOfDecoded_token (env : Env) (decoded : Bytes) (reason : String)
    (ts_resp : TS_RESP) (cert : X509)
    (hx : env.d2i_X509 decoded = .error reason)
    (hts : env.d2i_TS_RESP decoded = some ts_resp)
    (hc : firstTokenCertificate ts_resp = some cert) :
    certificateOfDecoded env decoded = .ok cert := by
  unfold certificateOfDecoded
  rw [hx]
  simp only [hts]
  unfold firstTokenCertificate at hc
  cases htok : ts_resp.token with
  | none => rw [htok] at hc; cases hc
  | some pkcs7 =>
      rw [htok] at hc
      simp only [Option.bind] at hc ⊢
      cases hs : pkcs7.sign with
      | none => rw [hs] at hc; cases hc
      | some sign =>
          rw [hs] at hc
          simp only at hc ⊢
          cases hcs : sign.cert with
          | none => rw [hcs] at hc; cases hc
          | some certs =>
              rw [hcs] at hc
              simp only at hc ⊢
              cases certs with
              | nil => cases hc
              | cons c0 rest =>
                  simp only [List.getElem?_cons_zero, Option.some.injEq] at hc
                  subst hc
                  simp

/-- C25, amended: let the base64 text decode to at least 50 bytes that `d2i_X509`
reads as a certificate, or that it does not but `d2i_TS_RESP` reads as a
response whose signed token has a certificate at index 0; let this
certificate have a subject and an issuer name and a CRL Distribution Points
extension. Then `getCrlFromCertificate` returns the first URI that is not
empty among the general names of the points with a full name, in the order of
the points and of the names within a point, and throws when there is none;
in particular it returns the first URI among these names when that is not
empty. -/
theorem C25_first_URI_of_the_full_names (env : Env) (base64Cert decoded : Bytes)
    (reason : String) (ts_resp : TS_RESP) (cert : X509) (points : List DIST_POINT)
    (hdecode : base64_decode base64Cert = .ok decoded)
    (hlength : 50 ≤ decoded.length)
    (hcert : env.d2i_X509 decoded = .ok cert ∨
      (env.d2i_X509 decoded = .error reason ∧ env.d2i_TS_RESP decoded = some ts_resp ∧
        firstTokenCertificate ts_resp = some cert))
    (hsubject : cert.subject_name.isSome = true) (hissuer : cert.issuer_name.isSome = true)
    (hpoints : cert.crl_distribution_points = some points) :
    getCrlFromCertificate env base64Cert =
        (match firstNonEmptyUri (fullNames points) with
          | some url => .ok url
          | none =>
              .error (.runtime_error "No CRL distribution point URL found in certificate.")) ∧
      ∀ url, firstUri (fullNames points) = some url → url ≠ [] →
        getCrlFromCertificate env base64Cert = .ok url := by
  have hc : certificateOfDecoded env decoded = .ok cert := by
    rcases hcert with h | ⟨h1, h2, h3⟩
    · unfold certificateOfDecoded
      rw [h]
    · exact certificateOfDecoded_token env decoded reason ts_resp cert h1 h2 h3
  have hmain : getCrlFromCertificate env base64Cert =
      (match firstNonEmptyUri (fullNames points) with
        | some url => .ok url
        | none =>
            .error (.runtime_error "No CRL distribution point URL found in certificate.")) := by
    unfold getCrlFromCertificate
    rw [hdecode]
    simp only
    rw [if_neg (by omega), hc]
    simp only
    unfold crlUrlOfCertificate
    have hn : ¬ ((cert.subject_name.isNone || cert.issuer_name.isNone) = true) := by
      cases h1 : cert.subject_name with
      | none => rw [h1] at hsubject; cases hsubject
      | some a =>
          cases h2 : cert.issuer_name with
          | none => rw [h2] at hissuer; cases hissuer
          | some b => simp
    rw [if_neg hn, hpoints]
    simp only [Option.bind]
    rw [crlUrlOfPoints_eq]
  refine ⟨hmain, ?_⟩
  intro url hu hne
  rw [hmain, firstNonEmptyUri_of_firstUri _ url hu hne]

set_option maxRecDepth 100000 in
/-- Witness of C25: a response whose token holds the certificate of the
example authority, and the certificate itself. The first URI among the full
names is `http://ca.example/tsa.crl`, behind a point without a name, a point
with a relative name and a name that is not a URI. -/
theorem C25_witness :
    getCrlFromCertificate crlEnv (b64Encode longCertificateTsr) =
        .ok (ascii "http://ca.example/tsa.crl") ∧
      getCrlFromCertificate { crlEnv with d2i_X509 := fun _ => .ok tsaCertificate }
          (b64Encode longCertificateTsr) = .ok (ascii "http://ca.example/tsa.crl") :=
  ⟨(C25_first_URI_of_the_full_names crlEnv (b64Encode longCertificateTsr) longCertificateTsr
      "wrong tag" ⟨some ⟨some 0⟩, some ⟨[0x30, 0x01, 0x04].map toByte, some ⟨some [tsaCertificate]⟩⟩⟩
      tsaCertificate _ (by decide) (by decide) (Or.inr ⟨by decide, by decide, by decide⟩)
      (by decide) (by decide) rfl).2 (ascii "http://ca.example/tsa.crl") (by decide) (by decide),
    (C25_first_URI_of_the_full_names { crlEnv with d2i_X509 := fun _ => .ok tsaCertificate }
      (b64Encode longCertificateTsr) longCertificateTsr
      "" ⟨none, none⟩ tsaCertificate _ (by decide) (by decide) (Or.inl rfl)
      (by decide) (by decide) rfl).2 (ascii "http://ca.example/tsa.crl") (by decide) (by decide)⟩

set_option maxRecDepth 100000 in
/-- C26: `DecodeBase64Tsr` has no test on the length of the decoded input. The
base64 text `MAUwAwIBAg==` decodes to the seven bytes `30 05 30 03 02 01 02`,
a `TimeStampResp` with status 2 and no token: `DecodeBase64Tsr` returns the
seven bytes, while `getCrlFromCertificate` rejects the same text as too
small. -/
theorem C26_DecodeBase64Tsr_accepts_seven_bytes :
    b64Decode (ascii "MAUwAwIBAg==") = some rejectedTsr ∧ rejectedTsr.length = 7 ∧
      exampleEnv.d2i_TS_RESP rejectedTsr = some ⟨some ⟨some 2⟩, none⟩ ∧
      DecodeBase64Tsr exampleEnv (ascii "MAUwAwIBAg==") = .ok rejectedTsr ∧
      getCrlFromCertificate exampleEnv (ascii "MAUwAwIBAg==") =
        .error (.runtime_error "Decoded data too small to be valid X.509 or timestamp.") := by
  decide

/-! ## The fetcher of `extractIssuerCertFromTSRWithFallback` -/

theorem tokenCertificates_errors (env : Env) (base64Tsr : Bytes) (e : Error)
    (h : tokenCertificates env base64Tsr = .error e) :
    e = .runtime_error "Base64 decode failed" ∨
      e = .runtime_error "Failed to parse TS_RESP from DER." ∨
      e = .runtime_error "TSR does not contain a PKCS7 token." ∨
      e = .nullDereference "pkcs7->d.sign" := by
  unfold tokenCertificates at h
  cases hc : ConvertBase64PEMtoDER base64Tsr with
  | error e1 =>
      rw [hc] at h
      simp only [Except.error.injEq] at h
      subst h
      unfold ConvertBase64PEMtoDER at hc
      split_ifs at hc
      cases hb : bioReadBase64 base64Tsr (base64Tsr.length * 3 / 4) with
      | none =>
          rw [hb] at hc
          simp only [Except.error.injEq] at hc
          exact Or.inl hc.symm
      | some der => rw [hb] at hc; cases hc
  | ok tsr_der =>
      rw [hc] at h
      simp only at h
      cases hp : env.d2i_TS_RESP tsr_der with
      | none =>
          rw [hp] at h
          simp only [Except.error.injEq] at h
          exact Or.inr (Or.inl h.symm)
      | some ts_resp =>
          rw [hp] at h
          simp only at h
          cases ht : ts_resp.token with
          | none =>
              rw [ht] at h
              simp only [Except.error.injEq] at h
              exact Or.inr (Or.inr (Or.inl h.symm))
          | some pkcs7 =>
              rw [ht] at h
              simp only at h
              cases hs : pkcs7.sign with
              | none =>
                  rw [hs] at h
                  simp only [Except.error.injEq] at h
                  exact Or.inr (Or.inr (Or.inr h.symm))
              | some sign => rw [hs] at h; cases h

theorem extractIssuerCertFromTSR_errors (env : Env) (base64Tsr : Bytes) (e : Error)
    (h : extractIssuerCertFromTSR env base64Tsr = .error e) :
    e = .runtime_error "Base64 decode failed" ∨
      e = .runtime_error "Failed to parse TS_RESP from DER." ∨
      e = .runtime_error "TSR does not contain a PKCS7 token." ∨
      e = .nullDereference "pkcs7->d.sign" ∨
      e = .runtime_error "TSR does not contain enough certificates to find issuer." ∨
      e = .runtime_error "Could not get issuer certificate from TSR." ∨
      e = .runtime_error "Failed to get length of DER for issuer cert." ∨
      e = .runtime_error "BIO_write/flush failed" := by
  unfold extractIssuerCertFromTSR at h
  cases hc : tokenCertificates env base64Tsr with
  | error e1 =>
      rw [hc] at h
      simp only [Except.error.injEq] at h
      subst h
      rcases tokenCertificates_errors env base64Tsr _ hc with h1 | h1 | h1 | h1 <;> simp [h1]
  | ok certs =>
      rw [hc] at h
      cases certs with
      | none =>
          simp only [Except.error.injEq] at h
          simp [← h]
      | some certs =>
          simp only at h
          split_ifs at h
          · simp only [Except.error.injEq] at h
            simp [← h]
          · cases h1 : certs[1]? with
            | none =>
                rw [h1] at h
                simp only [Except.error.injEq] at h
                simp [← h]
            | some issuerCert =>
                rw [h1] at h
                simp only at h
                unfold certificateToBase64 ToBase64 at h
                split_ifs at h
                · simp only [Except.error.injEq] at h
                  rw [← h]
                  right; right; right; right; right; right; left
                  rfl

/-- C28: where `extractIssuerCertFromTSR` returns, the variant with the
fallback returns the same value, whatever the fetcher, and does not call it;
where it throws anything but the `std::runtime_error` for a token with fewer
than two certificates, the variant throws the same and does not call the
fetcher; so the fetcher is called only after that one error. -/
theorem C28_fetcher_only_on_insufficient_certificates (env : Env) (base64Tsr : Bytes)
    (httpFetcher : HttpFetcher) :
    (∀ issuer, extractIssuerCertFromTSR env base64Tsr = .ok issuer →
        extractIssuerCertFromTSRWithFallback env base64Tsr httpFetcher = (.ok issuer, [])) ∧
      (∀ e, extractIssuerCertFromTSR env base64Tsr = .error e →
        e ≠ .runtime_error "TSR does not contain enough certificates to find issuer." →
        extractIssuerCertFromTSRWithFallback env base64Tsr httpFetcher = (.error e, [])) ∧
      ((extractIssuerCertFromTSRWithFallback env base64Tsr httpFetcher).2 ≠ [] →
        extractIssuerCertFromTSR env base64Tsr =
          .error (.runtime_error "TSR does not contain enough certificates to find issuer.")) := by
  have h2 : ∀ e, extractIssuerCertFromTSR env base64Tsr = .error e →
      e ≠ .runtime_error "TSR does not contain enough certificates to find issuer." →
      extractIssuerCertFromTSRWithFallback env base64Tsr httpFetcher = (.error e, []) := by
    intro e h hne
    have hm := extractIssuerCertFromTSR_errors env base64Tsr e h
    unfold extractIssuerCertFromTSRWithFallback
    rw [h]
    rcases hm with rfl | rfl | rfl | rfl | rfl | rfl | rfl | rfl
    · simp only []
      rw [if_neg (by decide)]
    · simp only []
      rw [if_neg (by decide)]
    · simp only []
      rw [if_neg (by decide)]
    · rfl
    · exact absurd rfl hne
    · simp only []
      rw [if_neg (by decide)]
    · simp only []
      rw [if_neg (by decide)]
    · simp only []
      rw [if_neg (by decide)]
  refine ⟨?_, h2, ?_⟩
  · intro issuer h
    unfold extractIssuerCertFromTSRWithFallback
    rw [h]
  · intro hcalled
    cases h : extractIssuerCertFromTSR env base64Tsr with
    | ok issuer =>
        exfalso
        apply hcalled
        unfold extractIssuerCertFromTSRWithFallback
        rw [h]
    | error e =>
        by_cases he : e = .runtime_error "TSR does not contain enough certificates to find issuer."
        · rw [he]
        · exfalso
          apply hcalled
          rw [h2 e h he]

set_option maxRecDepth 100000 in
/-- Witness of C28: a response with two certificates, where the issuer is
read from the token, and a rejected response, which has no token; neither
calls the fetcher. -/
theorem C28_witness :
    extractIssuerCertFromTSRWithFallback tsaEnv (b64Encode twoCertificateTsr) fixedFetcher =
        (.ok (b64Encode tsaIssuerCertificate.der), []) ∧
      extractIssuerCertFromTSRWithFallback tsaEnv (b64Encode rejectedTsr) fixedFetcher =
        (.error (.runtime_error "TSR does not contain a PKCS7 token."), []) :=
  ⟨(C28_fetcher_only_on_insufficient_certificates tsaEnv (b64Encode twoCertificateTsr)
      fixedFetcher).1 _ (by decide),
    (C28_fetcher_only_on_insufficient_certificates tsaEnv (b64Encode rejectedTsr)
      fixedFetcher).2.1 _ (by decide) (by decide)⟩

/-! ## Entries of the DSS dictionary that are no arrays -/

theorem addToDssArray_notArray (dss : PdfReference) (key : String) (L : List Bytes)
    (f : PdfMemDocument → Bytes → Except Error PdfReference × PdfMemDocument)
    (doc : PdfMemDocument) (entry : PdfVariant)
    (hobj : ∃ dict st, PdfIndirectObjectList.GetObject doc.objects dss = some (.dictionary dict st))
    (hent : dssEntry doc dss key = some entry) (hno : NotAnArray doc.objects entry) :
    ∃ e, addToDssArray dss key L f doc = (.error e, doc) := by
  obtain ⟨dict, st, hobj⟩ := hobj
  rw [dssEntry_of_dictionary doc dss dict st hobj] at hent
  unfold addToDssArray
  rw [hobj]
  simp only [hent]
  cases entry with
  | direct t => exact ⟨_, rfl⟩
  | reference r =>
      simp only [PdfVariant.GetReference]
      cases ho : PdfIndirectObjectList.GetObject doc.objects r with
      | none => exact ⟨_, rfl⟩
      | some o =>
          cases o with
          | array items => exact absurd ho (hno items)
          | dictionary d s => exact ⟨_, rfl⟩
          | other => exact ⟨_, rfl⟩

theorem addIfNonEmpty_notArray (dss : PdfReference) (key : String) (L : List Bytes)
    (f : PdfMemDocument → Bytes → Except Error PdfReference × PdfMemDocument)
    (doc : PdfMemDocument) (entry : PdfVariant) (hL : L ≠ [])
    (hobj : ∃ dict st, PdfIndirectObjectList.GetObject doc.objects dss = some (.dictionary dict st))
    (hent : dssEntry doc dss key = some entry) (hno : NotAnArray doc.objects entry) :
    ∃ e, addIfNonEmpty dss key L f doc = (.error e, doc) := by
  unfold addIfNonEmpty
  have : L.isEmpty = false := by
    cases L with
    | nil => exact absurd rfl hL
    | cons x xs => rfl
  rw [this]
  exact addToDssArray_notArray dss key L f doc entry hobj hent hno

theorem Effect.notArray {docA docB : PdfMemDocument} {dss : PdfReference} {key : String}
    {L : List Bytes} (E : Effect docA docB dss key L) (entry : PdfVariant)
    (hno : NotAnArray docA.objects entry) (hs : Resolves docA.objects entry ∨ L = []) :
    NotAnArray docB.objects entry ∧ (Resolves docA.objects entry → Resolves docB.objects entry) := by
  have hmono := fun r h => E.mono r h
  unfold Effect at E
  split_ifs at E with hL
  · rw [E]
    exact ⟨hno, fun h => h⟩
  · obtain ⟨a, refs, S⟩ := E
    rcases hs with hs | hs
    · cases entry with
      | direct t => exact ⟨trivial, fun _ => trivial⟩
      | reference r =>
          refine ⟨?_, fun h => hmono r h⟩
          intro items hB
          obtain ⟨-, ⟨old, hcase, -⟩, -, -, ⟨dictA, dictB, st, hdA, hdB⟩, -, hframe, -⟩ := S
          by_cases hrd : r = dss
          · subst hrd
            rw [hdB] at hB
            cases hB
          · by_cases hra : r = a
            · subst hra
              rcases hcase with ⟨-, h1⟩ | ⟨-, h2, -⟩
              · exact hno old h1
              · exact hs h2
            · rw [hframe r hra hrd hs] at hB
              exact hno items hB
    · exact absurd hs hL

theorem addAll_singleton (dss : PdfReference) (key : String) (data : List Bytes)
    (doc : PdfMemDocument) :
    addAll dss [(key, data)] doc = addToDssArray dss key data createCertificateStream doc := by
  unfold addAll
  rcases addToDssArray dss key data createCertificateStream doc with ⟨r, d⟩
  cases r <;> rfl

theorem addAll_cons (dss : PdfReference) (key : String) (data : List Bytes)
    (next : String × List Bytes) (rest : List (String × List Bytes)) (doc : PdfMemDocument) :
    addAll dss ((key, data) :: next :: rest) doc =
      match addToDssArray dss key data createCertificateStream doc with
      | (.error e, doc1) => (.error e, doc1)
      | (.ok _, doc1) => addAll dss (next :: rest) doc1 := rfl

theorem createOrUpdateDSSCatalog_addAll (doc : PdfMemDocument) (vd : ValidationData)
    (dss : PdfReference) (dict : PdfDictionary) (st : Option Bytes)
    (hkey : PdfDictionary.GetKey doc.catalog "DSS" = some (.reference dss))
    (hobj : PdfIndirectObjectList.GetObject doc.objects dss = some (.dictionary dict st)) :
    createOrUpdateDSSCatalog doc vd =
      addAll dss
        ([("Certs", vd.certificatesBase64), ("CRLs", vd.crlsBase64),
          ("OCSPs", vd.ocspsBase64)].filter (fun keyData => !keyData.2.isEmpty)) doc := by
  obtain ⟨certs, crls, ocsps⟩ := vd
  unfold createOrUpdateDSSCatalog
  rw [getOrCreateDss_reuse doc dss dict st hkey hobj]
  simp only [createCRLStream_eq, createOCSPStream_eq]
  cases certs <;> cases crls <;> cases ocsps <;>
    simp only [addIfNonEmpty, addAll_cons, addAll_singleton, List.filter, List.isEmpty_nil,
      List.isEmpty_cons, Bool.not_true, Bool.not_false, if_true, if_false, Bool.false_eq_true]
  all_goals try rfl
  all_goals repeat' split
  all_goals first | rfl | simp_all

/-- C29, amended: let the `/DSS` entry of the catalog refer to a dictionary object.
If the list for `Certs` is not empty and the entry under `/Certs` is a value
stored directly or a reference to anything but an array object, the call
throws. The same holds for `CRLs` and for `OCSPs`, where the entry either is
a direct value or refers to an object of the document, or the lists of the
keys written before are empty. The call is the sequence of the
`addToDssArray` calls for the keys whose list is not empty, in the order
`Certs`, `CRLs`, `OCSPs`: for a key with an empty list nothing is read or
written, whatever the entry under it. -/
theorem C29_entry_that_is_no_array_is_rejected (doc : PdfMemDocument) (vd : ValidationData)
    (dss : PdfReference) (dict : PdfDictionary) (st : Option Bytes)
    (hkey : PdfDictionary.GetKey doc.catalog "DSS" = some (.reference dss))
    (hobj : PdfIndirectObjectList.GetObject doc.objects dss = some (.dictionary dict st)) :
    (∀ entry, PdfDictionary.GetKey dict "Certs" = some entry →
        NotAnArray doc.objects entry → vd.certificatesBase64 ≠ [] →
        ∃ e, (createOrUpdateDSSCatalog doc vd).1 = .error e) ∧
      (∀ entry, PdfDictionary.GetKey dict "CRLs" = some entry →
        NotAnArray doc.objects entry →
        Resolves doc.objects entry ∨ vd.certificatesBase64 = [] →
        vd.crlsBase64 ≠ [] →
        ∃ e, (createOrUpdateDSSCatalog doc vd).1 = .error e) ∧
      (∀ entry, PdfDictionary.GetKey dict "OCSPs" = some entry →
        NotAnArray doc.objects entry →
        Resolves doc.objects entry ∨ (vd.certificatesBase64 = [] ∧ vd.crlsBase64 = []) →
        vd.ocspsBase64 ≠ [] →
        ∃ e, (createOrUpdateDSSCatalog doc vd).1 = .error e) ∧
      createOrUpdateDSSCatalog doc vd =
        addAll dss
          ([("Certs", vd.certificatesBase64), ("CRLs", vd.crlsBase64),
            ("OCSPs", vd.ocspsBase64)].filter (fun keyData => !keyData.2.isEmpty)) doc := by
  have I0 : ∃ dict st, PdfIndirectObjectList.GetObject doc.objects dss =
      some (.dictionary dict st) := ⟨dict, st, hobj⟩
  have hent := dssEntry_of_dictionary doc dss dict st hobj
  have hunfold : createOrUpdateDSSCatalog doc vd =
      match addIfNonEmpty dss "Certs" vd.certificatesBase64 createCertificateStream doc with
      | (.error e, doc1) => (.error e, doc1)
      | (.ok _, doc1) =>
          match addIfNonEmpty dss "CRLs" vd.crlsBase64 createCertificateStream doc1 with
          | (.error e, doc2) => (.error e, doc2)
          | (.ok _, doc2) =>
              addIfNonEmpty dss "OCSPs" vd.ocspsBase64 createCertificateStream doc2 := by
    unfold createOrUpdateDSSCatalog
    rw [getOrCreateDss_reuse doc dss dict st hkey hobj]
    rfl
  refine ⟨?_, ?_, ?_, createOrUpdateDSSCatalog_addAll doc vd dss dict st hkey hobj⟩
  · intro entry he hno hL
    obtain ⟨e, h1⟩ := addIfNonEmpty_notArray dss "Certs" vd.certificatesBase64
      createCertificateStream doc entry hL I0 (by rw [hent]; exact he) hno
    rw [hunfold, h1]
    exact ⟨e, rfl⟩
  · intro entry he hno hs hL
    rw [hunfold]
    rcases h1 : addIfNonEmpty dss "Certs" vd.certificatesBase64 createCertificateStream doc with
      ⟨r1, d1⟩
    cases r1 with
    | error e => exact ⟨e, rfl⟩
    | ok u1 =>
        have E1 := addIfNonEmpty_effect dss "Certs" vd.certificatesBase64 doc d1 h1
        have hno1 := (E1.notArray entry hno hs).1
        have he1 : dssEntry d1 dss "CRLs" = some entry := by
          rw [E1.entry "CRLs" (by decide), hent]
          exact he
        obtain ⟨e, h2⟩ := addIfNonEmpty_notArray dss "CRLs" vd.crlsBase64
          createCertificateStream d1 entry hL (E1.dictionary I0) he1 hno1
        simp only [h2]
        exact ⟨e, rfl⟩
  · intro entry he hno hs hL
    rw [hunfold]
    rcases h1 : addIfNonEmpty dss "Certs" vd.certificatesBase64 createCertificateStream doc with
      ⟨r1, d1⟩
    cases r1 with
    | error e => exact ⟨e, rfl⟩
    | ok u1 =>
        simp only
        rcases h2 : addIfNonEmpty dss "CRLs" vd.crlsBase64 createCertificateStream d1 with
          ⟨r2, d2⟩
        cases r2 with
        | error e => exact ⟨e, rfl⟩
        | ok u2 =>
            have E1 := addIfNonEmpty_effect dss "Certs" vd.certificatesBase64 doc d1 h1
            have E2 := addIfNonEmpty_effect dss "CRLs" vd.crlsBase64 d1 d2 h2
            have s1 : Resolves doc.objects entry ∨ vd.certificatesBase64 = [] := by
              rcases hs with h | h
              · exact Or.inl h
              · exact Or.inr h.1
            obtain ⟨hno1, hres1⟩ := E1.notArray entry hno s1
            have s2 : Resolves d1.objects entry ∨ vd.crlsBase64 = [] := by
              rcases hs with h | h
              · exact Or.inl (hres1 h)
              · exact Or.inr h.2
            have hno2 := (E2.notArray entry hno1 s2).1
            have he2 : dssEntry d2 dss "OCSPs" = some entry := by
              rw [E2.entry "OCSPs" (by decide), E1.entry "OCSPs" (by decide), hent]
              exact he
            obtain ⟨e, h3⟩ := addIfNonEmpty_notArray dss "OCSPs" vd.ocspsBase64
              createCertificateStream d2 entry hL (E2.dictionary (E1.dictionary I0)) he2 hno2
            simp only [h3]
            exact ⟨e, rfl⟩

set_option maxRecDepth 100000 in
/-- Witness of C29: in `brokenDssDocument` the entry under `/CRLs` refers to
an object that is no array and the entry under `/Certs` is no reference. A
call with one CRL and no certificate throws for the entry under `/CRLs`; a
call with one OCSP response only returns and looks at neither entry. -/
theorem C29_witness :
    (∃ e, (createOrUpdateDSSCatalog brokenDssDocument ⟨[], [ascii "AQI="], []⟩).1 = .error e) ∧
      createOrUpdateDSSCatalog brokenDssDocument ⟨[], [], [ascii "AA=="]⟩ =
        (.ok (),
          ⟨[("DSS", .reference 2)],
            [(1, .other),
              (2, .dictionary
                [("Certs", .direct "null"), ("CRLs", .reference 1), ("OCSPs", .reference 3)] none),
              (3, .array [.reference 4]),
              (4, .dictionary [] (some [toByte 0]))]⟩) :=
  ⟨(C29_entry_that_is_no_array_is_rejected brokenDssDocument ⟨[], [ascii "AQI="], []⟩ 2
      [("Certs", .direct "null"), ("CRLs", .reference 1)] none (by decide) (by decide)).2.1
      (.reference 1) (by decide) (fun items h => PdfObject.noConfusion
        (Option.some.inj (h : some PdfObject.other = some (.array items)))) (Or.inr rfl) (by decide),
    ((C29_entry_that_is_no_array_is_rejected brokenDssDocument ⟨[], [], [ascii "AA=="]⟩ 2
      [("Certs", .direct "null"), ("CRLs", .reference 1)] none (by decide) (by decide)).2.2.2).trans
      (by decide)⟩

/-! ## The response and the validation data in `finishSigning` -/

theorem NoTokenFrame_refl (s : Session) : NoTokenFrame s s := ⟨[], by simp, by simp⟩

theorem NoTokenFrame_trans (a b c : Session) (h1 : NoTokenFrame a b) (h2 : NoTokenFrame b c) :
    NoTokenFrame a c := by
  obtain ⟨c1, e1, n1⟩ := h1
  obtain ⟨c2, e2, n2⟩ := h2
  refine ⟨c1 ++ c2, by rw [e2, e1, List.append_assoc], ?_⟩
  intro token hc
  rcases List.mem_append.mp hc with h | h
  · exact n1 token h
  · exact n2 token h

theorem writeDss_no_token (env : Env) (vd : ValidationData) :
    Keeps NoTokenFrame (writeDss env vd) := by
  intro s
  rw [writeDss_apply]
  cases s._stream with
  | none => exact NoTokenFrame_refl s
  | some dev =>
      simp only
      cases env.throws s.log (.Seek 0) with
      | some e => exact ⟨_, rfl, by simp⟩
      | none =>
          simp only
          cases env.throws (s.log ++ [.Seek 0]) .Load with
          | some e => exact ⟨_, rfl, by simp⟩
          | none =>
              simp only
              rcases hc : createOrUpdateDSSCatalog (env.load (s.log ++ [.Seek 0, .Load])) vd with
                ⟨r, d⟩
              rw [hc]
              cases r with
              | error e => exact ⟨_, rfl, by simp⟩
              | ok u =>
                  simp only
                  cases env.throws (s.log ++ [.Seek 0, .Load, .createOrUpdateDSSCatalog vd])
                      (.SaveUpdate d .noMetadataUpdateNoFlateCompress) with
                  | some e => exact ⟨_, rfl, by simp⟩
                  | none => exact ⟨_, rfl, by simp⟩

theorem writeDssAtLevel_no_token (env : Env) (level : String) (vd : Option ValidationData) :
    Keeps NoTokenFrame (writeDssAtLevel env level vd) := by
  intro s
  rw [writeDssAtLevel_apply]
  split
  · cases vd with
    | none => exact NoTokenFrame_refl s
    | some v => exact writeDss_no_token env v s
  · exact NoTokenFrame_refl s

theorem ctxFinishSigning_no_token (env : Env) : Keeps NoTokenFrame (ctxFinishSigning env) := by
  intro s
  obtain ⟨-, h, -⟩ := ctxFinishSigning_frame env s
  exact ⟨_, h, by simp⟩

/-- C3: at every level but `ADES_B_B`, for every collaborators and every
base64 text that decodes to bytes `tsr` which `d2i_TS_RESP` reads as a
response, a `finishSigning` that has decoded the signature and found the
signer hands to `SetTimestampToken` the bytes `tsr` of the whole decoded
response, and makes no other `SetTimestampToken` call; so it does not hand
over the token that `ExtractTimestampTokenFromTSR` returns for `tsr`, where
that differs from `tsr`. -/
theorem C3_whole_response_handed_to_signer (env : Env) (signedHash base64Tsr buff tsr : Bytes)
    (validationData : Option ValidationData) (s : Session)
    (hlevel : s._conformanceLevel ≠ "ADES_B_B")
    (hhash : ConvertDSSHashToSignedHash signedHash = .ok buff)
    (hsigner : s._signer.isSome = true)
    (hdecode : bioReadBase64 base64Tsr (base64Tsr.length * 3 / 4) = some tsr)
    (hparse : (env.d2i_TS_RESP tsr).isSome = true) :
    ∃ calls, (finishSigning env signedHash base64Tsr validationData s).2.log =
        s.log ++ Call.SetTimestampToken tsr :: calls ∧
      (∀ token, Call.SetTimestampToken token ∉ calls) ∧
      ∀ token, ExtractTimestampTokenFromTSR env tsr = .ok token → token ≠ tsr →
        Call.SetTimestampToken token ∉ Call.SetTimestampToken tsr :: calls := by
  have hd : DecodeBase64Tsr env base64Tsr = .ok tsr :=
    (DecodeBase64Tsr_ok_iff env base64Tsr tsr).mpr ⟨hdecode, hparse⟩
  have h1 : storeSignedHash signedHash s =
      (.ok (), { s with _results := s._results.assign s._signerId buff }) := by
    rw [storeSignedHash_apply, hhash]
    simp only
    rw [if_neg]
    cases h : s._signer with
    | none => rw [h] at hsigner; cases hsigner
    | some signer => simp
  have h2 := attachTimestamp_hands_decoded_response env base64Tsr tsr
    { s with _results := s._results.assign s._signerId buff } hlevel hd
  have hrest : Keeps NoTokenFrame
      (ctxFinishSigning env >>= fun _ =>
        writeDssAtLevel env "ADES_B_LT" validationData >>= fun _ =>
          writeDssAtLevel env "ADES_B_LTA" validationData) :=
    Keeps.bind NoTokenFrame_trans (ctxFinishSigning_no_token env) (fun _ =>
      Keeps.bind NoTokenFrame_trans (writeDssAtLevel_no_token env _ _) (fun _ =>
        writeDssAtLevel_no_token env _ _))
  have hlog : ∃ calls, (finishSigning env signedHash base64Tsr validationData s).2.log =
      s.log ++ Call.SetTimestampToken tsr :: calls ∧
      (∀ token, Call.SetTimestampToken token ∉ calls) := by
    rw [finishSigning_log]
    unfold finishSigningTry
    rw [bind_ok h1]
    rcases seq_cases (attachTimestamp env base64Tsr) _
        { s with _results := s._results.assign s._signerId buff } with ⟨_, e⟩ | ⟨err, _, e⟩
    · rw [e]
      obtain ⟨calls, hc, hno⟩ := hrest (attachTimestamp env base64Tsr
        { s with _results := s._results.assign s._signerId buff }).2
      refine ⟨calls, ?_, hno⟩
      rw [hc, h2]
      simp
    · rw [e]
      refine ⟨[], ?_, by simp⟩
      rw [h2]
  obtain ⟨calls, hc, hno⟩ := hlog
  refine ⟨calls, hc, hno, ?_⟩
  intro token _ hne hmem
  rcases List.mem_cons.mp hmem with h | h
  · injection h with h
    exact hne h
  · exact hno token h

set_option maxRecDepth 100000 in
/-- Witness of C3: the example session at `ADES_B_T` and the response
`rejectedTsr`, which holds no token at all: the seven bytes of the response
are what `SetTimestampToken` receives. -/
theorem C3_witness :
    (∃ what, ExtractTimestampTokenFromTSR exampleEnv rejectedTsr = .error (.runtime_error what)) ∧
      ∃ calls, (finishSigning exampleEnv tinySignedHash (b64Encode rejectedTsr) none
          (startedSession "ADES_B_T")).2.log =
        (startedSession "ADES_B_T").log ++ Call.SetTimestampToken rejectedTsr :: calls :=
  ⟨⟨_, rfl⟩,
    (C3_whole_response_handed_to_signer exampleEnv tinySignedHash (b64Encode rejectedTsr) [0]
      rejectedTsr none (startedSession "ADES_B_T") (by decide) (by decide) (by decide)
      (by decide) (by decide)).imp (fun _ h => h.1)⟩

theorem finishSigning_writes_dss (env : Env) (signedHash base64Tsr : Bytes)
    (vd : ValidationData) (s : Session)
    (hlevel : s._conformanceLevel = "ADES_B_LT" ∨ s._conformanceLevel = "ADES_B_LTA")
    (hok : (finishSigning env signedHash base64Tsr (some vd) s).1 = .ok ()) :
    ∃ before doc, (finishSigning env signedHash base64Tsr (some vd) s).2.log =
      s.log ++ before ++ [.Seek 0, .Load, .createOrUpdateDSSCatalog vd,
        .SaveUpdate doc .noMetadataUpdateNoFlateCompress] := by
  rw [finishSigning_fst] at hok
  rw [finishSigning_log]
  have F1 := storeSignedHash_frame signedHash s
  have C := finishSigningTry_cases env signedHash base64Tsr (some vd) s
  dsimp only at C
  generalize (storeSignedHash signedHash s).2 = s1 at F1 C
  have F2 := attachTimestamp_frame env base64Tsr s1
  generalize (attachTimestamp env base64Tsr s1).2 = s2 at F2 C
  have F3 := ctxFinishSigning_frame env s2
  generalize (ctxFinishSigning env s2).2 = s3 at F3 C
  have F4 := writeDssAtLevel_frame env "ADES_B_LT" (some vd) s3
  generalize (writeDssAtLevel env "ADES_B_LT" (some vd) s3).2 = s4 at F4 C
  have F5 := writeDssAtLevel_frame env "ADES_B_LTA" (some vd) s4
  obtain ⟨l1, v1⟩ := F1
  obtain ⟨v2, ts, l2, -⟩ := F2
  obtain ⟨v3, l3, -⟩ := F3
  obtain ⟨v4, dss4, l4, e4, f4⟩ := F4
  obtain ⟨v5, dss5, l5, e5, f5⟩ := F5
  have L3 : s3.log = s.log ++ (ts ++ [.FinishSigning .ctx s2._results]) := by
    rw [l3, l2, l1, List.append_assoc]
  have V3 : s3._conformanceLevel = s._conformanceLevel := v3.trans (v2.trans v1)
  have V4 : s4._conformanceLevel = s._conformanceLevel := v4.trans V3
  rcases C with ⟨e, h⟩ | ⟨e, h⟩ | ⟨e, h⟩ | ⟨-, e, h⟩ | ⟨-, ok4, h⟩
  · rw [h] at hok
    cases hok
  · rw [h] at hok
    cases hok
  · rw [h] at hok
    cases hok
  · rw [h] at hok
    cases hok
  · rw [h] at hok ⊢
    rcases hlevel with hl | hl
    · have hne5 : s4._conformanceLevel ≠ "ADES_B_LTA" := by
        rw [V4, hl]
        exact lt_ne_lta
      have h5 := (e5 (Or.inl hne5)).1
      obtain ⟨doc, hd, -⟩ := f4 vd (V3.trans hl) rfl ok4
      subst h5 hd
      refine ⟨ts ++ [.FinishSigning .ctx s2._results], doc, ?_⟩
      rw [l5, l4, L3]
      simp
    · have hne4 : s3._conformanceLevel ≠ "ADES_B_LT" := by
        rw [V3, hl]
        exact lt_ne_lta.symm
      have h4 := (e4 (Or.inl hne4)).1
      obtain ⟨doc, hd, -⟩ := f5 vd (V4.trans hl) rfl hok
      subst h4 hd
      refine ⟨ts ++ [.FinishSigning .ctx s2._results], doc, ?_⟩
      rw [l5, l4, L3]
      simp

/-- C5: for every collaborators and every session at `ADES_B_LT` or
`ADES_B_LTA`, a `finishSigning` that is given validation data which is
present and empty and that returns has called `createOrUpdateDSSCatalog` with
it and has saved the changed document: these are the last calls it makes.
`finishSigningLTA` with the same data makes no DSS call, whatever the
response and the session. -/
theorem C5_empty_validation_data_written_by_finishSigning (env : Env)
    (signedHash base64Tsr : Bytes) (vd : ValidationData) (s : Session)
    (hempty : vd.empty = true)
    (hlevel : s._conformanceLevel = "ADES_B_LT" ∨ s._conformanceLevel = "ADES_B_LTA")
    (hok : (finishSigning env signedHash base64Tsr (some vd) s).1 = .ok ()) :
    (∃ before doc, (finishSigning env signedHash base64Tsr (some vd) s).2.log =
        s.log ++ before ++ [.Seek 0, .Load, .createOrUpdateDSSCatalog vd,
          .SaveUpdate doc .noMetadataUpdateNoFlateCompress]) ∧
      ∀ (base64Tsr2 : Bytes) (t : Session),
        ∃ calls, (finishSigningLTA env base64Tsr2 (some vd) t).2.log = t.log ++ calls ∧
          ∀ c ∈ calls, isDssCall c = false :=
  ⟨finishSigning_writes_dss env signedHash base64Tsr vd s hlevel hok,
    fun base64Tsr2 t => finishSigningLTA_skips_empty_data env base64Tsr2 (some vd)
      (fun w hw => by cases hw; exact hempty) t⟩

set_option maxRecDepth 100000 in
/-- Witness of C5: the example session at `ADES_B_LT`, the response
`rejectedTsr` and validation data with three empty lists. The document
saved has a `/DSS` entry and an empty dictionary more than the one loaded. -/
theorem C5_witness :
    emptyValidationData.empty = true ∧
      (finishSigning exampleEnv tinySignedHash (b64Encode rejectedTsr) (some emptyValidationData)
          (startedSession "ADES_B_LT")).2.log =
        (startedSession "ADES_B_LT").log ++
          [.SetTimestampToken rejectedTsr, .FinishSigning .ctx ⟨[(0, [0])]⟩, .Seek 0, .Load,
            .createOrUpdateDSSCatalog emptyValidationData,
            .SaveUpdate
              ⟨[("Type", .direct "/Catalog"), ("Pages", .reference 1), ("DSS", .reference 2)],
                [(1, .other), (2, .dictionary [] none)]⟩
              .noMetadataUpdateNoFlateCompress] ∧
      ∃ before doc,
        (finishSigning exampleEnv tinySignedHash (b64Encode rejectedTsr)
            (some emptyValidationData) (startedSession "ADES_B_LT")).2.log =
          (startedSession "ADES_B_LT").log ++ before ++
            [.Seek 0, .Load, .createOrUpdateDSSCatalog emptyValidationData,
              .SaveUpdate doc .noMetadataUpdateNoFlateCompress] :=
  ⟨by decide, by decide,
    (C5_empty_validation_data_written_by_finishSigning exampleEnv tinySignedHash
      (b64Encode rejectedTsr) emptyValidationData (startedSession "ADES_B_LT") (by decide)
      (Or.inl (by decide)) (by decide)).1⟩

/-! ## Counterexamples for the CRL address and the DSS entries -/

set_option maxRecDepth 100000 in
/-- Counterexample to C25: the first URI among the full names of
`emptyUriCertificate` is the empty string, and `getCrlFromCertificate`
returns the URI after it. -/
theorem C25_counterexample :
    emptyUriEnv.d2i_X509 emptyUriCertificateDer = .ok emptyUriCertificate ∧
      emptyUriCertificate.crl_distribution_points = some
        [⟨some (.fullname [.GEN_URI [], .GEN_URI (ascii "http://ca.example/tsa.crl")])⟩] ∧
      firstUri (fullNames
        [⟨some (.fullname [.GEN_URI [], .GEN_URI (ascii "http://ca.example/tsa.crl")])⟩]) =
          some [] ∧
      getCrlFromCertificate emptyUriEnv (b64Encode emptyUriCertificateDer) =
        .ok (ascii "http://ca.example/tsa.crl") := by
  decide

set_option maxRecDepth 100000 in
/-- Counterexample to C29: in `danglingCrlsDocument` the entry under `/CRLs`
refers to object 3, which does not exist. With one certificate and one CRL
the array made for `/Certs` becomes object 3, the entry under `/CRLs` then
refers to it, and the call returns with both streams in that array. -/
theorem C29_counterexample :
    PdfIndirectObjectList.GetObject danglingCrlsDocument.objects 3 = none ∧
      dssEntry danglingCrlsDocument 2 "CRLs" = some (.reference 3) ∧
      exampleValidationData.crlsBase64 = [ascii "AQI="] ∧
      createOrUpdateDSSCatalog danglingCrlsDocument exampleValidationData =
        (.ok (),
          ⟨[("DSS", .reference 2)],
            [(1, .other),
              (2, .dictionary [("CRLs", .reference 3), ("Certs", .reference 3)] none),
              (3, .array [.reference 4, .reference 5]),
              (4, .dictionary [] (some [toByte 0])),
              (5, .dictionary [] (some [toByte 1, toByte 2]))]⟩) := by
  decide

end PoDoFo
